import Mathlib

/-!
# esp8266_ups: remote management plane

A shallow embedding of the OTA updater (`components/ota/ota.c`), of the
broker connection controller (`components/mqtt_client/mqtt_client.c`), of the
command dispatcher (`main/cmd_recv.c`), of the POST branch of the captive
portal (`components/http_server/http_server2.c`) and of the battery logic of
the control loop (`main/ups.c`), followed by theorems about them.

Conventions of the embedding

* A byte is a `Nat` below 256; a C buffer is a `List Nat` holding the bytes
  from a pointer to the end of its allocation.  A pointer into the receive
  buffer is the offset from the start of that buffer.  Bytes past the end of
  a list read as 0.
* `size_t` is 32 bits wide on the ESP8266: arithmetic on `size_t` values is
  written on `Nat` with an explicit `% SIZE_MOD`.
* A C function that can run into undefined behaviour (a wild `memcpy`, a
  division by zero) or that can loop forever returns a `Res`.
-/

set_option maxRecDepth 100000

namespace Ota

/-! ## Results of C code -/

/-- Outcome of running a piece of C code: a normal result, a fault (undefined
behaviour: the device crashes), or no return at all. -/
inductive Res (α : Type) where
  | ok (a : α)
  | fault
  | diverge
  deriving DecidableEq, Repr

/-! ## Constants and types of ota.c -/

def OTA_WRITE_BUFFSIZE : Nat := 1500

def RECV_BUFFSIZE : Nat := 1500

/-- Number of values of a `size_t` (32 bits). -/
def SIZE_MOD : Nat := 4294967296

/-- The `esp_ota_firm_state_t` enumeration. -/
inductive esp_ota_firm_state where
  | ESP_OTA_INIT
  | ESP_OTA_PREPARE
  | ESP_OTA_START
  | ESP_OTA_RECVED
  | ESP_OTA_FINISH
  deriving DecidableEq, Repr

open esp_ota_firm_state

/-- The integer value of an enumerator (`ESP_OTA_INIT = 0`, then counting up). -/
def esp_ota_firm_state.toNat : esp_ota_firm_state → Nat
  | ESP_OTA_INIT => 0
  | ESP_OTA_PREPARE => 1
  | ESP_OTA_START => 2
  | ESP_OTA_RECVED => 3
  | ESP_OTA_FINISH => 4

/-- The `esp_ota_firm_t` record.  `buf` is a pointer into the receive buffer:
`none` is NULL, `some o` is the address of byte `o` of the buffer. -/
structure esp_ota_firm where
  ota_num : Nat
  update_ota_num : Nat
  state : esp_ota_firm_state
  content_len : Nat
  read_bytes : Nat
  write_bytes : Nat
  ota_size : Nat
  ota_offset : Nat
  buf : Option Nat
  bytes : Nat
  deriving DecidableEq, Repr

/-- Result codes of `esp_err_t` that ota.c and mqtt_client.c return. -/
inductive esp_err_t where
  | ESP_OK
  | ESP_FAIL
  deriving DecidableEq, Repr

open esp_err_t

/-! ## The C library functions used by the header parser -/

/-- The bytes of a string literal (without a terminating NUL). -/
def bytesOf (s : String) : List Nat := s.toList.map Char.toNat

/-- C `strstr` for a needle without NUL bytes: offset of the first occurrence
of `needle` in the NUL-terminated string at `hay`, `none` for NULL. -/
def strstr : List Nat → List Nat → Option Nat
  | [], needle => if needle.isEmpty then some 0 else none
  | h :: t, needle =>
    if needle.isPrefixOf (h :: t) then some 0
    else if h = 0 then none
    else (strstr t needle).map (· + 1)

def isspace (c : Nat) : Bool := c == 32 || (9 ≤ c && c ≤ 13)

def isdigit (c : Nat) : Bool := 48 ≤ c && c ≤ 57

/-- Digit loop of `atoi`; `none` when the scan runs off the end of the array. -/
def atoi_digits : List Nat → Nat → Option Nat
  | [], _ => none
  | c :: rest, acc => if isdigit c then atoi_digits rest (acc * 10 + (c - 48)) else some acc

/-- Sign and digits of `atoi`; the value saturates at `LONG_MAX` / `LONG_MIN`
as newlib's `strtol` does (`long` is 32 bits). -/
def atoi_signed : List Nat → Option Int
  | [] => none
  | c :: rest =>
    if c = 45 then (atoi_digits rest 0).map (fun n => - ((min n 2147483648 : Nat) : Int))
    else if c = 43 then (atoi_digits rest 0).map (fun n => ((min n 2147483647 : Nat) : Int))
    else (atoi_digits (c :: rest) 0).map (fun n => ((min n 2147483647 : Nat) : Int))

/-- C `atoi` on a character array: leading white space, optional sign, decimal
digits.  `none` when the scan runs off the end of the array. -/
def atoi : List Nat → Option Int
  | [] => none
  | c :: rest => if isspace c then atoi rest else atoi_signed (c :: rest)

/-- Conversion of an `int` to `size_t`. -/
def int_to_size (v : Int) : Nat := (v % (SIZE_MOD : Int)).toNat

/-! ## read_until -/

/-- The function `read_until(buffer, delim, len)`: the loop `while (buffer[i] != delim && i < len) ++i;`
followed by `return i + 1`, written as a recursion on the advancing pointer. -/
def read_until : List Nat → Nat → Nat → Nat
  | _, _, 0 => 1
  | [], delim, len + 1 => if 0 ≠ delim then read_until [] delim len + 1 else 1
  | b :: rest, delim, len + 1 => if b ≠ delim then read_until rest delim len + 1 else 1

/-! ## _esp_ota_firm_parse_http -/

/-- The statements of lines 106-110: `ptr += 16`, `ptr2 = strstr(ptr, "\r\n")`,
the copy into the 32-byte `length_str` and `atoi`.  `p` is the offset `strstr`
found "Content-Length" at.  Faults: `ptr2` is NULL (the `memcpy` length is
`NULL - ptr`), the copy overruns `length_str`, or `atoi` runs off its end. -/
def parse_content_length (text : List Nat) (p : Nat) : Res Nat :=
  let ptr := text.drop (p + 16)
  match strstr ptr [13, 10] with
  | none => Res.fault
  | some d =>
    if 32 < d then Res.fault
    else
      match atoi (ptr.take d ++ List.replicate (32 - d) 0) with
      | none => Res.fault
      | some v => Res.ok (int_to_size v)

/-- Lines 110-117: store the content length and derive `ota_size` and
`ota_offset`.  `split` is true in a build with `CONFIG_ESPTOOLPY_FLASHSIZE_1MB`
defined and `CONFIG_ESP8266_BOOT_COPY_APP` undefined.  Dividing by
`ota_num = 0` is a fault. -/
def set_content_length (split : Bool) (firm : esp_ota_firm) (len : Nat) : Res esp_ota_firm :=
  if split then
    if firm.ota_num = 0 then Res.fault
    else
      let sz := len / firm.ota_num
      Res.ok { firm with content_len := len, ota_size := sz,
                         ota_offset := (sz * firm.update_ota_num) % SIZE_MOD }
  else
    Res.ok { firm with content_len := len, ota_size := len, ota_offset := 0 }

/-- Lines 105-119: the `if (content_len == 0 && strstr(text, "Content-Length"))` block. -/
def find_content_length (split : Bool) (firm : esp_ota_firm) (text : List Nat) :
    Res esp_ota_firm :=
  if firm.content_len = 0 then
    match strstr text (bytesOf "Content-Length") with
    | some p =>
      match parse_content_length text p with
      | Res.ok len => set_content_length split firm len
      | Res.fault => Res.fault
      | Res.diverge => Res.diverge
    | none => Res.ok firm
  else Res.ok firm

/-- The `while` loop of `_esp_ota_firm_parse_http`, from position `i`.  The
result carries the record as the loop left it and `some parse_len` when the C
function returns true, `none` when it returns false.  Every iteration that
continues advances `i`, so `total_len - i + 1` units of fuel always suffice. -/
def parse_http_loop (split : Bool) (text : List Nat) (total_len : Nat) :
    Nat → esp_ota_firm → Nat → Res (esp_ota_firm × Option Nat)
  | 0, _, _ => Res.diverge
  | fuel + 1, firm, i =>
    if text.getD i 0 ≠ 0 ∧ i < total_len then
      match find_content_length split firm text with
      | Res.ok firm1 =>
        let i_read_len := read_until (text.drop i) 10 (total_len - i)
        if i_read_len > total_len - i then Res.ok (firm1, none)
        else if i_read_len = 2 then
          if firm1.content_len = 0 then Res.ok (firm1, none)
          else Res.ok (firm1, some (i + 2))
        else parse_http_loop split text total_len fuel firm1 (i + i_read_len)
      | Res.fault => Res.fault
      | Res.diverge => Res.diverge
    else Res.ok (firm, none)

/-- The function `_esp_ota_firm_parse_http(ota_firm, text, total_len, &parse_len)`.  The only
caller passes `total_len ≤ RECV_BUFFSIZE`, so the `int` position and the
`size_t` length never wrap. -/
def _esp_ota_firm_parse_http (split : Bool) (firm : esp_ota_firm) (text : List Nat)
    (total_len : Nat) : Res (esp_ota_firm × Option Nat) :=
  parse_http_loop split text total_len (total_len + 1) firm 0

/-! ## esp_ota_firm_do_parse_msg and esp_ota_firm_parse_msg -/

/-- The function `esp_ota_firm_do_parse_msg(ota_firm, in_buf, in_len)` where `in_buf` is
byte `in_off` of the receive buffer `recv_buf`.  Returns the updated record
and `parsed_bytes`. -/
def esp_ota_firm_do_parse_msg (split : Bool) (firm : esp_ota_firm) (recv_buf : List Nat)
    (in_off in_len : Nat) : Res (esp_ota_firm × Nat) :=
  match firm.state with
  | ESP_OTA_INIT =>
    match _esp_ota_firm_parse_http split firm (recv_buf.drop in_off) in_len with
    | Res.ok (firm1, some tmp) => Res.ok ({ firm1 with state := ESP_OTA_PREPARE }, tmp)
    | Res.ok (firm1, none) => Res.ok (firm1, in_len)
    | Res.fault => Res.fault
    | Res.diverge => Res.diverge
  | ESP_OTA_PREPARE =>
    let read_bytes := (firm.read_bytes + in_len) % SIZE_MOD
    if read_bytes ≥ firm.ota_offset then
      let n := read_bytes - firm.ota_offset
      Res.ok ({ firm with read_bytes := read_bytes,
                          buf := some (in_off + (in_len + SIZE_MOD - n) % SIZE_MOD),
                          bytes := n,
                          write_bytes := (firm.write_bytes + n) % SIZE_MOD,
                          state := ESP_OTA_START }, in_len)
    else Res.ok ({ firm with read_bytes := read_bytes }, in_len)
  | ESP_OTA_START =>
    if (firm.write_bytes + in_len) % SIZE_MOD > firm.ota_size then
      let bytes := (firm.ota_size + SIZE_MOD - firm.write_bytes) % SIZE_MOD
      Res.ok ({ firm with bytes := bytes, state := ESP_OTA_RECVED, buf := some in_off,
                          write_bytes := (firm.write_bytes + bytes) % SIZE_MOD }, in_len)
    else
      Res.ok ({ firm with bytes := in_len, buf := some in_off,
                          write_bytes := (firm.write_bytes + in_len) % SIZE_MOD }, in_len)
  | ESP_OTA_RECVED => Res.ok ({ firm with state := ESP_OTA_FINISH }, 0)
  | ESP_OTA_FINISH => Res.ok (firm, 0)

/-- The `do ... while (parse_bytes != in_len)` loop of `esp_ota_firm_parse_msg`,
entered with `parse_bytes` bytes already consumed. -/
def parse_msg_loop (split : Bool) (recv_buf : List Nat) (in_len : Nat) :
    Nat → esp_ota_firm → Nat → Res esp_ota_firm
  | 0, _, _ => Res.diverge
  | fuel + 1, firm, parse_bytes =>
    match esp_ota_firm_do_parse_msg split firm recv_buf parse_bytes
        ((in_len + SIZE_MOD - parse_bytes) % SIZE_MOD) with
    | Res.ok (firm1, bytes) =>
      let parse_bytes1 := (parse_bytes + bytes) % SIZE_MOD
      if parse_bytes1 ≠ in_len then parse_msg_loop split recv_buf in_len fuel firm1 parse_bytes1
      else Res.ok firm1
    | Res.fault => Res.fault
    | Res.diverge => Res.diverge

/-- Number of loop rounds `esp_ota_firm_parse_msg` is followed for: a header
step and a body step finish every call that finishes at all (a call entered in
`ESP_OTA_RECVED` or `ESP_OTA_FINISH` with a non-empty chunk consumes nothing
round after round and never returns). -/
def PARSE_MSG_FUEL : Nat := 3

/-- The function `esp_ota_firm_parse_msg(ota_firm, in_buf, in_len)` with `in_buf` the start
of `recv_buf`. -/
def esp_ota_firm_parse_msg (split : Bool) (firm : esp_ota_firm) (recv_buf : List Nat)
    (in_len : Nat) : Res esp_ota_firm :=
  parse_msg_loop split recv_buf in_len PARSE_MSG_FUEL firm 0

def esp_ota_firm_is_finished (firm : esp_ota_firm) : Bool :=
  firm.state == ESP_OTA_FINISH || firm.state == ESP_OTA_RECVED

def esp_ota_firm_can_write (firm : esp_ota_firm) : Bool :=
  firm.state == ESP_OTA_START || firm.state == ESP_OTA_RECVED

def esp_ota_firm_get_write_buf (firm : esp_ota_firm) : Option Nat := firm.buf

def esp_ota_firm_get_write_bytes (firm : esp_ota_firm) : Nat := firm.bytes

/-- The function `esp_ota_firm_init`: the record is zeroed, then `ota_num` is the number of
OTA partitions and `update_ota_num` the index of the partition to update. -/
def esp_ota_firm_init (ota_num update_ota_num : Nat) : esp_ota_firm :=
  { ota_num := ota_num % 256, update_ota_num := update_ota_num % 256, state := ESP_OTA_INIT,
    content_len := 0, read_bytes := 0, write_bytes := 0, ota_size := 0, ota_offset := 0,
    buf := none, bytes := 0 }

/-! ## ota_start -/

/-- What one call of `recv(socket_id, recv_buf, RECV_BUFFSIZE, 0)` yields: a
negative result, 0 (the peer closed the connection) or received bytes. -/
inductive recv_result where
  | error
  | closed
  | data (chunk : List Nat)
  deriving DecidableEq, Repr

/-- Everything outside ota.c that `ota_start` depends on: whether a progress
callback was passed, the results of the library calls in the order they are
made, the partition table facts read by `esp_ota_firm_init`, and the results
of the successive `recv` and `esp_ota_write` calls. -/
structure ota_env where
  progress_cb : Bool
  connect_ok : Bool
  asprintf_ok : Bool
  send_ok : Bool
  begin_ok : Bool
  ota_num : Nat
  update_ota_num : Nat
  malloc_write_ok : Bool
  malloc_recv_ok : Bool
  recvs : List recv_result
  write_ok : Nat → Bool
  end_ok : Bool
  set_boot_ok : Bool

/-- Calls `ota_start` makes that the theorems observe, with their arguments. -/
inductive ota_event where
  | progress (percent : Nat)
  | recv
  | ota_write (data : List Nat)
  | ota_end
  | set_boot_partition
  deriving DecidableEq, Repr

/-- The receive buffer after `memset(recv_buf, 0, RECV_BUFFSIZE)` and a `recv`
that stored `chunk`.  The allocation has one spare byte past `RECV_BUFFSIZE`
that the program never writes; it is taken as 0. -/
def recv_buffer (chunk : List Nat) : List Nat :=
  chunk ++ List.replicate (RECV_BUFFSIZE + 1 - chunk.length) 0

/-- The call `memcpy(ota_write_data, esp_ota_firm_get_write_buf(..), esp_ota_firm_get_write_bytes(..))`:
the bytes copied, or a fault when the source is NULL, the copy overruns the
`OTA_WRITE_BUFFSIZE + 1` bytes of `ota_write_data`, or it reads past the
receive buffer. -/
def copy_write_data (firm : esp_ota_firm) (recv_buf : List Nat) : Res (List Nat) :=
  match esp_ota_firm_get_write_buf firm with
  | none => Res.fault
  | some off =>
    let n := esp_ota_firm_get_write_bytes firm
    if OTA_WRITE_BUFFSIZE + 1 < n ∨ recv_buf.length < off + n then Res.fault
    else Res.ok ((recv_buf.drop off).take n)

/-- The argument of `progress_cb((100 * bytes_written)/ota_firm.content_len)`:
the `int` product wraps to 32 bits and is divided as unsigned. -/
def progress_percent (bytes_written content_len : Nat) : Res Nat :=
  if content_len = 0 then Res.fault
  else Res.ok (((100 * bytes_written) % SIZE_MOD) / content_len)

/-- Lines 375-397 of `ota_start`: the final progress report, `esp_ota_end`
and `esp_ota_set_boot_partition`. -/
def ota_finalize (env : ota_env) (trace : List ota_event) : Res esp_err_t × List ota_event :=
  let trace1 := if env.progress_cb then trace ++ [ota_event.progress 100] else trace
  let trace2 := trace1 ++ [ota_event.ota_end]
  if !env.end_ok then (Res.ok ESP_FAIL, trace2)
  else
    let trace3 := trace2 ++ [ota_event.set_boot_partition]
    if !env.set_boot_ok then (Res.ok ESP_FAIL, trace3)
    else (Res.ok ESP_OK, trace3)

/-- The receive loop `while (flag)` of `ota_start` (lines 332-373) followed
by the finalisation, run against the remaining `recv` results.  `writes` counts
the `esp_ota_write` calls made so far.  When the results run out `recv` blocks
for ever. -/
def ota_loop (split : Bool) (env : ota_env) :
    List recv_result → esp_ota_firm → Nat → Nat → List ota_event →
      Res esp_err_t × List ota_event
  | [], _, _, _, trace => (Res.diverge, trace ++ [ota_event.recv])
  | recv_result.error :: _, _, _, _, trace => (Res.ok ESP_FAIL, trace ++ [ota_event.recv])
  | recv_result.closed :: _, _, _, _, trace => ota_finalize env (trace ++ [ota_event.recv])
  | recv_result.data chunk :: rest, firm, bytes_written, writes, trace =>
    let received := chunk.take RECV_BUFFSIZE
    let buff_len := received.length
    let recv_buf := recv_buffer received
    let trace0 := trace ++ [ota_event.recv]
    if buff_len = 0 then ota_finalize env trace0
    else
      match esp_ota_firm_parse_msg split firm recv_buf buff_len with
      | Res.fault => (Res.fault, trace0)
      | Res.diverge => (Res.diverge, trace0)
      | Res.ok firm1 =>
        if !esp_ota_firm_can_write firm1 then
          ota_loop split env rest firm1 bytes_written writes trace0
        else
          match copy_write_data firm1 recv_buf with
          | Res.fault => (Res.fault, trace0)
          | Res.diverge => (Res.diverge, trace0)
          | Res.ok ota_write_data =>
            let trace1 := trace0 ++ [ota_event.ota_write ota_write_data]
            if !env.write_ok writes then (Res.ok ESP_FAIL, trace1)
            else
              let bytes_written1 := (bytes_written + esp_ota_firm_get_write_bytes firm1) % SIZE_MOD
              if env.progress_cb then
                match progress_percent bytes_written1 firm1.content_len with
                | Res.fault => (Res.fault, trace1)
                | Res.diverge => (Res.diverge, trace1)
                | Res.ok percent =>
                  if esp_ota_firm_is_finished firm1 then
                    ota_finalize env (trace1 ++ [ota_event.progress percent])
                  else
                    ota_loop split env rest firm1 bytes_written1 (writes + 1)
                      (trace1 ++ [ota_event.progress percent])
              else if esp_ota_firm_is_finished firm1 then ota_finalize env trace1
              else ota_loop split env rest firm1 bytes_written1 (writes + 1) trace1

/-- The function `ota_start(ota_server_ip, ota_server_port, ota_filename, progress_cb)`:
the return value, or fault / no return, together with the observed calls. -/
def ota_start (split : Bool) (env : ota_env) : Res esp_err_t × List ota_event :=
  let trace := if env.progress_cb then [ota_event.progress 0] else []
  if !env.connect_ok then (Res.ok ESP_FAIL, trace)
  else if !env.asprintf_ok then (Res.ok ESP_FAIL, trace)
  else if !env.send_ok then (Res.ok ESP_FAIL, trace)
  else if !env.begin_ok then (Res.ok ESP_FAIL, trace)
  else
    let ota_firm := esp_ota_firm_init env.ota_num env.update_ota_num
    if !env.malloc_write_ok then (Res.ok ESP_FAIL, trace)
    else if !env.malloc_recv_ok then (Res.ok ESP_FAIL, trace)
    else ota_loop split env env.recvs ota_firm 0 0 trace

/-- The data arguments of the `esp_ota_write` calls in a trace, in order. -/
def written_chunks : List ota_event → List (List Nat)
  | [] => []
  | ota_event.ota_write d :: rest => d :: written_chunks rest
  | _ :: rest => written_chunks rest

/-- All bytes handed to `esp_ota_write` in a trace, in order. -/
def written_bytes (trace : List ota_event) : List Nat := (written_chunks trace).flatten

/-- The arguments of the progress callback in a trace, in order. -/
def progress_values : List ota_event → List Nat
  | [] => []
  | ota_event.progress v :: rest => v :: progress_values rest
  | _ :: rest => progress_values rest

/-- An environment in which every library call succeeds, for a device with
two OTA partitions updating partition 1, receiving `recvs`. -/
def env_all_ok (cb : Bool) (recvs : List recv_result) : ota_env :=
  { progress_cb := cb, connect_ok := true, asprintf_ok := true, send_ok := true,
    begin_ok := true, ota_num := 2, update_ota_num := 1, malloc_write_ok := true,
    malloc_recv_ok := true, recvs := recvs, write_ok := fun _ => true, end_ok := true,
    set_boot_ok := true }

/-- The HTTP response of the worked example: a status line, a content length
of 10, the blank line and a 10-byte body (49 bytes). -/
def sample_response : List Nat :=
  bytesOf "HTTP/1.0 200 OK\r\nContent-Length: 10\r\n\r\n0123456789"

/-! ## Worked examples -/

/-- The record after the header of the sample response has been parsed. -/
def sample_after_header (n u : Nat) : esp_ota_firm :=
  { esp_ota_firm_init n u with state := ESP_OTA_PREPARE, content_len := 10, ota_size := 10 }

/-- The record after the body of the sample response has been marked. -/
def sample_after_body (n u : Nat) : esp_ota_firm :=
  { sample_after_header n u with state := ESP_OTA_START, read_bytes := 10, write_bytes := 10,
                                 buf := some 39, bytes := 10 }

/-- The `recv` results when the sample response arrives whole and the server
then closes the connection. -/
def one_chunk : List recv_result := [recv_result.data sample_response, recv_result.closed]

/-- The `recv` results when the sample response arrives as its first `k` bytes,
then the rest, and the server then closes the connection. -/
def two_chunks (k : Nat) : List recv_result :=
  [recv_result.data (sample_response.take k), recv_result.data (sample_response.drop k),
   recv_result.closed]

/-- A response that announces 5 bytes and carries 10 in the same chunk. -/
def oversize_response : List Nat :=
  bytesOf "HTTP/1.0 200 OK\r\nContent-Length: 5\r\n\r\n0123456789"

/-- A response announcing 20 bytes with its 20-byte body, for the split layout. -/
def split_layout_response : List Nat :=
  bytesOf "HTTP/1.0 200 OK\r\nContent-Length: 20\r\n\r\n0123456789abcdefghij"

/-- A chunk without any newline: the first header line cannot be delimited. -/
def unterminated_line : List Nat := bytesOf "HTTP/1.0 200 OK"

/-- A header block whose blank line comes without a Content-Length line. -/
def header_without_length : List Nat := bytesOf "HTTP/1.0 200 OK\r\n\r\n"

/-- A trace in which neither `esp_ota_end` nor `esp_ota_set_boot_partition`
has been called. -/
def no_final_call (trace : List ota_event) : Prop :=
  ota_event.ota_end ∉ trace ∧ ota_event.set_boot_partition ∉ trace

/-- The environment of the sample run in which `esp_ota_end` reports an error. -/
def env_end_fails : ota_env := { env_all_ok true one_chunk with end_ok := false }

/-- The phases seen while `esp_ota_firm_do_parse_msg` is applied to one input
after the other (receive buffer, offset of `in_buf`, `in_len`), starting from
`firm`: the phase before each step and the phase after the last one.  The run
ends early at a step that faults. -/
def phase_trace (split : Bool) : esp_ota_firm → List (List Nat × Nat × Nat) →
    List esp_ota_firm_state
  | firm, [] => [firm.state]
  | firm, (recv_buf, in_off, in_len) :: rest =>
    match esp_ota_firm_do_parse_msg split firm recv_buf in_off in_len with
    | Res.ok (firm1, _) => firm.state :: phase_trace split firm1 rest
    | Res.fault => [firm.state]
    | Res.diverge => [firm.state]

/-- The record the header parser leaves for `split_layout_response` in the
split-layout build of a device with two OTA partitions updating partition 1. -/
def split_layout_after_header : esp_ota_firm :=
  { esp_ota_firm_init 2 1 with content_len := 20, ota_size := 10, ota_offset := 10 }

/-! ## Header blocks -/

/-- The text of header lines, each followed by "\r\n". -/
def header_lines : List (List Nat) → List Nat
  | [] => []
  | l :: rest => l ++ [13, 10] ++ header_lines rest

/-- A complete header block: the header lines, then the blank line "\r\n". -/
def header_block (lines : List (List Nat)) : List Nat := header_lines lines ++ [13, 10]

/-- The value of a decimal numeral given by its digit characters. -/
def decimal_value (ds : List Nat) : Nat := ds.foldl (fun acc c => acc * 10 + (c - 48)) 0

/-- The header line "Content-Length: N" for the numeral `ds`. -/
def content_length_line (ds : List Nat) : List Nat := bytesOf "Content-Length: " ++ ds

/-- A response whose Content-Length line comes after another header line that
contains the text "Content-Length". -/
def shadowed_length_response : List Nat :=
  bytesOf "HTTP/1.0 200 OK\r\nX-Content-Length: 99\r\nContent-Length: 10\r\n\r\n0123456789"

/-- The record the header parser leaves for `shadowed_length_response` on a
device with one OTA partition. -/
def shadowed_after_header : esp_ota_firm :=
  { esp_ota_firm_init 1 0 with content_len := 99, ota_size := 99 }

/-! ## Runs of the state machine -/

/-- The record after `esp_ota_firm_parse_msg` has been called on one input after the
other (receive buffer and `in_len`), as the receive loop of `ota_start` does
with the chunks it receives.  The run ends at the first call that faults or
does not return. -/
def parse_msg_run (split : Bool) : esp_ota_firm → List (List Nat × Nat) → Res esp_ota_firm
  | firm, [] => Res.ok firm
  | firm, (recv_buf, in_len) :: rest =>
    match esp_ota_firm_parse_msg split firm recv_buf in_len with
    | Res.ok firm1 => parse_msg_run split firm1 rest
    | Res.fault => Res.fault
    | Res.diverge => Res.diverge

/-- The phases in which `esp_ota_firm_parse_msg` is entered. -/
def entry_phase (firm : esp_ota_firm) : Bool :=
  firm.state == ESP_OTA_INIT || firm.state == ESP_OTA_PREPARE || firm.state == ESP_OTA_START

/-- A first chunk that ends inside the Content-Length line: the number is not
yet followed by "\r\n". -/
def truncated_length_chunk : List Nat := bytesOf "HTTP/1.0 200 OK\r\nContent-Length: 10"

/-- The record `esp_ota_firm_parse_msg` leaves for `oversize_response` in the
whole-content-length build of a device with two OTA partitions. -/
def oversize_after_body : esp_ota_firm :=
  { esp_ota_firm_init 2 1 with state := ESP_OTA_START, content_len := 5, read_bytes := 10,
                               write_bytes := 10, ota_size := 5, buf := some 38, bytes := 10 }

/-- The record `split_layout_after_header` once the header step has moved it to
the phase `ESP_OTA_PREPARE`. -/
def split_layout_after_header_prepare : esp_ota_firm :=
  { split_layout_after_header with state := ESP_OTA_PREPARE }

/-- The record after a further chunk of 3 bytes has been parsed from
`oversize_after_body`. -/
def oversize_after_next_chunk : esp_ota_firm :=
  { oversize_after_body with state := ESP_OTA_RECVED, buf := some 0, bytes := 4294967291,
                             write_bytes := 5 }

end Ota

namespace Mqtt

open Ota (esp_err_t)
open Ota.esp_err_t

/-! ## Constants and types of mqtt_client.c -/

/-- Delay between connection attempts, in ms: lower bound. -/
def MQTT_CLIENT_DELAY_MIN : Nat := 100

/-- Delay between connection attempts, in ms: upper bound. -/
def MQTT_CLIENT_DELAY_MAX : Nat := 600 * 1000

/-- Number of values of a `uint32_t`. -/
def UINT32_MOD : Nat := 4294967296

/-- The macro `MQTT_CLIENT_CB_TIMEOUT` in ticks; `tick_ms` is FreeRTOS's `portTICK_RATE_MS`. -/
def MQTT_CLIENT_CB_TIMEOUT (tick_ms : Nat) : Nat := (60 * 1000) / tick_ms

/-- The macro `MQTT_CLIENT_CHECK_TIMEOUT` in ticks. -/
def MQTT_CLIENT_CHECK_TIMEOUT (tick_ms : Nat) : Nat := (10 * 1000) / tick_ms

/-- The `error_t` enumeration of mqtt_client.c. -/
inductive error_t where
  | MQTT_ERROR_OK
  | MQTT_ERROR_CONNECT
  | MQTT_ERROR_SUBSCRIBE
  | MQTT_ERROR_PUBLISH
  deriving DecidableEq, Repr

open error_t

/-- The fields of `mqtt_client_ctrl_t` the modelled functions read: the lwIP
client pointer (`none` is NULL, `some a` the address `a`) and the stored
result code. -/
structure mqtt_client_ctrl_t where
  mqtt_client : Option Nat
  error : error_t
  deriving DecidableEq, Repr

/-- Calls into the lwIP MQTT client and FreeRTOS made by mqtt_client.c. -/
inductive mqtt_call where
  | is_connected (client : Nat)
  | publish (client : Nat) (topic data : List Nat) (len qos retain : Nat)
  | disconnect
  | vTaskDelay (ticks : Nat)
  | gethostbyname
  | client_connect
  | semaphore_take (ticks : Nat)
  | set_inpub_callback
  | subscribe
  deriving DecidableEq, Repr

/-! ## mqtt_client_publish -/

/-- The function `mqtt_client_publish(ctrl_handle, topic, data, len, qos, retain)`.
`ctrl_handle` and `data` are `none` for NULL.  `connected` is what
`mqtt_client_is_connected` answers and `publish_ok` whether `mqtt_publish`
returns `ERR_OK`, should they be called.  Returns the result code and the
calls made. -/
def mqtt_client_publish (ctrl_handle : Option mqtt_client_ctrl_t) (topic : List Nat)
    (data : Option (List Nat)) (len qos retain : Nat) (connected publish_ok : Bool) :
    esp_err_t × List mqtt_call :=
  match ctrl_handle with
  | none => (ESP_FAIL, [])
  | some mqtt_client_ctrl =>
    match mqtt_client_ctrl.mqtt_client with
    | none => (ESP_FAIL, [])
    | some mqtt_client =>
      match data with
      | none => (ESP_FAIL, [])
      | some bytes =>
        if len = 0 then (ESP_FAIL, [])
        else if !connected then (ESP_FAIL, [mqtt_call.is_connected mqtt_client])
        else if !publish_ok then
          (ESP_FAIL, [mqtt_call.is_connected mqtt_client,
                      mqtt_call.publish mqtt_client topic bytes len qos retain])
        else
          (ESP_OK, [mqtt_call.is_connected mqtt_client,
                    mqtt_call.publish mqtt_client topic bytes len qos retain])

/-- Whether a call is the network publish `mqtt_publish`. -/
def mqtt_call.is_publish : mqtt_call → Bool
  | mqtt_call.publish _ _ _ _ _ _ => true
  | _ => false

/-! ## mqtt_client_task -/

/-- Result of one `xSemaphoreTake(sem, MQTT_CLIENT_CHECK_TIMEOUT)` of the inner
loop: the semaphore was taken, or the wait timed out and
`mqtt_client_is_connected` then answers `connected`. -/
inductive health_wait where
  | taken
  | timed_out (connected : Bool)
  deriving DecidableEq, Repr

/-- What the outside world answers during one pass of the outer `while (1)`
of `mqtt_client_task`, in the order the pass asks: name resolution, the
connect call, the wait for the connect callback (`xSemaphoreTake` result and
the `error` field read after it), whether a subscribe topic is configured, the
subscribe call and its wait, and the waits of the inner loop. -/
structure cycle_env where
  resolve_ok : Bool
  connect_ok : Bool
  connect_taken : Bool
  connect_error : error_t
  sub_topic : Bool
  subscribe_ok : Bool
  subscribe_taken : Bool
  subscribe_error : error_t
  health : List health_wait
  deriving DecidableEq, Repr

/-- How one pass of the outer loop ends: `again` is true when control is back
at the top of the outer loop (a `continue`, or a `break` out of the inner
loop), false when the inner loop is still waiting; `delay` is the variable
`delay` at that point; `connected` tells whether line 262 (the delay reset) was
reached; `calls` are the calls made. -/
structure cycle_result where
  again : Bool
  delay : Nat
  connected : Bool
  calls : List mqtt_call
  deriving DecidableEq, Repr

/-- The inner `while (1)` of lines 265-286.  Returns the calls made and whether
the loop was left by `break`. -/
def health_loop (tick_ms client : Nat) : List health_wait → List mqtt_call × Bool
  | [] => ([], false)
  | health_wait.taken :: _ =>
    ([mqtt_call.semaphore_take (MQTT_CLIENT_CHECK_TIMEOUT tick_ms)], true)
  | health_wait.timed_out true :: rest =>
    let r := health_loop tick_ms client rest
    (mqtt_call.semaphore_take (MQTT_CLIENT_CHECK_TIMEOUT tick_ms) ::
      mqtt_call.is_connected client :: r.1, r.2)
  | health_wait.timed_out false :: _ =>
    ([mqtt_call.semaphore_take (MQTT_CLIENT_CHECK_TIMEOUT tick_ms),
      mqtt_call.is_connected client], true)

/-- One pass of the outer `while (1)` of `mqtt_client_task` (lines 191-287),
entered with the variable `delay` (a `uint32_t`, in ms). -/
def mqtt_client_cycle (tick_ms client : Nat) (delay : Nat) (c : cycle_env) : cycle_result :=
  let shifted := (delay * 2) % UINT32_MOD
  let delay1 := if shifted > MQTT_CLIENT_DELAY_MAX then MQTT_CLIENT_DELAY_MAX else shifted
  let calls0 := [mqtt_call.disconnect, mqtt_call.vTaskDelay (delay / tick_ms),
                 mqtt_call.gethostbyname]
  if !c.resolve_ok then ⟨true, delay1, false, calls0⟩
  else
    let calls1 := calls0 ++ [mqtt_call.client_connect]
    if !c.connect_ok then ⟨true, delay1, false, calls1⟩
    else
      let calls2 := calls1 ++ [mqtt_call.semaphore_take (MQTT_CLIENT_CB_TIMEOUT tick_ms)]
      if !c.connect_taken || c.connect_error != MQTT_ERROR_OK then ⟨true, delay1, false, calls2⟩
      else
        let inner (calls : List mqtt_call) : cycle_result :=
          let h := health_loop tick_ms client c.health
          ⟨h.2, MQTT_CLIENT_DELAY_MIN, true, calls ++ h.1⟩
        if c.sub_topic then
          let calls3 := calls2 ++ [mqtt_call.set_inpub_callback, mqtt_call.subscribe]
          if !c.subscribe_ok then ⟨true, delay1, false, calls3⟩
          else
            let calls4 := calls3 ++ [mqtt_call.semaphore_take (MQTT_CLIENT_CB_TIMEOUT tick_ms)]
            if !c.subscribe_taken || c.subscribe_error != MQTT_ERROR_OK then
              ⟨true, delay1, false, calls4⟩
            else inner calls4
        else inner calls2

/-- The outer loop of `mqtt_client_task` run against a script of passes, from
the variable `delay`: the results of the passes made, in order.  The run stops
at a pass whose inner loop never breaks and when the script ends. -/
def mqtt_client_task_loop (tick_ms client : Nat) : List cycle_env → Nat → List cycle_result
  | [], _ => []
  | c :: rest, delay =>
    let r := mqtt_client_cycle tick_ms client delay c
    if r.again then r :: mqtt_client_task_loop tick_ms client rest r.delay else [r]

/-- The function `mqtt_client_task`: the outer loop entered with `delay = MQTT_CLIENT_DELAY_MIN`. -/
def mqtt_client_task (tick_ms client : Nat) (script : List cycle_env) : List cycle_result :=
  mqtt_client_task_loop tick_ms client script MQTT_CLIENT_DELAY_MIN

/-- The sleep of a pass in ticks: the argument of its `vTaskDelay` call. -/
def cycle_result.sleep_ticks (r : cycle_result) : Option Nat :=
  r.calls.findSome? (fun c => match c with
    | mqtt_call.vTaskDelay t => some t
    | _ => none)

/-- The sleep of a pass in ms: the ticks it passes to `vTaskDelay` times the
length of a tick. -/
def cycle_result.sleep_ms (tick_ms : Nat) (r : cycle_result) : Option Nat :=
  r.sleep_ticks.map (· * tick_ms)

/-- The backoff series in the spec's words: the sleep before an attempt that
follows `k` consecutive failed attempts is `min (100 * 2 ^ k) 600000` ms, and
`k` starts again at 0 after a fully successful attempt.  `outcomes` tells for
each attempt in turn whether it fully succeeded. -/
def backoff_series : List Bool → Nat → List Nat
  | [], _ => []
  | succeeded :: rest, k =>
    min (100 * 2 ^ k) 600000 :: backoff_series rest (if succeeded then 0 else k + 1)

/-- The conditions of a publish in the spec's words: control handle and client
non-null, payload non-null, length non-zero and session connected. -/
def publish_allowed (ctrl_handle : Option mqtt_client_ctrl_t) (data : Option (List Nat))
    (len : Nat) (connected : Bool) : Bool :=
  (ctrl_handle.bind (fun c => c.mqtt_client)).isSome && data.isSome && len != 0 && connected

/-- Whether a pass of the outer loop is fully successful in the spec's words:
the name resolves, connect is accepted and confirmed by its callback, and, if a
subscribe topic is configured, subscribe is accepted and confirmed too. -/
def fully_successful (c : cycle_env) : Bool :=
  c.resolve_ok && c.connect_ok && c.connect_taken && c.connect_error == MQTT_ERROR_OK
    && (!c.sub_topic
        || (c.subscribe_ok && c.subscribe_taken && c.subscribe_error == MQTT_ERROR_OK))

/-- A pass in which the broker name does not resolve. -/
def cycle_unresolved : cycle_env :=
  { resolve_ok := false, connect_ok := true, connect_taken := true,
    connect_error := MQTT_ERROR_OK, sub_topic := true, subscribe_ok := true,
    subscribe_taken := true, subscribe_error := MQTT_ERROR_OK, health := [] }

/-- A pass that connects and subscribes, then loses the session at the first
health check. -/
def cycle_connected : cycle_env :=
  { resolve_ok := true, connect_ok := true, connect_taken := true,
    connect_error := MQTT_ERROR_OK, sub_topic := true, subscribe_ok := true,
    subscribe_taken := true, subscribe_error := MQTT_ERROR_OK,
    health := [health_wait.timed_out false] }

/-! ## mqtt_incoming_data_cb -/

/-- The lwIP flag set on the last chunk of an incoming publish. -/
def MQTT_DATA_FLAG_LAST : Nat := 1

/-- The function `mqtt_incoming_data_cb(arg, data, len, flags)`: the arguments
it passes to `message_received_cb`, `none` when `arg` is NULL (`arg_ok` false)
or no callback is registered (`cb_set` false). -/
def mqtt_incoming_data_cb (arg_ok cb_set : Bool) (data : List Nat) (len flags : Nat) :
    Option (List Nat × Nat × Bool) :=
  if !arg_ok then none
  else if !cb_set then none
  else some (data, len, (flags &&& MQTT_DATA_FLAG_LAST) != 0)

/-! ## The inner loop, one round at a time -/

/-- One round of the inner `while (1)` of `mqtt_client_task` (lines 265-286)
on the variables a round could write, the control block and `delay`: whether
the round ends in `break`, the control block and `delay` after it, and the
calls made.  The body holds no assignment. -/
def health_round (tick_ms client : Nat) (ctrl : mqtt_client_ctrl_t) (delay : Nat)
    (w : health_wait) : Bool × mqtt_client_ctrl_t × Nat × List mqtt_call :=
  match w with
  | health_wait.taken =>
    (true, ctrl, delay, [mqtt_call.semaphore_take (MQTT_CLIENT_CHECK_TIMEOUT tick_ms)])
  | health_wait.timed_out true =>
    (false, ctrl, delay, [mqtt_call.semaphore_take (MQTT_CLIENT_CHECK_TIMEOUT tick_ms),
                          mqtt_call.is_connected client])
  | health_wait.timed_out false =>
    (true, ctrl, delay, [mqtt_call.semaphore_take (MQTT_CLIENT_CHECK_TIMEOUT tick_ms),
                         mqtt_call.is_connected client])

/-- A pass that connects and subscribes, sees two timeouts with the session
connected, then a released signal. -/
def cycle_signalled : cycle_env :=
  { cycle_connected with
    health := [health_wait.timed_out true, health_wait.timed_out true, health_wait.taken] }

/-! ## mqtt_pub_request_cb -/

/-- The lwIP result code `ERR_OK`. -/
def ERR_OK : Int := 0

/-- The function `mqtt_pub_request_cb(arg, result)`: the control block after the call
and the number of `xSemaphoreGive(mqtt_client_ctrl->sem)` calls made.  `arg` is
`none` for NULL. -/
def mqtt_pub_request_cb (arg : Option mqtt_client_ctrl_t) (result : Int) :
    Option mqtt_client_ctrl_t × Nat :=
  match arg with
  | none => (none, 0)
  | some mqtt_client_ctrl =>
    if result ≠ ERR_OK then (some { mqtt_client_ctrl with error := MQTT_ERROR_PUBLISH }, 1)
    else (some mqtt_client_ctrl, 0)

/-- The lwIP result code `ERR_CONN` (not connected). -/
def ERR_CONN : Int := -11

end Mqtt

namespace Cmd

open Ota (esp_err_t Res bytesOf)
open Ota.esp_err_t

/-! ## cJSON: the parts of the library the dispatcher uses -/

/-- A member value of a JSON object as the dispatcher can tell it apart: a
number with its `valueint`, a string with its `valuestring`, a boolean, or
anything else (null, array, object, raw). -/
inductive cJSON_item where
  | number (valueint : Int)
  | string (valuestring : List Nat)
  | bool (value : Bool)
  | other
  deriving DecidableEq, Repr

/-- A parsed JSON text: an object with its named members in order, or a value
that is not an object. -/
inductive cJSON where
  | object (members : List (List Nat × cJSON_item))
  | not_object
  deriving DecidableEq, Repr

/-- Library function `cJSON_GetObjectItemCaseSensitive`: the first member with
exactly this name, `none` for NULL. -/
def cJSON_GetObjectItemCaseSensitive (root : cJSON) (name : List Nat) : Option cJSON_item :=
  match root with
  | cJSON.object members => (members.find? (fun m => m.1 == name)).map (fun m => m.2)
  | cJSON.not_object => none

def cJSON_IsNumber : cJSON_item → Bool
  | cJSON_item.number _ => true
  | _ => false

def cJSON_IsString : cJSON_item → Bool
  | cJSON_item.string _ => true
  | _ => false

/-- The field `valueint` of an item (0 when the item is not a number). -/
def cJSON_item.valueint : cJSON_item → Int
  | cJSON_item.number v => v
  | _ => 0

/-- The field `valuestring` of an item (empty when the item is not a string). -/
def cJSON_item.valuestring : cJSON_item → List Nat
  | cJSON_item.string s => s
  | _ => []

/-- C `strlen`: the number of bytes before the first NUL. -/
def strlen (s : List Nat) : Nat := (s.takeWhile (fun b => b != 0)).length

/-! ## Constants and types of cmd_recv.c and cmd_recv.h -/

def MQTT_BROKER : List Nat := bytesOf "192.168.1.135"

def MQTT_SUB_TOPIC_PREFIX : List Nat := bytesOf "sensors/cmd/"

def MQTT_SUB_QOS : Nat := 1

def MQTT_PUB_TOPIC_PREFIX : List Nat := bytesOf "sensors/data/"

def MQTT_PUB_QOS : Nat := 1

/-- Max number of commands to queue. -/
def CMD_PARSE_QUEUE_LEN : Nat := 5

def CMD_JSON_CMD : List Nat := bytesOf "cmd"

def CMD_JSON_TIME : List Nat := bytesOf "time"

def CMD_JSON_CHIP_MAC : List Nat := bytesOf "mac"

def CMD_JSON_CLIENT_ID : List Nat := bytesOf "id"

def CMD_JSON_CLIENT_NAME : List Nat := bytesOf "name"

def CMD_JSON_BROKER_IP : List Nat := bytesOf "ip"

def CMD_JSON_RESULT : List Nat := bytesOf "res"

def CMD_JSON_VOUT : List Nat := bytesOf "v_out"

def CMD_JSON_IOUT : List Nat := bytesOf "i_out"

def CMD_JSON_VBAT : List Nat := bytesOf "v_bat"

def CMD_JSON_VIN : List Nat := bytesOf "v_in "

def CMD_JSON_POFF : List Nat := bytesOf "p_off"

def CMD_JSON_BATD : List Nat := bytesOf "bat_discharged"

def CMD_JSON_BATC : List Nat := bytesOf "bat_connected"

def CMD_JSON_FAN : List Nat := bytesOf "fan_high"

def CMD_JSON_ADC_ERR : List Nat := bytesOf "adc_err"

def CMD_JSON_UPTIME : List Nat := bytesOf "up"

def CMD_JSON_FW_VER : List Nat := bytesOf "fw_v"

def CMD_JSON_HEAP : List Nat := bytesOf "heap"

def CMD_JSON_SERVER : List Nat := bytesOf "server"

def CMD_JSON_PORT : List Nat := bytesOf "port"

def CMD_JSON_FILENAME : List Nat := bytesOf "file"

def CMD_JSON_AP_MODE : List Nat := bytesOf "ap"

def CMD_JSON_BRIGHTNESS : List Nat := bytesOf "b"

def CMD_JSON_CCS811_BASELINE : List Nat := bytesOf "baseline"

def NVS_MQTT_CLIENT_ID : List Nat := bytesOf "MqttClienId"

def NVS_MQTT_BROKER_IP : List Nat := bytesOf "MqttBrokerIP"

def NVS_WIFI_AP_MODE : List Nat := bytesOf "WiFiApMode"

def NVS_CCS811_BASELINE : List Nat := bytesOf "baseline"

/-- The enumerators of `cmd_number_t`, as the `int` values the `switch` of
`cmd_recv` compares `valueint` with. -/
def CMD_DO_REBOOT : Int := 0

def CMD_DO_OTA : Int := 1

def CMD_GET_SYS_INFO : Int := 2

def CMD_GET_UPS_INFO : Int := 3

def CMD_SET_MQTT_CLIENT_NAME : Int := 4

def CMD_SET_MQTT_SERVER_IP : Int := 5

def CMD_SET_DISPLAY_BRIGHTNESS : Int := 6

def CMD_SET_CCS811_BASELINE : Int := 7

/-- The `int` value of a result code: `ESP_OK` is 0 and `ESP_FAIL` is -1. -/
def esp_err_code : esp_err_t → Int
  | ESP_OK => 0
  | ESP_FAIL => -1

/-- The `cmd_data_t` record: the copied payload with its terminating NUL, its
length and the "last chunk" flag. -/
structure cmd_data_t where
  data : List Nat
  len : Nat
  last : Bool
  deriving DecidableEq, Repr

/-- The fields of `ups_data_t` that `send_ups_info` reports. -/
structure ups_data_t where
  v_out : Int
  i_out : Int
  v_bat : Int
  v_in : Int
  power_off : Int
  fan_high : Bool
  adc_errors : Int
  bat_discharged : Int
  bat_connected : Bool
  deriving DecidableEq, Repr

/-! ## The settings store (NVS library) -/

/-- A value stored under a key. -/
inductive nvs_value where
  | u8 (v : Nat)
  | u16 (v : Nat)
  | str (s : List Nat)
  deriving DecidableEq, Repr

/-- The contents of the NVS namespace the device opens: keys with their values,
at most one entry per key. -/
abbrev nvs_store := List (List Nat × nvs_value)

/-- The store after a successful `nvs_set_...` of `key`. -/
def nvs_set (store : nvs_store) (key : List Nat) (v : nvs_value) : nvs_store :=
  (key, v) :: store.filter (fun e => e.1 != key)

/-- Library function `nvs_get_str`: the string stored under `key`, `none` when
the result is not `ESP_OK` (no such key, or a value of another type). -/
def nvs_get_str (store : nvs_store) (key : List Nat) : Option (List Nat) :=
  match store.find? (fun e => e.1 == key) with
  | some (_, nvs_value.str s) => some s
  | _ => none

/-- Library function `nvs_get_u16`: the value stored under `key`, `none` when
the result is not `ESP_OK`. -/
def nvs_get_u16 (store : nvs_store) (key : List Nat) : Option Nat :=
  match store.find? (fun e => e.1 == key) with
  | some (_, nvs_value.u16 v) => some v
  | _ => none

/-! ## The inbound mailbox -/

/-- What `cmd_recv_cb` is seen to do: an allocation failed, `xQueueSend` was
called with this many ticks to wait, the "queue is full" drop was reported. -/
inductive cb_event where
  | alloc_failed
  | queue_send (ticks_to_wait : Nat)
  | discarded
  deriving DecidableEq, Repr

/-- FreeRTOS `xQueueSend` with zero ticks to wait on a queue of `capacity`
items: the item goes to the back when there is room (`pdPASS`), otherwise the
call returns at once with the queue unchanged. -/
def xQueueSend (capacity : Nat) (queue : List cmd_data_t) (item : cmd_data_t) :
    Bool × List cmd_data_t :=
  if queue.length < capacity then (true, queue ++ [item]) else (false, queue)

/-- The bytes `memcpy(data_buf, data, len)` copies followed by the NUL stored at
`data_buf[len]`. -/
def copy_payload (data : List Nat) (len : Nat) : List Nat :=
  data.take len ++ List.replicate (len - data.length) 0 ++ [0]

/-- The function `cmd_recv_cb(data, len, last)` on the queue created by
`cmd_recv_init` (`CMD_PARSE_QUEUE_LEN` items).  `data_ok` and `cmd_ok` tell
whether the two `malloc` calls succeed.  Returns the queue and what was done. -/
def cmd_recv_cb (data_ok cmd_ok : Bool) (queue : List cmd_data_t) (data : List Nat)
    (len : Nat) (last : Bool) : List cmd_data_t × List cb_event :=
  if !data_ok then (queue, [cb_event.alloc_failed])
  else if !cmd_ok then (queue, [cb_event.alloc_failed])
  else
    let cmd : cmd_data_t := { data := copy_payload data len, len := (len + 1) % 65536, last := last }
    match xQueueSend CMD_PARSE_QUEUE_LEN queue cmd with
    | (true, queue1) => (queue1, [cb_event.queue_send 0])
    | (false, queue1) => (queue1, [cb_event.queue_send 0, cb_event.discarded])

/-- One inbound chunk as the network layer hands it to the callback, with the
outcome of the two allocations made for it. -/
structure inbound_chunk where
  data : List Nat
  len : Nat
  last : Bool
  data_ok : Bool
  cmd_ok : Bool
  deriving DecidableEq, Repr

/-- The callback run once per chunk, in arrival order, nothing being dequeued in
between. -/
def deliver : List inbound_chunk → List cmd_data_t → List cmd_data_t × List cb_event
  | [], queue => (queue, [])
  | c :: rest, queue =>
    let r := cmd_recv_cb c.data_ok c.cmd_ok queue c.data c.len c.last
    let r1 := deliver rest r.1
    (r1.1, r.2 ++ r1.2)

/-- The queue entry `cmd_recv_cb` builds for a chunk. -/
def queued_entry (c : inbound_chunk) : cmd_data_t :=
  { data := copy_payload c.data c.len, len := (c.len + 1) % 65536, last := c.last }

/-! ## The dispatcher -/

/-- How a dispatcher function ends: it returns, or the device restarts inside it
(`esp_restart` does not return), or it faults, or it never returns. -/
inductive Run (α : Type) where
  | returned (a : α)
  | restarted
  | fault
  | hung
  deriving DecidableEq, Repr

/-- Calls of the dispatcher that the theorems observe, with their arguments (and
result where the code looks at it). -/
inductive cmd_event where
  | json_parse (data : List Nat)
  | nvs_set_u8 (key : List Nat) (value : Nat) (ok : Bool)
  | nvs_set_str (key : List Nat) (value : List Nat) (ok : Bool)
  | ota_start (server : List Nat) (port : Int) (file : List Nat)
  | mqtt_client_publish (topic : List Nat) (data : List Nat) (len qos retain : Nat)
      (result : esp_err_t)
  | vTaskDelay (ticks : Nat)
  | esp_restart
  | fragmented
  deriving DecidableEq, Repr

/-- Everything outside cmd_recv.c that the handling of one command depends on:
the cJSON parser and printer, whether the cJSON calls that build a message all
succeed, `time(NULL)`, the NVS handle (0 when the store is not open) and the
result of an `nvs_set_...` call, the OTA updater's build flag and environment,
the tick length, the globals set by `mqtt_start`, the state of the broker
session, and the values reported by `send_sys_info` and `ups_get_data`. -/
structure cmd_env where
  parse : List Nat → Option cJSON
  print : List (List Nat × cJSON_item) → Option (List Nat)
  json_ok : Bool
  time : Int
  nvs_handle : Nat
  nvs_write_ok : Bool
  ota_split : Bool
  ota : Ota.ota_env
  tick_ms : Nat
  mqtt_client_id : List Nat
  mqtt_pub_topic : List Nat
  ctrl_handle : Option Mqtt.mqtt_client_ctrl_t
  connected : Bool
  publish_ok : Bool
  base_mac : List Nat
  fw_version : List Nat
  free_heap : Int
  uptime : Int
  ups_data : ups_data_t

/-- The state the dispatcher works on: the settings store and the calls made so
far. -/
structure cmd_state where
  store : nvs_store
  trace : List cmd_event
  deriving DecidableEq, Repr

/-- The function `do_reboot`: a delay of 500 ms, then `esp_restart`. -/
def do_reboot (env : cmd_env) (st : cmd_state) : Run esp_err_t × cmd_state :=
  (Run.restarted,
   { st with trace := st.trace ++ [cmd_event.vTaskDelay (500 / env.tick_ms),
                                   cmd_event.esp_restart] })

/-- The tail shared by `send_cmd_result`, `send_ups_info` and `send_sys_info`:
`cJSON_Print(root)`, then `mqtt_client_publish(ctrl_handle, mqtt_pub_topic,
string, strlen(string), MQTT_PUB_QOS, 0)`, whose result is returned.  The length
parameter is a `u16_t`.  A NULL from `cJSON_Print` is passed to `strlen`
unchecked: a fault. -/
def publish_json (env : cmd_env) (st : cmd_state) (root : List (List Nat × cJSON_item)) :
    Run esp_err_t × cmd_state :=
  match env.print root with
  | none => (Run.fault, st)
  | some string =>
    let len := strlen string % 65536
    let ret := (Mqtt.mqtt_client_publish env.ctrl_handle env.mqtt_pub_topic (some string) len
      MQTT_PUB_QOS 0 env.connected env.publish_ok).1
    (Run.returned ret,
     { st with trace := st.trace ++
        [cmd_event.mqtt_client_publish env.mqtt_pub_topic string len MQTT_PUB_QOS 0 ret] })

/-- The JSON object `send_cmd_result(cmd, res)` builds. -/
def cmd_result_json (env : cmd_env) (cmd : Int) (res : Int) : List (List Nat × cJSON_item) :=
  [(CMD_JSON_CMD, cJSON_item.number cmd),
   (CMD_JSON_CLIENT_ID, cJSON_item.string env.mqtt_client_id),
   (CMD_JSON_TIME, cJSON_item.number env.time),
   (CMD_JSON_RESULT, cJSON_item.string (if res = esp_err_code ESP_OK then bytesOf "OK"
                                         else bytesOf "ERROR"))]

/-- The function `send_cmd_result(cmd, res)`; `res` is the `int` value of the
`esp_err_t` argument.  When `cJSON_CreateObject` or one of the `cJSON_Add...`
calls fails it returns `ESP_FAIL` with nothing published. -/
def send_cmd_result (env : cmd_env) (st : cmd_state) (cmd : Int) (res : Int) :
    Run esp_err_t × cmd_state :=
  if !env.json_ok then (Run.returned ESP_FAIL, st)
  else publish_json env st (cmd_result_json env cmd res)

/-- The JSON object `send_ups_info` builds. -/
def ups_info_json (env : cmd_env) (d : ups_data_t) : List (List Nat × cJSON_item) :=
  [(CMD_JSON_CMD, cJSON_item.number CMD_GET_UPS_INFO),
   (CMD_JSON_CLIENT_ID, cJSON_item.string env.mqtt_client_id),
   (CMD_JSON_TIME, cJSON_item.number env.time),
   (CMD_JSON_VOUT, cJSON_item.number d.v_out),
   (CMD_JSON_IOUT, cJSON_item.number d.i_out),
   (CMD_JSON_VBAT, cJSON_item.number d.v_bat),
   (CMD_JSON_VIN, cJSON_item.number d.v_in),
   (CMD_JSON_POFF, cJSON_item.number d.power_off),
   (CMD_JSON_FAN, cJSON_item.bool d.fan_high),
   (CMD_JSON_ADC_ERR, cJSON_item.number d.adc_errors),
   (CMD_JSON_BATD, cJSON_item.number d.bat_discharged),
   (CMD_JSON_BATC, cJSON_item.bool d.bat_connected)]

/-- The function `send_ups_info(ups_data)`. -/
def send_ups_info (env : cmd_env) (st : cmd_state) (d : ups_data_t) :
    Run esp_err_t × cmd_state :=
  if !env.json_ok then (Run.returned ESP_FAIL, st)
  else publish_json env st (ups_info_json env d)

/-- The JSON object `send_sys_info` builds; `baseline` stays 0 when the store
has no such key. -/
def sys_info_json (env : cmd_env) (store : nvs_store) : List (List Nat × cJSON_item) :=
  [(CMD_JSON_CMD, cJSON_item.number CMD_GET_SYS_INFO),
   (CMD_JSON_CLIENT_ID, cJSON_item.string env.mqtt_client_id),
   (CMD_JSON_CHIP_MAC, cJSON_item.string env.base_mac),
   (CMD_JSON_CCS811_BASELINE,
    cJSON_item.number (((nvs_get_u16 store NVS_CCS811_BASELINE).getD 0 : Nat) : Int)),
   (CMD_JSON_TIME, cJSON_item.number env.time),
   (CMD_JSON_FW_VER, cJSON_item.string env.fw_version),
   (CMD_JSON_HEAP, cJSON_item.number env.free_heap),
   (CMD_JSON_UPTIME, cJSON_item.number env.uptime)]

/-- The function `send_sys_info()`. -/
def send_sys_info (env : cmd_env) (st : cmd_state) : Run esp_err_t × cmd_state :=
  if !env.json_ok then (Run.returned ESP_FAIL, st)
  else publish_json env st (sys_info_json env st.store)

/-- A call made for its effect only (`send_cmd_result(...)` as a statement):
what `next` does once it has returned, nothing more when it did not return. -/
def and_then (r : Run esp_err_t × cmd_state)
    (next : cmd_state → Run esp_err_t × cmd_state) : Run esp_err_t × cmd_state :=
  match r.1 with
  | Run.returned _ => next r.2
  | Run.restarted => (Run.restarted, r.2)
  | Run.fault => (Run.fault, r.2)
  | Run.hung => (Run.hung, r.2)

/-- The function `cmd_do_reboot(root)`.  The AP-mode flag is stored as a
`uint8_t`. -/
def cmd_do_reboot (env : cmd_env) (st : cmd_state) (root : cJSON) : Run esp_err_t × cmd_state :=
  match cJSON_GetObjectItemCaseSensitive root CMD_JSON_AP_MODE with
  | some ap_mode =>
    if !cJSON_IsNumber ap_mode then (Run.returned ESP_FAIL, st)
    else if env.nvs_handle ≠ 0 then
      let value := (ap_mode.valueint % 256).toNat
      if !env.nvs_write_ok then
        (Run.returned ESP_FAIL,
         { st with trace := st.trace ++ [cmd_event.nvs_set_u8 NVS_WIFI_AP_MODE value false] })
      else
        do_reboot env
          { store := nvs_set st.store NVS_WIFI_AP_MODE (nvs_value.u8 value),
            trace := st.trace ++ [cmd_event.nvs_set_u8 NVS_WIFI_AP_MODE value true] }
    else do_reboot env st
  | none => do_reboot env st

/-- The function `cmd_do_ota(root)`.  The updater is run without a progress
callback. -/
def cmd_do_ota (env : cmd_env) (st : cmd_state) (root : cJSON) : Run esp_err_t × cmd_state :=
  match cJSON_GetObjectItemCaseSensitive root CMD_JSON_SERVER with
  | none => (Run.returned ESP_FAIL, st)
  | some server =>
    if !cJSON_IsString server then (Run.returned ESP_FAIL, st)
    else
      match cJSON_GetObjectItemCaseSensitive root CMD_JSON_PORT with
      | none => (Run.returned ESP_FAIL, st)
      | some port =>
        if !cJSON_IsNumber port then (Run.returned ESP_FAIL, st)
        else
          match cJSON_GetObjectItemCaseSensitive root CMD_JSON_FILENAME with
          | none => (Run.returned ESP_FAIL, st)
          | some file =>
            if !cJSON_IsString file then (Run.returned ESP_FAIL, st)
            else
              let st1 : cmd_state :=
                { st with trace := st.trace ++
                    [cmd_event.ota_start server.valuestring port.valueint file.valuestring] }
              match (Ota.ota_start env.ota_split { env.ota with progress_cb := false }).1 with
              | Res.ok ESP_OK =>
                and_then (send_cmd_result env st1 CMD_DO_OTA (esp_err_code ESP_OK))
                  (fun st2 => do_reboot env st2)
              | Res.ok ESP_FAIL => (Run.returned ESP_FAIL, st1)
              | Res.fault => (Run.fault, st1)
              | Res.diverge => (Run.hung, st1)

/-- The function `cmd_set_mqtt_client_name(root)`. -/
def cmd_set_mqtt_client_name (env : cmd_env) (st : cmd_state) (root : cJSON) :
    Run esp_err_t × cmd_state :=
  match cJSON_GetObjectItemCaseSensitive root CMD_JSON_CLIENT_NAME with
  | none => (Run.returned ESP_FAIL, st)
  | some client_name =>
    if !cJSON_IsString client_name then (Run.returned ESP_FAIL, st)
    else if env.nvs_handle ≠ 0 then
      if !env.nvs_write_ok then
        (Run.returned ESP_FAIL,
         { st with trace := st.trace ++
            [cmd_event.nvs_set_str NVS_MQTT_CLIENT_ID client_name.valuestring false] })
      else
        let st1 : cmd_state :=
          { store := nvs_set st.store NVS_MQTT_CLIENT_ID (nvs_value.str client_name.valuestring),
            trace := st.trace ++
              [cmd_event.nvs_set_str NVS_MQTT_CLIENT_ID client_name.valuestring true] }
        and_then (send_cmd_result env st1 CMD_SET_MQTT_CLIENT_NAME (esp_err_code ESP_OK))
          (fun st2 => do_reboot env st2)
    else (Run.returned ESP_FAIL, st)

/-- The function `cmd_set_mqtt_broker_ip(root)`. -/
def cmd_set_mqtt_broker_ip (env : cmd_env) (st : cmd_state) (root : cJSON) :
    Run esp_err_t × cmd_state :=
  match cJSON_GetObjectItemCaseSensitive root CMD_JSON_BROKER_IP with
  | none => (Run.returned ESP_FAIL, st)
  | some broker_ip =>
    if !cJSON_IsString broker_ip then (Run.returned ESP_FAIL, st)
    else if env.nvs_handle ≠ 0 then
      if !env.nvs_write_ok then
        (Run.returned ESP_FAIL,
         { st with trace := st.trace ++
            [cmd_event.nvs_set_str NVS_MQTT_BROKER_IP broker_ip.valuestring false] })
      else
        let st1 : cmd_state :=
          { store := nvs_set st.store NVS_MQTT_BROKER_IP (nvs_value.str broker_ip.valuestring),
            trace := st.trace ++
              [cmd_event.nvs_set_str NVS_MQTT_BROKER_IP broker_ip.valuestring true] }
        and_then (send_cmd_result env st1 CMD_SET_MQTT_SERVER_IP (esp_err_code ESP_OK))
          (fun st2 => do_reboot env st2)
    else (Run.returned ESP_FAIL, st)

/-- The function `cmd_set_display_brightness(root)`: its body is
`return ESP_FAIL;`. -/
def cmd_set_display_brightness (_env : cmd_env) (st : cmd_state) (_root : cJSON) :
    Run esp_err_t × cmd_state :=
  (Run.returned ESP_FAIL, st)

/-- A handler call followed by `send_cmd_result(code, res)` where `res` may
depend on what the handler returned: the `case` bodies of `cmd_recv`. -/
def handler_then_result (env : cmd_env) (r : Run esp_err_t × cmd_state) (code : Int)
    (res : esp_err_t → Int) : Run esp_err_t × cmd_state :=
  match r.1 with
  | Run.returned ret =>
    and_then (send_cmd_result env r.2 code (res ret)) (fun st => (Run.returned ret, st))
  | Run.restarted => (Run.restarted, r.2)
  | Run.fault => (Run.fault, r.2)
  | Run.hung => (Run.hung, r.2)

/-- The `switch (cmd_nr->valueint)` of `cmd_recv`, giving `ret`. -/
def cmd_switch (env : cmd_env) (st : cmd_state) (root : cJSON) (code : Int) :
    Run esp_err_t × cmd_state :=
  if code = CMD_DO_REBOOT then
    handler_then_result env (cmd_do_reboot env st root) CMD_DO_REBOOT
      (fun _ => esp_err_code ESP_FAIL)
  else if code = CMD_DO_OTA then
    handler_then_result env (cmd_do_ota env st root) CMD_DO_OTA
      (fun _ => esp_err_code ESP_FAIL)
  else if code = CMD_GET_SYS_INFO then send_sys_info env st
  else if code = CMD_GET_UPS_INFO then send_ups_info env st env.ups_data
  else if code = CMD_SET_MQTT_CLIENT_NAME then
    handler_then_result env (cmd_set_mqtt_client_name env st root) CMD_SET_MQTT_CLIENT_NAME
      (fun _ => esp_err_code ESP_FAIL)
  else if code = CMD_SET_MQTT_SERVER_IP then
    handler_then_result env (cmd_set_mqtt_broker_ip env st root) CMD_SET_MQTT_SERVER_IP
      (fun _ => esp_err_code ESP_FAIL)
  else if code = CMD_SET_DISPLAY_BRIGHTNESS then
    handler_then_result env (cmd_set_display_brightness env st root) CMD_SET_DISPLAY_BRIGHTNESS
      (fun ret => esp_err_code ret)
  else (Run.returned ESP_OK, st)

/-- The function `cmd_recv(cmd)`.  The value returned stands for `ret`, which
the function only logs. -/
def cmd_recv (env : cmd_env) (st : cmd_state) (cmd : cmd_data_t) : Run esp_err_t × cmd_state :=
  let st0 : cmd_state := { st with trace := st.trace ++ [cmd_event.json_parse cmd.data] }
  match env.parse cmd.data with
  | none => (Run.returned ESP_OK, st0)
  | some root =>
    match cJSON_GetObjectItemCaseSensitive root CMD_JSON_CMD with
    | none => (Run.returned ESP_OK, st0)
    | some cmd_nr =>
      if !cJSON_IsNumber cmd_nr then (Run.returned ESP_OK, st0)
      else cmd_switch env st0 root cmd_nr.valueint

/-- The loop `while (1)` of `cmd_recv_task` (lines 556-569) run over the entries
it dequeues, each with the environment found while it is handled.  The loop
ends when the device restarts, faults or hangs; when the entries run out the
task is waiting on the empty queue. -/
def cmd_recv_task_loop : List (cmd_env × cmd_data_t) → cmd_state → Run Unit × cmd_state
  | [], st => (Run.returned (), st)
  | (env, cmd) :: rest, st =>
    if cmd.last then
      match cmd_recv env st cmd with
      | (Run.returned _, st1) => cmd_recv_task_loop rest st1
      | (Run.restarted, st1) => (Run.restarted, st1)
      | (Run.fault, st1) => (Run.fault, st1)
      | (Run.hung, st1) => (Run.hung, st1)
    else cmd_recv_task_loop rest { st with trace := st.trace ++ [cmd_event.fragmented] }

/-! ## mqtt_start -/

/-- What `mqtt_start` depends on besides the settings store: the NVS handle
(0 when the store is not open), the string `nvs_get_base_mac()` returns (`none`
for NULL), whether its four allocations succeed, and whether
`mqtt_client_start` returns `ESP_OK`. -/
structure mqtt_start_env where
  nvs_handle : Nat
  base_mac : Option (List Nat)
  calloc_id_ok : Bool
  calloc_ip_ok : Bool
  malloc_sub_ok : Bool
  malloc_pub_ok : Bool
  client_start_ok : Bool
  deriving DecidableEq, Repr

/-- The session configuration `mqtt_start` leaves on success: the fields it
sets in `mqtt_client_info` and the global `mqtt_pub_topic` (the global
`mqtt_client_id` is the field `client_id`). -/
structure mqtt_session where
  broker : List Nat
  sub_topic : List Nat
  sub_qos : Nat
  client_id : List Nat
  pub_topic : List Nat
  deriving DecidableEq, Repr

/-- The label `error:` of `mqtt_start`.  `free(broker_ip)` is applied to the
string literal `MQTT_BROKER` when no address was read from the store: a fault.
Otherwise the function returns `ESP_FAIL` (`none`). -/
def mqtt_start_error (broker_from_store : Bool) : Res (Option mqtt_session) :=
  if broker_from_store then Res.ok none else Res.fault

/-- The function `mqtt_start()` at boot (the global `mqtt_client_id` is NULL on
entry): `Res.ok (some s)` when it returns `ESP_OK` with the session `s`,
`Res.ok none` when it returns `ESP_FAIL`. -/
def mqtt_start (env : mqtt_start_env) (store : nvs_store) : Res (Option mqtt_session) :=
  let stored_id := if env.nvs_handle ≠ 0 then nvs_get_str store NVS_MQTT_CLIENT_ID else none
  if stored_id.isSome && !env.calloc_id_ok then mqtt_start_error false
  else
    let stored_ip := if env.nvs_handle ≠ 0 then nvs_get_str store NVS_MQTT_BROKER_IP else none
    if stored_ip.isSome && !env.calloc_ip_ok then mqtt_start_error true
    else
      let broker_ip := stored_ip.getD MQTT_BROKER
      let mqtt_client_id := match stored_id with
        | some id => some id
        | none => env.base_mac
      match mqtt_client_id with
      | none => Res.fault
      | some id =>
        if !env.malloc_sub_ok then mqtt_start_error stored_ip.isSome
        else if !env.malloc_pub_ok then mqtt_start_error stored_ip.isSome
        else if !env.client_start_ok then mqtt_start_error stored_ip.isSome
        else
          Res.ok (some { broker := broker_ip, sub_topic := MQTT_SUB_TOPIC_PREFIX ++ id,
                         sub_qos := MQTT_SUB_QOS, client_id := id,
                         pub_topic := MQTT_PUB_TOPIC_PREFIX ++ id })

/-! ## Worked examples -/

/-- An inbound chunk carrying `data` whole, with both allocations succeeding. -/
def chunk_of (data : List Nat) (last : Bool) : inbound_chunk :=
  { data := data, len := data.length, last := last, data_ok := true, cmd_ok := true }

/-- The event of handing the acknowledgement text `string` to
`mqtt_client_publish` on the outbound topic, with the result that call gives in
the environment. -/
def ack_event (env : cmd_env) (string : List Nat) : cmd_event :=
  cmd_event.mqtt_client_publish env.mqtt_pub_topic string (strlen string % 65536) MQTT_PUB_QOS 0
    (Mqtt.mqtt_client_publish env.ctrl_handle env.mqtt_pub_topic (some string)
      (strlen string % 65536) MQTT_PUB_QOS 0 env.connected env.publish_ok).1

/-- Whether an event is a successful write to the settings store. -/
def cmd_event.wrote : cmd_event → Bool
  | cmd_event.nvs_set_u8 _ _ ok => ok
  | cmd_event.nvs_set_str _ _ ok => ok
  | _ => false

/-- Decimal digits of a number, most significant first (up to 20 digits). -/
def decimal_digits : Nat → Nat → List Nat → List Nat
  | 0, _, acc => acc
  | fuel + 1, n, acc =>
    if n < 10 then (48 + n) :: acc
    else decimal_digits fuel (n / 10) ((48 + n % 10) :: acc)

/-- A compact JSON text for one member value. -/
def render_item : cJSON_item → List Nat
  | cJSON_item.number v =>
    if v < 0 then 45 :: decimal_digits 20 v.natAbs [] else decimal_digits 20 v.natAbs []
  | cJSON_item.string s => [34] ++ s ++ [34]
  | cJSON_item.bool true => bytesOf "true"
  | cJSON_item.bool false => bytesOf "false"
  | cJSON_item.other => bytesOf "null"

/-- A compact JSON text for the members of an object, without the braces. -/
def render_members : List (List Nat × cJSON_item) → List Nat
  | [] => []
  | [(name, item)] => [34] ++ name ++ [34, 58] ++ render_item item
  | (name, item) :: rest =>
    [34] ++ name ++ [34, 58] ++ render_item item ++ [44] ++ render_members rest

/-- A printer standing for `cJSON_Print` in the worked examples: the object as
compact JSON text. -/
def sample_print (members : List (List Nat × cJSON_item)) : Option (List Nat) :=
  some ([123] ++ render_members members ++ [125])

/-- The payloads of the worked examples, as stored by `cmd_recv_cb` (with the
terminating NUL), and what `cJSON_Parse` makes of them. -/
def sample_payloads : List (List Nat × cJSON) :=
  [(bytesOf "\x7b\"cmd\":0\x7d" ++ [0],
      cJSON.object [(CMD_JSON_CMD, cJSON_item.number 0)]),
   (bytesOf "\x7b\"cmd\":0,\"ap\":\"yes\"\x7d" ++ [0],
      cJSON.object [(CMD_JSON_CMD, cJSON_item.number 0),
                    (CMD_JSON_AP_MODE, cJSON_item.string (bytesOf "yes"))]),
   (bytesOf "\x7b\"cmd\":0,\"ap\":1\x7d" ++ [0],
      cJSON.object [(CMD_JSON_CMD, cJSON_item.number 0),
                    (CMD_JSON_AP_MODE, cJSON_item.number 1)]),
   (bytesOf "\x7b\"cmd\":1,\"server\":\"10.0.0.2\",\"port\":8070,\"file\":\"ups.bin\"\x7d" ++ [0],
      cJSON.object [(CMD_JSON_CMD, cJSON_item.number 1),
                    (CMD_JSON_SERVER, cJSON_item.string (bytesOf "10.0.0.2")),
                    (CMD_JSON_PORT, cJSON_item.number 8070),
                    (CMD_JSON_FILENAME, cJSON_item.string (bytesOf "ups.bin"))]),
   (bytesOf "\x7b\"cmd\":4,\"name\":\"attic\"\x7d" ++ [0],
      cJSON.object [(CMD_JSON_CMD, cJSON_item.number 4),
                    (CMD_JSON_CLIENT_NAME, cJSON_item.string (bytesOf "attic"))]),
   (bytesOf "\x7b\"cmd\":6,\"b\":1\x7d" ++ [0],
      cJSON.object [(CMD_JSON_CMD, cJSON_item.number 6),
                    (CMD_JSON_BRIGHTNESS, cJSON_item.number 1)]),
   (bytesOf "\x7b\"cmd\":7\x7d" ++ [0],
      cJSON.object [(CMD_JSON_CMD, cJSON_item.number 7)])]

/-- A parser standing for `cJSON_Parse` in the worked examples: it knows the
sample payloads and rejects every other text. -/
def sample_parse (data : List Nat) : Option cJSON :=
  (sample_payloads.find? (fun p => p.1 == data)).map (fun p => p.2)

/-- The environment of the worked examples: a device named "ups" with an open
settings store and a connected broker session, on which every library call
succeeds and the OTA updater receives the sample response. -/
def sample_env : cmd_env :=
  { parse := sample_parse, print := sample_print, json_ok := true, time := 1550306592,
    nvs_handle := 1, nvs_write_ok := true, ota_split := false,
    ota := Ota.env_all_ok false Ota.one_chunk, tick_ms := 10,
    mqtt_client_id := bytesOf "ups", mqtt_pub_topic := bytesOf "sensors/data/ups",
    ctrl_handle := some { mqtt_client := some 7, error := Mqtt.error_t.MQTT_ERROR_OK },
    connected := true, publish_ok := true, base_mac := bytesOf "84f3eb23bcd5",
    fw_version := bytesOf "0.0.5", free_heap := 60784, uptime := 38,
    ups_data := { v_out := 1210, i_out := 520, v_bat := 13450, v_in := 17650, power_off := 0,
                  fan_high := false, adc_errors := 0, bat_discharged := 0,
                  bat_connected := true } }

/-- A queue entry holding the text `s` as a complete message. -/
def entry_of (s : String) (last : Bool) : cmd_data_t :=
  { data := bytesOf s ++ [0], len := (bytesOf s).length + 1, last := last }

/-- The state at boot of the worked examples: an empty store, nothing done. -/
def empty_state : cmd_state := { store := [], trace := [] }

/-- What a dispatcher function made of the state `st`: it only added calls to
the trace, and either it ended in `esp_restart`, or it made no successful store
write, left the store as it was and did not restart. -/
def restarts_or_writes_nothing (st : cmd_state) (r : Run esp_err_t × cmd_state) : Prop :=
  ∃ new, r.2.trace = st.trace ++ new
    ∧ ((r.1 = Run.restarted ∧ new.getLast? = some cmd_event.esp_restart)
       ∨ (r.1 ≠ Run.restarted ∧ (∀ e ∈ new, cmd_event.wrote e = false)
          ∧ r.2.store = st.store))

/-- The first chunk of the fragmented message of the worked example: 128 blanks. -/
def fragment_head : List Nat := List.replicate 128 32

/-- The second and last chunk of that message: the text of a Reboot command. -/
def fragment_tail : List Nat := bytesOf "\x7b\"cmd\":0\x7d"

/-- The callback `cmd_recv_cb` reached through `mqtt_incoming_data_cb` for a
chunk of an incoming publish with the lwIP `flags`, both allocations
succeeding. -/
def inbound (data : List Nat) (flags : Nat) : List inbound_chunk :=
  match Mqtt.mqtt_incoming_data_cb true true data data.length flags with
  | some (d, len, last) => [{ data := d, len := len, last := last, data_ok := true, cmd_ok := true }]
  | none => []

/-- The sample environment with a heap too low for `cJSON_Print`: every call
returns NULL. -/
def sample_env_print_fails : cmd_env := { sample_env with print := fun _ => none }

end Cmd

namespace Http

open Ota (strstr bytesOf)

/-! ## Constants of http_server2.c -/

def WIFI_SSID_LEN_MAX : Nat := 24

def WIFI_PASS_LEN_MAX : Nat := 24

def HTTP_SSID_INPUT_NAME : List Nat := bytesOf "wifi_ssid"

def HTTP_PASS_INPUT_NAME : List Nat := bytesOf "wifi_pass"

/-- Number of values of a `uint32_t`. -/
def UINT32_MOD : Nat := 4294967296

/-- The value `a - b` stored in a `uint32_t`. -/
def sub_u32 (a b : Int) : Nat := ((a - b) % (UINT32_MOD : Int)).toNat

/-- The test `strncmp(rcv_buf, s, n) == 0` for a literal `s` of `n` bytes. -/
def starts_with (rcv_buf : List Nat) (s : String) : Bool := (bytesOf s).isPrefixOf rcv_buf

/-! ## The POST branch of http_server_task -/

/-- The variables `got_ssid` and `got_pass` after a request, and the lengths
passed to `memcpy(ssid, ssid_start, str_len)` and `memcpy(pass, pass_start, str_len)`
(`none` when the copy is not made). -/
structure post_fields where
  got_ssid : Bool
  got_pass : Bool
  ssid_copy : Option Nat
  pass_copy : Option Nat
  deriving DecidableEq, Repr

/-- Lines 99-131 of `http_server_task`: the body of `if (!strncmp(rcv_buf, "POST ", 5))`,
entered with the variables `got_ssid` and `got_pass`.  Pointers into the
request are offsets from `rcv_buf`; `ssid` and `pass` are arrays of
`WIFI_SSID_LEN_MAX + 1` and `WIFI_PASS_LEN_MAX + 1` bytes. -/
def parse_post (rcv_buf : List Nat) (rcv_len : Nat) (got_ssid got_pass : Bool) : post_fields :=
  match strstr rcv_buf HTTP_SSID_INPUT_NAME with
  | none => { got_ssid := got_ssid, got_pass := got_pass, ssid_copy := none, pass_copy := none }
  | some ssid_name =>
    match strstr rcv_buf HTTP_PASS_INPUT_NAME with
    | none => { got_ssid := got_ssid, got_pass := got_pass, ssid_copy := none, pass_copy := none }
    | some pass_name =>
      let ssid_start := ssid_name + (HTTP_SSID_INPUT_NAME.length + 1)
      let ssid_len := sub_u32 ((pass_name : Int) - (ssid_start : Int)) 1
      let ssid_ok := decide ((ssid_len + 1) % UINT32_MOD < WIFI_SSID_LEN_MAX + 1)
      let pass_start := pass_name + (HTTP_PASS_INPUT_NAME.length + 1)
      let pass_len := sub_u32 (rcv_len : Int) (pass_start : Int)
      let pass_ok := decide ((pass_len + 1) % UINT32_MOD < WIFI_PASS_LEN_MAX + 1)
      { got_ssid := ssid_ok, got_pass := pass_ok,
        ssid_copy := if ssid_ok then some ssid_len else none,
        pass_copy := if pass_ok then some pass_len else none }

/-- Lines 88-134: what a received request does to `got_ssid` and `got_pass`;
`none` when the method is neither GET nor POST and the request is dropped. -/
def http_request (rcv_buf : List Nat) (rcv_len : Nat) (got_ssid got_pass : Bool) :
    Option post_fields :=
  if !starts_with rcv_buf "GET " && !starts_with rcv_buf "POST " then none
  else if starts_with rcv_buf "POST " then some (parse_post rcv_buf rcv_len got_ssid got_pass)
  else some { got_ssid := got_ssid, got_pass := got_pass, ssid_copy := none, pass_copy := none }

/-- A POST request whose body is what a browser sends for the form. -/
def form_request : List Nat :=
  bytesOf "POST /action_page.php HTTP/1.1\r\n\r\nwifi_ssid=home&wifi_pass=secret"

/-- A POST request in which the name of the password field follows the "=" of
the SSID field directly. -/
def empty_ssid_request : List Nat :=
  bytesOf "POST /action_page.php HTTP/1.1\r\n\r\nwifi_ssid=wifi_pass=secret"

/-- A POST request that ends with the name of the password field. -/
def cut_pass_request : List Nat :=
  bytesOf "POST /action_page.php HTTP/1.1\r\n\r\nwifi_ssid=home&wifi_pass"

end Http

namespace Ups

open Ota (bytesOf)

/-! ## Constants of ups.c -/

/-- The LED pin. -/
def GPIO_BLUE_LED : Nat := 16

/-- The battery control output. -/
def GPIO_BATTERY_CONTROL : Nat := 13

def BATTERY_DISCONNECT : Nat := 0

def BATTERY_CONNECT : Nat := 1

/-- Good input voltage, in mV. -/
def V_IN_GOOD : Int := 15000

/-- Battery voltage at 25% remaining, in mV. -/
def V_BAT_DISCHARGED : Int := 11750

/-- Battery voltage of a partially charged battery, in mV. -/
def V_BAT_CHARGED : Int := 12500

/-- The short-circuit resistor, in milliohm. -/
def REZISTOR_SC : Int := 100

def NVS_BATTERY_DISCHARGED : List Nat := bytesOf "BatDischarged"

/-- Number of values of a `uint32_t`. -/
def UINT32_MOD : Nat := 4294967296

/-! ## One iteration of main_task -/

/-- The four voltages `adc_read` stores in one iteration, in mV.  `adc_read`
computes each from a 16-bit sample and a gain of at most 48000, so the `int`
arithmetic below never overflows. -/
structure adc_values where
  v_bat : Int
  v_out : Int
  v_in : Int
  v_sc : Int
  deriving DecidableEq, Repr

/-- The local variables of `main_task` that the battery logic reads or writes. -/
structure main_vars where
  blink_level : Nat
  first_time : Bool
  bat_connected : Bool
  v_bat_prev : Int
  i_out_prev : Int
  bat_discharged : Nat
  adc_errors : Nat
  deriving DecidableEq, Repr

/-- Calls the modelled part of the loop makes. -/
inductive ups_event where
  | gpio_set_level (gpio level : Nat)
  | nvs_set_u32 (key : List Nat) (value : Nat)
  | vTaskDelay (ticks : Nat)
  deriving DecidableEq, Repr

/-- The low pass filter `prev + (v - prev) / 5` in `int` arithmetic (the
division truncates towards zero). -/
def low_pass (prev v : Int) : Int := prev + Int.tdiv (v - prev) 5

/-- Lines 402-468 of the loop of `main_task`: the LED toggle, the four ADC reads
(`adc` is `none` when one of them fails), the filters and the battery state.
Returns the variables after `first_time = false` (or at the `continue`) and
the calls made.  The rest of the iteration (power state, fan, display) writes
none of these variables and does not write the battery control output. -/
def main_iteration (vars : main_vars) (adc : Option adc_values) : main_vars × List ups_event :=
  let blink_level := vars.blink_level ^^^ 1
  let led := [ups_event.gpio_set_level GPIO_BLUE_LED blink_level]
  match adc with
  | none =>
    ({ vars with blink_level := blink_level, adc_errors := (vars.adc_errors + 1) % UINT32_MOD },
     led ++ [ups_event.vTaskDelay 1])
  | some a =>
    let v_in := if a.v_in < 0 then 0 else a.v_in
    let v_sc := if a.v_sc < 0 then 0 else a.v_sc
    let i_out := Int.tdiv (v_sc * 1000) REZISTOR_SC
    let v_bat_prev := if vars.first_time then a.v_bat else vars.v_bat_prev
    let i_out_prev := if vars.first_time then i_out else vars.i_out_prev
    let v_bat := low_pass v_bat_prev a.v_bat
    let i_out1 := low_pass i_out_prev i_out
    let vars1 := { vars with blink_level := blink_level, v_bat_prev := v_bat,
                             i_out_prev := i_out1, first_time := false }
    if vars.bat_connected then
      if v_bat < V_BAT_DISCHARGED then
        let bat_discharged := (vars.bat_discharged + 1) % UINT32_MOD
        ({ vars1 with bat_connected := false, bat_discharged := bat_discharged },
         led ++ [ups_event.gpio_set_level GPIO_BATTERY_CONTROL BATTERY_DISCONNECT,
                 ups_event.nvs_set_u32 NVS_BATTERY_DISCHARGED bat_discharged])
      else (vars1, led)
    else if v_in > V_IN_GOOD || vars.first_time then
      if v_bat > V_BAT_CHARGED then
        ({ vars1 with bat_connected := true },
         led ++ [ups_event.gpio_set_level GPIO_BATTERY_CONTROL BATTERY_CONNECT])
      else (vars1, led)
    else (vars1, led)

/-- The variables of `main_task` when its loop is entered.  `v_bat_prev` and
`i_out_prev` are not initialised; they are read only after the assignment under
`first_time`, and are taken as 0. -/
def main_vars_init (bat_discharged : Nat) : main_vars :=
  { blink_level := 1, first_time := true, bat_connected := false, v_bat_prev := 0,
    i_out_prev := 0, bat_discharged := bat_discharged, adc_errors := 0 }

/-- The loop of `main_task` run against the ADC results of successive
iterations: the variables and calls of each iteration, in order. -/
def main_task_loop : main_vars → List (Option adc_values) → List (main_vars × List ups_event)
  | _, [] => []
  | vars, adc :: rest =>
    let r := main_iteration vars adc
    r :: main_task_loop r.1 rest

/-- The level the battery control output has for a value of `bat_connected`. -/
def relay_level (bat_connected : Bool) : Nat :=
  if bat_connected then BATTERY_CONNECT else BATTERY_DISCONNECT

/-- ADC results on battery power: a charged battery and no input voltage. -/
def on_battery : adc_values := { v_bat := 13000, v_out := 12000, v_in := 0, v_sc := 50 }

/-- ADC results on mains power with a charged battery. -/
def on_mains : adc_values := { v_bat := 13000, v_out := 12000, v_in := 17650, v_sc := 50 }

/-- The variables in a later iteration with the battery disconnected and a
filtered battery voltage of 12400 mV. -/
def vars_disconnected : main_vars :=
  { blink_level := 0, first_time := false, bat_connected := false, v_bat_prev := 12400,
    i_out_prev := 500, bat_discharged := 1, adc_errors := 0 }

end Ups

namespace Ota

open esp_ota_firm_state esp_err_t

/-! ## The sample response in one chunk -/

theorem sample_header_step (n u : Nat) :
    esp_ota_firm_do_parse_msg false (esp_ota_firm_init n u) (recv_buffer sample_response) 0 49
      = Res.ok (sample_after_header n u, 39) := by
  rfl

theorem sample_body_step (n u : Nat) (recv_buf : List Nat) :
    esp_ota_firm_do_parse_msg false (sample_after_header n u) recv_buf 39 10
      = Res.ok (sample_after_body n u, 10) := by
  simp [esp_ota_firm_do_parse_msg, sample_after_header, sample_after_body, esp_ota_firm_init,
    SIZE_MOD]

theorem sample_parse_msg (n u : Nat) :
    esp_ota_firm_parse_msg false (esp_ota_firm_init n u) (recv_buffer sample_response) 49
      = Res.ok (sample_after_body n u) := by
  have e1 : (49 + SIZE_MOD - 0) % SIZE_MOD = 49 := by decide
  have e2 : (49 + SIZE_MOD - 39) % SIZE_MOD = 10 := by decide
  have e3 : (0 + 39) % SIZE_MOD = 39 := by decide
  have e4 : (39 + 10) % SIZE_MOD = 49 := by decide
  simp only [esp_ota_firm_parse_msg, PARSE_MSG_FUEL, parse_msg_loop, e1, sample_header_step,
    e3, e2, sample_body_step, e4]
  simp

/-- C1 (counterexample): fed the sample response as one 49-byte chunk from the
initial state of a single-partition device in the whole-content-length build,
`esp_ota_firm_parse_msg` returns with the phase `ESP_OTA_START` (Writing), which
is not `ESP_OTA_FINISH` (Done). -/
theorem sample_single_chunk_not_done :
    ∃ firm, esp_ota_firm_parse_msg false (esp_ota_firm_init 1 0)
        (recv_buffer sample_response) 49 = Res.ok firm
      ∧ firm.state = ESP_OTA_START ∧ firm.state ≠ ESP_OTA_FINISH :=
  ⟨sample_after_body 1 0, by decide, by decide, by decide⟩

/-- C1 (amended): from the initial transfer state in the whole-content-length
build, whatever the partition numbers, the 49-byte sample response fed as one
chunk is handled in two steps.  The header step consumes 39 bytes, enters
`ESP_OTA_PREPARE` and marks nothing for writing; the body step consumes the
other 10 bytes and enters `ESP_OTA_START`.  `esp_ota_firm_parse_msg` returns in
`ESP_OTA_START` (Writing, not Done) with the write view on exactly the 10 bytes
"0123456789", and a run of `ota_start` over this chunk followed by the close of
the connection hands exactly these 10 bytes to `esp_ota_write`, once. -/
theorem sample_single_chunk_writes_body (n u : Nat) :
    (∃ firm1, esp_ota_firm_do_parse_msg false (esp_ota_firm_init n u)
          (recv_buffer sample_response) 0 49 = Res.ok (firm1, 39)
        ∧ firm1.state = ESP_OTA_PREPARE ∧ firm1.bytes = 0 ∧ firm1.write_bytes = 0
        ∧ esp_ota_firm_can_write firm1 = false
        ∧ ∃ firm2, esp_ota_firm_do_parse_msg false firm1 (recv_buffer sample_response) 39 10
              = Res.ok (firm2, 10)
            ∧ esp_ota_firm_parse_msg false (esp_ota_firm_init n u)
                (recv_buffer sample_response) 49 = Res.ok firm2
            ∧ firm2.state = ESP_OTA_START ∧ firm2.write_bytes = 10
            ∧ copy_write_data firm2 (recv_buffer sample_response)
                = Res.ok (bytesOf "0123456789"))
    ∧ ota_start false (env_all_ok true [recv_result.data sample_response, recv_result.closed])
        = (Res.ok ESP_OK,
           [ota_event.progress 0, ota_event.recv, ota_event.ota_write (bytesOf "0123456789"),
            ota_event.progress 100, ota_event.recv, ota_event.progress 100, ota_event.ota_end,
            ota_event.set_boot_partition]) := by
  refine ⟨⟨sample_after_header n u, sample_header_step n u, rfl, rfl, rfl, rfl,
    sample_after_body n u, sample_body_step n u _, sample_parse_msg n u, rfl, rfl, ?_⟩, ?_⟩
  · rfl
  · decide

/-! ## The sample response in two chunks -/

/-- C2 (counterexample): split at k = 15, between the status line and its
"\r\n", the run hands 32 bytes to `esp_ota_write` (the Content-Length line, the
blank line and the body) where the unsplit response gives the 10 body bytes;
split at k = 18, inside "Content-Length", it hands over nothing at all. -/
theorem split_header_changes_written_bytes :
    written_bytes (ota_start false (env_all_ok true one_chunk)).2 = bytesOf "0123456789"
    ∧ written_bytes (ota_start false (env_all_ok true (two_chunks 15))).2
        = bytesOf "Content-Length: 10\r\n\r\n0123456789"
    ∧ written_bytes (ota_start false (env_all_ok true (two_chunks 15))).2
        ≠ written_bytes (ota_start false (env_all_ok true one_chunk)).2
    ∧ written_bytes (ota_start false (env_all_ok true (two_chunks 18))).2 = []
    ∧ written_bytes (ota_start false (env_all_ok true (two_chunks 18))).2
        ≠ written_bytes (ota_start false (env_all_ok true one_chunk)).2 := by
  decide

/-- C2 (amended): for every split position k with 0 < k ≤ 14, or k = 16, 17 or
37, the run over the two chunks response[0..k) and response[k..49) returns
`ESP_OK` and hands to `esp_ota_write` exactly the bytes of the one-chunk run,
"0123456789". -/
theorem split_outside_header_lines_same_bytes (k : Nat)
    (hk : (0 < k ∧ k ≤ 14) ∨ k = 16 ∨ k = 17 ∨ k = 37) :
    (ota_start false (env_all_ok true (two_chunks k))).1 = Res.ok ESP_OK
    ∧ written_bytes (ota_start false (env_all_ok true (two_chunks k))).2
        = written_bytes (ota_start false (env_all_ok true one_chunk)).2
    ∧ written_bytes (ota_start false (env_all_ok true one_chunk)).2 = bytesOf "0123456789" := by
  rcases hk with ⟨h0, h14⟩ | rfl | rfl | rfl
  · interval_cases k <;> decide
  · decide
  · decide
  · decide

theorem split_outside_header_lines_same_bytes_witness :
    ((0 < 7 ∧ 7 ≤ 14) ∨ 7 = 16 ∨ 7 = 17 ∨ 7 = 37)
    ∧ (ota_start false (env_all_ok true (two_chunks 7))).1 = Res.ok ESP_OK
    ∧ written_bytes (ota_start false (env_all_ok true (two_chunks 7))).2
        = written_bytes (ota_start false (env_all_ok true one_chunk)).2
    ∧ written_bytes (ota_start false (env_all_ok true one_chunk)).2 = bytesOf "0123456789" :=
  ⟨by decide, split_outside_header_lines_same_bytes 7 (by decide)⟩

/-! ## The remaining split positions of the sample response -/

/-- Split inside "Content-Length" or just before the body (18 ≤ k ≤ 30, k = 38)
neither chunk parses as a header: the run writes nothing and still returns
`ESP_OK`. -/
theorem split_inside_header_writes_nothing (k : Nat) (hk : (18 ≤ k ∧ k ≤ 30) ∨ k = 38) :
    (ota_start false (env_all_ok true (two_chunks k))).1 = Res.ok ESP_OK
    ∧ written_bytes (ota_start false (env_all_ok true (two_chunks k))).2 = [] := by
  rcases hk with ⟨h1, h2⟩ | rfl
  · interval_cases k <;> decide
  · decide

/-- Split between "Content-Length" and the end of its line (31 ≤ k ≤ 36) the
first chunk holds the field name without a following "\r\n": `strstr` returns
NULL and the `memcpy` into `length_str` faults. -/
theorem split_inside_length_line_faults (k : Nat) (hk : 31 ≤ k ∧ k ≤ 36) :
    (ota_start false (env_all_ok true (two_chunks k))).1 = Res.fault := by
  obtain ⟨h1, h2⟩ := hk
  interval_cases k <;> decide

/-! ## The header parser leaves the rest of the record alone -/

theorem set_content_length_frame {split : Bool} {firm firm1 : esp_ota_firm} {len : Nat}
    (h : set_content_length split firm len = Res.ok firm1) :
    firm1.state = firm.state ∧ firm1.buf = firm.buf ∧ firm1.bytes = firm.bytes
      ∧ firm1.read_bytes = firm.read_bytes ∧ firm1.write_bytes = firm.write_bytes
      ∧ firm1.ota_num = firm.ota_num ∧ firm1.update_ota_num = firm.update_ota_num := by
  unfold set_content_length at h
  split at h
  · split at h
    · cases h
    · cases h; simp
  · cases h; simp

theorem find_content_length_frame {split : Bool} {firm firm1 : esp_ota_firm} {text : List Nat}
    (h : find_content_length split firm text = Res.ok firm1) :
    firm1.state = firm.state ∧ firm1.buf = firm.buf ∧ firm1.bytes = firm.bytes
      ∧ firm1.read_bytes = firm.read_bytes ∧ firm1.write_bytes = firm.write_bytes
      ∧ firm1.ota_num = firm.ota_num ∧ firm1.update_ota_num = firm.update_ota_num := by
  unfold find_content_length at h
  split at h
  · split at h
    · split at h
      · exact set_content_length_frame h
      · cases h
      · cases h
    · cases h; simp
  · cases h; simp

theorem parse_http_loop_frame (split : Bool) (text : List Nat) (total_len : Nat) :
    ∀ (fuel : Nat) (firm firm1 : esp_ota_firm) (i : Nat) (r : Option Nat),
      parse_http_loop split text total_len fuel firm i = Res.ok (firm1, r) →
      firm1.state = firm.state ∧ firm1.buf = firm.buf ∧ firm1.bytes = firm.bytes
        ∧ firm1.read_bytes = firm.read_bytes ∧ firm1.write_bytes = firm.write_bytes
        ∧ firm1.ota_num = firm.ota_num ∧ firm1.update_ota_num = firm.update_ota_num := by
  intro fuel
  induction fuel with
  | zero => intro firm firm1 i r h; simp [parse_http_loop] at h
  | succ fuel ih =>
    intro firm firm1 i r h
    unfold parse_http_loop at h
    split at h
    · split at h
      · rename_i firm2 hf
        have hfr := find_content_length_frame hf
        simp only at h
        split at h
        · cases h; exact hfr
        · split at h
          · split at h
            · cases h; exact hfr
            · cases h; exact hfr
          · have := ih _ _ _ _ h
            obtain ⟨a1, a2, a3, a4, a5, a6, a7⟩ := this
            obtain ⟨b1, b2, b3, b4, b5, b6, b7⟩ := hfr
            exact ⟨a1.trans b1, a2.trans b2, a3.trans b3, a4.trans b4, a5.trans b5,
              a6.trans b6, a7.trans b7⟩
      · cases h
      · cases h
    · cases h; simp

theorem parse_http_frame {split : Bool} {firm firm1 : esp_ota_firm} {text : List Nat}
    {total_len : Nat} {r : Option Nat}
    (h : _esp_ota_firm_parse_http split firm text total_len = Res.ok (firm1, r)) :
    firm1.state = firm.state ∧ firm1.buf = firm.buf ∧ firm1.bytes = firm.bytes
      ∧ firm1.read_bytes = firm.read_bytes ∧ firm1.write_bytes = firm.write_bytes
      ∧ firm1.ota_num = firm.ota_num ∧ firm1.update_ota_num = firm.update_ota_num :=
  parse_http_loop_frame split text total_len _ _ _ _ _ h

/-! ## Bytes marked for writing against the target size -/

/-- C3 (code at the failing input): the `ESP_OTA_PREPARE` step marks the whole
rest of the chunk without comparing it with `ota_size`.  For the response that
announces 5 bytes and carries 10, `esp_ota_firm_parse_msg` returns with
`ota_size = 5`, `bytes = 10` and `write_bytes = 10`, and `ota_start` hands all
10 bytes to `esp_ota_write`; a further chunk then makes the `ESP_OTA_START` step
compute `ota_size - write_bytes` below zero and the copy faults.  The same
happens to a well-formed response in the split layout (20 bytes announced,
`ota_size = 10`, 20 bytes marked).  When the body starts in one chunk and goes
on in the next, the `ESP_OTA_START` step does cut the view down to `ota_size`. -/
theorem prepare_step_exceeds_ota_size :
    esp_ota_firm_parse_msg false (esp_ota_firm_init 2 1) (recv_buffer oversize_response)
        oversize_response.length
      = Res.ok { ota_num := 2, update_ota_num := 1, state := ESP_OTA_START, content_len := 5,
                 read_bytes := 10, write_bytes := 10, ota_size := 5, ota_offset := 0,
                 buf := some 38, bytes := 10 }
    ∧ written_bytes (ota_start false (env_all_ok true
          [recv_result.data oversize_response, recv_result.closed])).2 = bytesOf "0123456789"
    ∧ (ota_start false (env_all_ok true
          [recv_result.data oversize_response, recv_result.data (bytesOf "abc"),
           recv_result.closed])).1 = Res.fault
    ∧ esp_ota_firm_parse_msg true (esp_ota_firm_init 2 0) (recv_buffer split_layout_response)
        split_layout_response.length
      = Res.ok { ota_num := 2, update_ota_num := 0, state := ESP_OTA_START, content_len := 20,
                 read_bytes := 20, write_bytes := 20, ota_size := 10, ota_offset := 0,
                 buf := some 39, bytes := 20 }
    ∧ written_bytes (ota_start false (env_all_ok true
          [recv_result.data (oversize_response.take 41),
           recv_result.data (oversize_response.drop 41), recv_result.closed])).2
        = bytesOf "01234" := by
  decide

/-! ## A header that does not parse -/

/-- C4 (counterexample): a first chunk whose header line has no newline, and a
first chunk whose blank line comes without a Content-Length, both make
`_esp_ota_firm_parse_http` return false, yet `ota_start` does not return
`ESP_FAIL`: it calls `recv` again, parses the next chunk, writes its body, marks
the partition bootable and returns `ESP_OK`. -/
theorem header_parse_failure_does_not_abort :
    _esp_ota_firm_parse_http false (esp_ota_firm_init 2 1) (recv_buffer unterminated_line)
        unterminated_line.length = Res.ok (esp_ota_firm_init 2 1, none)
    ∧ ota_start false (env_all_ok true
          [recv_result.data unterminated_line, recv_result.data sample_response,
           recv_result.closed])
        = (Res.ok ESP_OK,
           [ota_event.progress 0, ota_event.recv, ota_event.recv,
            ota_event.ota_write (bytesOf "0123456789"), ota_event.progress 100, ota_event.recv,
            ota_event.progress 100, ota_event.ota_end, ota_event.set_boot_partition])
    ∧ _esp_ota_firm_parse_http false (esp_ota_firm_init 2 1) (recv_buffer header_without_length)
        header_without_length.length = Res.ok (esp_ota_firm_init 2 1, none)
    ∧ ota_start false (env_all_ok true
          [recv_result.data header_without_length, recv_result.data sample_response,
           recv_result.closed])
        = (Res.ok ESP_OK,
           [ota_event.progress 0, ota_event.recv, ota_event.recv,
            ota_event.ota_write (bytesOf "0123456789"), ota_event.progress 100, ota_event.recv,
            ota_event.progress 100, ota_event.ota_end, ota_event.set_boot_partition]) := by
  decide

theorem recv_buffer_take (chunk : List Nat) (h : chunk.length ≤ RECV_BUFFSIZE) :
    chunk.take RECV_BUFFSIZE = chunk :=
  List.take_of_length_le h

/-- C4 (amended): when `_esp_ota_firm_parse_http` returns false on a received
chunk in the Init phase, the step consumes the whole chunk, the phase stays
`ESP_OTA_INIT`, the write view and the byte counters are untouched and nothing
is writable; `ota_start` makes no `esp_ota_write` for this chunk and goes on to
the next `recv` with the record the parser left. -/
theorem header_parse_failure_keeps_receiving (split : Bool) (env : ota_env)
    (chunk : List Nat) (rest : List recv_result) (firm firm1 : esp_ota_firm)
    (bytes_written writes : Nat) (trace : List ota_event)
    (hstate : firm.state = ESP_OTA_INIT)
    (hlen : 0 < chunk.length ∧ chunk.length ≤ RECV_BUFFSIZE)
    (hfail : _esp_ota_firm_parse_http split firm (recv_buffer chunk) chunk.length
      = Res.ok (firm1, none)) :
    esp_ota_firm_do_parse_msg split firm (recv_buffer chunk) 0 chunk.length
        = Res.ok (firm1, chunk.length)
    ∧ firm1.state = ESP_OTA_INIT ∧ firm1.buf = firm.buf ∧ firm1.bytes = firm.bytes
    ∧ firm1.read_bytes = firm.read_bytes ∧ firm1.write_bytes = firm.write_bytes
    ∧ esp_ota_firm_can_write firm1 = false
    ∧ ota_loop split env (recv_result.data chunk :: rest) firm bytes_written writes trace
        = ota_loop split env rest firm1 bytes_written writes (trace ++ [ota_event.recv]) := by
  obtain ⟨hpos, hle⟩ := hlen
  obtain ⟨f1, f2, f3, f4, f5, _, _⟩ := parse_http_frame hfail
  have hstep : esp_ota_firm_do_parse_msg split firm (recv_buffer chunk) 0 chunk.length
      = Res.ok (firm1, chunk.length) := by
    simp only [esp_ota_firm_do_parse_msg, hstate, List.drop_zero, hfail]
  have hst1 : firm1.state = ESP_OTA_INIT := f1.trans hstate
  have hcw : esp_ota_firm_can_write firm1 = false := by
    simp [esp_ota_firm_can_write, hst1]
  have hlt : chunk.length < SIZE_MOD := by
    have : RECV_BUFFSIZE < SIZE_MOD := by decide
    omega
  have hmsg : esp_ota_firm_parse_msg split firm (recv_buffer chunk) chunk.length
      = Res.ok firm1 := by
    have e1 : (chunk.length + SIZE_MOD - 0) % SIZE_MOD = chunk.length := by
      rw [Nat.sub_zero, Nat.add_mod_right, Nat.mod_eq_of_lt hlt]
    have e2 : (0 + chunk.length) % SIZE_MOD = chunk.length := by
      rw [Nat.zero_add, Nat.mod_eq_of_lt hlt]
    simp only [esp_ota_firm_parse_msg, PARSE_MSG_FUEL, parse_msg_loop, e1, hstep, e2]
    simp
  refine ⟨hstep, hst1, f2, f3, f4, f5, hcw, ?_⟩
  have hne : chunk.length ≠ 0 := by omega
  simp only [ota_loop, recv_buffer_take chunk hle, hmsg, hcw]
  simp [hne]

theorem header_parse_failure_keeps_receiving_witness :
    ota_loop false (env_all_ok true [])
        (recv_result.data unterminated_line :: [recv_result.closed])
        (esp_ota_firm_init 2 1) 0 0 []
      = ota_loop false (env_all_ok true []) [recv_result.closed] (esp_ota_firm_init 2 1) 0 0
          ([] ++ [ota_event.recv]) :=
  (header_parse_failure_keeps_receiving false (env_all_ok true []) unterminated_line
    [recv_result.closed] (esp_ota_firm_init 2 1) (esp_ota_firm_init 2 1) 0 0 [] rfl
    (by decide) (by decide)).2.2.2.2.2.2.2

/-! ## Finalisation -/

theorem no_final_call_snoc {trace : List ota_event} {e : ota_event} (h : no_final_call trace)
    (h1 : e ≠ ota_event.ota_end) (h2 : e ≠ ota_event.set_boot_partition) :
    no_final_call (trace ++ [e]) := by
  unfold no_final_call at *
  simp only [List.mem_append, List.mem_singleton, not_or]
  exact ⟨⟨h.1, fun x => h1 x.symm⟩, ⟨h.2, fun x => h2 x.symm⟩⟩

/-- What the finalisation guarantees about a result of `ota_start`. -/
theorem ota_finalize_spec (env : ota_env) (trace : List ota_event) (h : no_final_call trace) :
    ((ota_finalize env trace).1 = Res.ok ESP_OK →
        env.end_ok = true ∧ env.set_boot_ok = true
          ∧ ota_event.ota_end ∈ (ota_finalize env trace).2
          ∧ ota_event.set_boot_partition ∈ (ota_finalize env trace).2)
    ∧ (env.end_ok = false →
        ota_event.set_boot_partition ∉ (ota_finalize env trace).2
          ∧ (ota_finalize env trace).1 = Res.ok ESP_FAIL) := by
  obtain ⟨h1, h2⟩ := h
  unfold ota_finalize
  cases hcb : env.progress_cb <;> cases he : env.end_ok <;> cases hs : env.set_boot_ok <;>
    simp [h1, h2]

theorem early_return_spec (env : ota_env) (r : Res esp_err_t) (trace : List ota_event)
    (h : no_final_call trace) (hr : r ≠ Res.ok ESP_OK) :
    (r = Res.ok ESP_OK →
        env.end_ok = true ∧ env.set_boot_ok = true
          ∧ ota_event.ota_end ∈ trace ∧ ota_event.set_boot_partition ∈ trace)
    ∧ (env.end_ok = false →
        ota_event.set_boot_partition ∉ trace
          ∧ (ota_event.ota_end ∈ trace → r = Res.ok ESP_FAIL)) :=
  ⟨fun x => absurd x hr, fun _ => ⟨h.2, fun x => absurd x h.1⟩⟩

theorem ota_loop_spec (split : Bool) (env : ota_env) :
    ∀ (recvs : List recv_result) (firm : esp_ota_firm) (bw w : Nat) (trace : List ota_event),
      no_final_call trace →
      ((ota_loop split env recvs firm bw w trace).1 = Res.ok ESP_OK →
          env.end_ok = true ∧ env.set_boot_ok = true
            ∧ ota_event.ota_end ∈ (ota_loop split env recvs firm bw w trace).2
            ∧ ota_event.set_boot_partition ∈ (ota_loop split env recvs firm bw w trace).2)
      ∧ (env.end_ok = false →
          ota_event.set_boot_partition ∉ (ota_loop split env recvs firm bw w trace).2
            ∧ (ota_event.ota_end ∈ (ota_loop split env recvs firm bw w trace).2 →
                (ota_loop split env recvs firm bw w trace).1 = Res.ok ESP_FAIL)) := by
  intro recvs
  induction recvs with
  | nil =>
    intro firm bw w trace h
    simp only [ota_loop]
    exact early_return_spec env _ _ (no_final_call_snoc h (by simp) (by simp))
      (by intro hx; cases hx)
  | cons r rest ih =>
    intro firm bw w trace h
    have h0 := no_final_call_snoc (e := ota_event.recv) h (by simp) (by simp)
    have fin : ∀ tr, no_final_call tr →
        ((ota_finalize env tr).1 = Res.ok ESP_OK →
          env.end_ok = true ∧ env.set_boot_ok = true
            ∧ ota_event.ota_end ∈ (ota_finalize env tr).2
            ∧ ota_event.set_boot_partition ∈ (ota_finalize env tr).2)
        ∧ (env.end_ok = false →
          ota_event.set_boot_partition ∉ (ota_finalize env tr).2
            ∧ (ota_event.ota_end ∈ (ota_finalize env tr).2 →
                (ota_finalize env tr).1 = Res.ok ESP_FAIL)) := by
      intro tr htr
      have := ota_finalize_spec env tr htr
      exact ⟨this.1, fun he => ⟨(this.2 he).1, fun _ => (this.2 he).2⟩⟩
    cases r with
    | error =>
      rw [ota_loop]
      exact early_return_spec env _ _ h0 (by intro hx; cases hx)
    | closed =>
      rw [ota_loop]
      exact fin _ h0
    | data chunk =>
      rw [ota_loop]
      simp only []
      split
      · exact fin _ h0
      · split
        · exact early_return_spec env _ _ h0 (by intro hx; cases hx)
        · exact early_return_spec env _ _ h0 (by intro hx; cases hx)
        · split
          · exact ih _ _ _ _ h0
          · split
            · exact early_return_spec env _ _ h0 (by intro hx; cases hx)
            · exact early_return_spec env _ _ h0 (by intro hx; cases hx)
            · rename_i d _
              have h1 := no_final_call_snoc (e := ota_event.ota_write d) h0 (by simp) (by simp)
              split
              · exact early_return_spec env _ _ h1 (by intro hx; cases hx)
              · split
                · split
                  · exact early_return_spec env _ _ h1 (by intro hx; cases hx)
                  · exact early_return_spec env _ _ h1 (by intro hx; cases hx)
                  · rename_i pc _
                    have h2 := no_final_call_snoc (e := ota_event.progress pc) h1
                      (by simp) (by simp)
                    split
                    · exact fin _ h2
                    · exact ih _ _ _ _ h2
                · split
                  · exact fin _ h1
                  · exact ih _ _ _ _ h1

/-- C5: in every run of `ota_start`, if `esp_ota_end` is called and reports an
error then `esp_ota_set_boot_partition` is never called and `ota_start` returns
`ESP_FAIL`; and `ota_start` returns `ESP_OK` only if `esp_ota_end` and
`esp_ota_set_boot_partition` were both called and both succeeded. -/
theorem finalize_error_keeps_boot_partition (split : Bool) (env : ota_env) :
    (env.end_ok = false →
        ota_event.set_boot_partition ∉ (ota_start split env).2
          ∧ (ota_event.ota_end ∈ (ota_start split env).2 →
              (ota_start split env).1 = Res.ok ESP_FAIL))
    ∧ ((ota_start split env).1 = Res.ok ESP_OK →
        env.end_ok = true ∧ env.set_boot_ok = true
          ∧ ota_event.ota_end ∈ (ota_start split env).2
          ∧ ota_event.set_boot_partition ∈ (ota_start split env).2) := by
  have hinit : no_final_call (if env.progress_cb then [ota_event.progress 0] else []) := by
    unfold no_final_call
    split <;> simp
  have key : ∀ r : Res esp_err_t × List ota_event,
      ((r.1 = Res.ok ESP_OK →
          env.end_ok = true ∧ env.set_boot_ok = true
            ∧ ota_event.ota_end ∈ r.2 ∧ ota_event.set_boot_partition ∈ r.2)
        ∧ (env.end_ok = false →
          ota_event.set_boot_partition ∉ r.2
            ∧ (ota_event.ota_end ∈ r.2 → r.1 = Res.ok ESP_FAIL))) →
      (env.end_ok = false →
          ota_event.set_boot_partition ∉ r.2
            ∧ (ota_event.ota_end ∈ r.2 → r.1 = Res.ok ESP_FAIL))
      ∧ (r.1 = Res.ok ESP_OK →
          env.end_ok = true ∧ env.set_boot_ok = true
            ∧ ota_event.ota_end ∈ r.2 ∧ ota_event.set_boot_partition ∈ r.2) :=
    fun _ h => ⟨h.2, h.1⟩
  apply key
  unfold ota_start
  simp only
  split
  · exact early_return_spec env _ _ hinit (by intro hx; cases hx)
  · split
    · exact early_return_spec env _ _ hinit (by intro hx; cases hx)
    · split
      · exact early_return_spec env _ _ hinit (by intro hx; cases hx)
      · split
        · exact early_return_spec env _ _ hinit (by intro hx; cases hx)
        · split
          · exact early_return_spec env _ _ hinit (by intro hx; cases hx)
          · split
            · exact early_return_spec env _ _ hinit (by intro hx; cases hx)
            · exact ota_loop_spec split env _ _ _ _ _ hinit

theorem finalize_error_keeps_boot_partition_witness :
    env_end_fails.end_ok = false
    ∧ ota_event.ota_end ∈ (ota_start false env_end_fails).2
    ∧ ota_event.set_boot_partition ∉ (ota_start false env_end_fails).2
    ∧ (ota_start false env_end_fails).1 = Res.ok ESP_FAIL :=
  ⟨rfl, by decide,
   ((finalize_error_keeps_boot_partition false env_end_fails).1 rfl).1,
   ((finalize_error_keeps_boot_partition false env_end_fails).1 rfl).2 (by decide)⟩

/-! ## Target size and offset -/

theorem int_to_size_lt (v : Int) : int_to_size v < SIZE_MOD := by
  unfold int_to_size
  have hpos : (0 : Int) < (SIZE_MOD : Int) := by decide
  have h1 := Int.emod_lt_of_pos v hpos
  have h2 := Int.emod_nonneg v (ne_of_gt hpos)
  omega

theorem parse_content_length_lt {text : List Nat} {p len : Nat}
    (h : parse_content_length text p = Res.ok len) : len < SIZE_MOD := by
  unfold parse_content_length at h
  simp only at h
  split at h
  · cases h
  · split at h
    · cases h
    · split at h
      · cases h
      · cases h
        exact int_to_size_lt _

theorem strstr_head_ne_zero {text : List Nat} {p : Nat}
    (h : strstr text (bytesOf "Content-Length") = some p) : text.getD 0 0 ≠ 0 := by
  cases text with
  | nil => simp [strstr, bytesOf] at h
  | cons b t =>
    simp only [List.getD_cons_zero]
    intro hb
    subst hb
    have hne : List.isPrefixOf (bytesOf "Content-Length") (0 :: t) = false := by
      simp [bytesOf, List.isPrefixOf]
    simp [strstr, hne] at h

/-- The values lines 110-117 store for a content length `len`. -/
theorem set_content_length_values {split : Bool} {firm firm1 : esp_ota_firm} {len : Nat}
    (hlen : len < SIZE_MOD) (hu : split = true → firm.update_ota_num < firm.ota_num)
    (h : set_content_length split firm len = Res.ok firm1) :
    firm1.content_len = len
      ∧ firm1.ota_size = (if split then len / firm.ota_num else len)
      ∧ firm1.ota_offset = (if split then len / firm.ota_num * firm.update_ota_num else 0)
      ∧ firm1.ota_num = firm.ota_num ∧ firm1.update_ota_num = firm.update_ota_num := by
  unfold set_content_length at h
  cases split with
  | false => simp at h; subst h; simp
  | true =>
    have hu := hu rfl
    have hn : firm.ota_num ≠ 0 := by omega
    simp [hn] at h
    subst h
    have hb : len / firm.ota_num * firm.update_ota_num < SIZE_MOD := by
      have h1 : len / firm.ota_num * firm.update_ota_num ≤ len / firm.ota_num * firm.ota_num :=
        Nat.mul_le_mul_left _ (Nat.le_of_lt hu)
      have h2 : len / firm.ota_num * firm.ota_num ≤ len := Nat.div_mul_le_self _ _
      omega
    simp [Nat.mod_eq_of_lt hb]

theorem find_content_length_values (firm0 : esp_ota_firm) {split : Bool}
    {firm firm1 : esp_ota_firm} {text : List Nat} {p len : Nat}
    (hfind : strstr text (bytesOf "Content-Length") = some p)
    (hparse : parse_content_length text p = Res.ok len)
    (hnum : firm.ota_num = firm0.ota_num ∧ firm.update_ota_num = firm0.update_ota_num)
    (hu : split = true → firm0.update_ota_num < firm0.ota_num)
    (hpre : firm.content_len = 0 ∨
      (firm.content_len = len
        ∧ firm.ota_size = (if split then len / firm0.ota_num else len)
        ∧ firm.ota_offset = (if split then len / firm0.ota_num * firm0.update_ota_num else 0)))
    (h : find_content_length split firm text = Res.ok firm1) :
    (firm1.content_len = len
      ∧ firm1.ota_size = (if split then len / firm0.ota_num else len)
      ∧ firm1.ota_offset = (if split then len / firm0.ota_num * firm0.update_ota_num else 0))
    ∧ firm1.ota_num = firm0.ota_num ∧ firm1.update_ota_num = firm0.update_ota_num := by
  unfold find_content_length at h
  by_cases hc : firm.content_len = 0
  · simp only [hc, if_true, hfind, hparse] at h
    have hu1 : split = true → firm.update_ota_num < firm.ota_num := by
      rw [hnum.1, hnum.2]; exact hu
    have := set_content_length_values (parse_content_length_lt hparse) hu1 h
    rw [hnum.1, hnum.2] at this
    exact ⟨⟨this.1, this.2.1, this.2.2.1⟩, this.2.2.2.1, this.2.2.2.2⟩
  · simp only [hc, if_false] at h
    cases h
    rcases hpre with h0 | h1
    · exact absurd h0 hc
    · exact ⟨h1, hnum.1, hnum.2⟩

theorem parse_http_loop_values (split : Bool) (text : List Nat) (total_len : Nat)
    (firm0 : esp_ota_firm) (p len : Nat)
    (hfind : strstr text (bytesOf "Content-Length") = some p)
    (hparse : parse_content_length text p = Res.ok len)
    (hu : split = true → firm0.update_ota_num < firm0.ota_num) :
    ∀ (fuel : Nat) (firm firm1 : esp_ota_firm) (i : Nat) (r : Option Nat),
      (firm.ota_num = firm0.ota_num ∧ firm.update_ota_num = firm0.update_ota_num) →
      (firm.content_len = len
        ∧ firm.ota_size = (if split then len / firm0.ota_num else len)
        ∧ firm.ota_offset = (if split then len / firm0.ota_num * firm0.update_ota_num else 0)) →
      parse_http_loop split text total_len fuel firm i = Res.ok (firm1, r) →
      (firm1.content_len = len
        ∧ firm1.ota_size = (if split then len / firm0.ota_num else len)
        ∧ firm1.ota_offset
            = (if split then len / firm0.ota_num * firm0.update_ota_num else 0)) := by
  intro fuel
  induction fuel with
  | zero => intro firm firm1 i r _ _ h; simp [parse_http_loop] at h
  | succ fuel ih =>
    intro firm firm1 i r hnum hinv h
    unfold parse_http_loop at h
    split at h
    · split at h
      · rename_i firm2 hf
        have hv := find_content_length_values firm0 hfind hparse hnum hu (Or.inr hinv) hf
        simp only at h
        split at h
        · cases h; exact hv.1
        · split at h
          · split at h
            · cases h; exact hv.1
            · cases h; exact hv.1
          · exact ih _ _ _ _ hv.2 hv.1 h
      · cases h
      · cases h
    · cases h; exact hinv

/-- C6: when the header parser, entered with no content length stored yet, finds
"Content-Length" in a non-empty chunk and reads the value `len` after it, the
record it leaves has `content_len = len` and, in the split-layout build with
`ota_num` partitions and target index `update_ota_num` (an index below
`ota_num`), `ota_size = len / ota_num` and `ota_offset = ota_size * update_ota_num`;
in every other build, whatever the partition numbers, `ota_size = len` and
`ota_offset = 0`. -/
theorem content_length_sets_size_and_offset (split : Bool) (firm firm1 : esp_ota_firm)
    (text : List Nat) (total_len p len : Nat) (r : Option Nat)
    (h0 : firm.content_len = 0) (hlen : 0 < total_len)
    (hfind : strstr text (bytesOf "Content-Length") = some p)
    (hparse : parse_content_length text p = Res.ok len)
    (hu : split = true → firm.update_ota_num < firm.ota_num)
    (hres : _esp_ota_firm_parse_http split firm text total_len = Res.ok (firm1, r)) :
    firm1.content_len = len
      ∧ firm1.ota_size = (if split then len / firm.ota_num else len)
      ∧ firm1.ota_offset = (if split then firm1.ota_size * firm.update_ota_num else 0) := by
  have hhead := strstr_head_ne_zero hfind
  have key : firm1.content_len = len
      ∧ firm1.ota_size = (if split then len / firm.ota_num else len)
      ∧ firm1.ota_offset = (if split then len / firm.ota_num * firm.update_ota_num else 0) := by
    unfold _esp_ota_firm_parse_http at hres
    unfold parse_http_loop at hres
    have hcond : text.getD 0 0 ≠ 0 ∧ 0 < total_len := ⟨hhead, hlen⟩
    rw [if_pos hcond] at hres
    split at hres
    · rename_i firm2 hf
      have hv := find_content_length_values firm hfind hparse ⟨rfl, rfl⟩ hu (Or.inl h0) hf
      simp only at hres
      split at hres
      · cases hres; exact hv.1
      · split at hres
        · split at hres
          · cases hres; exact hv.1
          · cases hres; exact hv.1
        · exact parse_http_loop_values split text total_len firm p len hfind hparse hu
            _ _ _ _ _ hv.2 hv.1 hres
    · cases hres
    · cases hres
  refine ⟨key.1, key.2.1, ?_⟩
  rw [key.2.2]
  cases split <;> simp [key.2.1]

theorem content_length_sets_size_and_offset_witness :
    _esp_ota_firm_parse_http true (esp_ota_firm_init 2 1) (recv_buffer split_layout_response) 59
        = Res.ok (split_layout_after_header, some 39)
    ∧ split_layout_after_header.content_len = 20
    ∧ split_layout_after_header.ota_size = (if true then 20 / (esp_ota_firm_init 2 1).ota_num else 20)
    ∧ split_layout_after_header.ota_offset
        = (if true then split_layout_after_header.ota_size * (esp_ota_firm_init 2 1).update_ota_num
           else 0) :=
  ⟨by decide,
   content_length_sets_size_and_offset true (esp_ota_firm_init 2 1) split_layout_after_header
     (recv_buffer split_layout_response) 59 17 20 (some 39) rfl (by decide) (by decide)
     (by decide) (by decide) (by decide)⟩

/-! ## The phase only moves forward -/

theorem do_parse_msg_phase_le {split : Bool} {firm firm1 : esp_ota_firm} {recv_buf : List Nat}
    {in_off in_len n : Nat}
    (h : esp_ota_firm_do_parse_msg split firm recv_buf in_off in_len = Res.ok (firm1, n)) :
    firm.state.toNat ≤ firm1.state.toNat := by
  unfold esp_ota_firm_do_parse_msg at h
  split at h
  · rename_i hs
    split at h
    · rename_i f t hp
      cases h
      have := (parse_http_frame hp).1
      simp [hs, esp_ota_firm_state.toNat]
    · rename_i f hp
      cases h
      rw [(parse_http_frame hp).1]
    · cases h
    · cases h
  · rename_i hs
    simp only at h
    split at h
    · cases h; simp [hs, esp_ota_firm_state.toNat]
    · cases h; simp [hs]
  · rename_i hs
    split at h
    · cases h; simp [hs, esp_ota_firm_state.toNat]
    · cases h; simp [hs]
  · rename_i hs
    cases h; simp [hs, esp_ota_firm_state.toNat]
  · cases h; exact Nat.le_refl _

theorem phase_trace_head (split : Bool) (firm : esp_ota_firm)
    (steps : List (List Nat × Nat × Nat)) :
    (phase_trace split firm steps).head? = some firm.state := by
  cases steps with
  | nil => simp [phase_trace]
  | cons s rest =>
    obtain ⟨b, o, l⟩ := s
    simp only [phase_trace]
    split <;> simp

theorem phase_trace_chain (split : Bool) :
    ∀ (steps : List (List Nat × Nat × Nat)) (firm : esp_ota_firm),
      List.Chain' (fun a b => esp_ota_firm_state.toNat a ≤ esp_ota_firm_state.toNat b)
        (phase_trace split firm steps) := by
  intro steps
  induction steps with
  | nil => intro firm; simp [phase_trace]
  | cons s rest ih =>
    intro firm
    obtain ⟨b, o, l⟩ := s
    simp only [phase_trace]
    split
    · rename_i firm1 n hstep
      rw [List.chain'_cons']
      refine ⟨?_, ih firm1⟩
      intro y hy
      rw [phase_trace_head] at hy
      cases hy
      exact do_parse_msg_phase_le hstep
    · simp
    · simp

theorem toNat_injective {a b : esp_ota_firm_state} (h : a.toNat = b.toNat) : a = b := by
  cases a <;> cases b <;> simp [esp_ota_firm_state.toNat] at h <;> rfl

/-- C7: one step of `esp_ota_firm_do_parse_msg` never moves the phase backwards
in the order Init < AwaitingOffset < Writing < Draining < Done; hence along
every sequence of steps the phases are in non-decreasing order, and a phase seen
again later was held all the time in between (no phase is entered again after
it has been left). -/
theorem phase_never_moves_backwards (split : Bool) :
    (∀ (firm firm1 : esp_ota_firm) (recv_buf : List Nat) (in_off in_len n : Nat),
        esp_ota_firm_do_parse_msg split firm recv_buf in_off in_len = Res.ok (firm1, n) →
        firm.state.toNat ≤ firm1.state.toNat)
    ∧ (∀ (firm : esp_ota_firm) (steps : List (List Nat × Nat × Nat)),
        List.Pairwise (fun a b => esp_ota_firm_state.toNat a ≤ esp_ota_firm_state.toNat b)
          (phase_trace split firm steps))
    ∧ (∀ (firm : esp_ota_firm) (steps : List (List Nat × Nat × Nat)) (i j k : Nat)
        (p q : esp_ota_firm_state), i < j → j < k →
        (phase_trace split firm steps)[i]? = some p →
        (phase_trace split firm steps)[j]? = some q →
        (phase_trace split firm steps)[k]? = some p → q = p) := by
  have hpw : ∀ (firm : esp_ota_firm) (steps : List (List Nat × Nat × Nat)),
      List.Pairwise (fun a b => esp_ota_firm_state.toNat a ≤ esp_ota_firm_state.toNat b)
        (phase_trace split firm steps) := by
    intro firm steps
    have hc := phase_trace_chain split steps firm
    haveI : IsTrans esp_ota_firm_state
        (fun a b => esp_ota_firm_state.toNat a ≤ esp_ota_firm_state.toNat b) :=
      ⟨fun _ _ _ h1 h2 => Nat.le_trans h1 h2⟩
    exact List.chain'_iff_pairwise.mp hc
  refine ⟨fun firm firm1 recv_buf in_off in_len n h => do_parse_msg_phase_le h, hpw, ?_⟩
  intro firm steps i j k p q hij hjk hi hj hk
  have h := hpw firm steps
  rw [List.pairwise_iff_getElem] at h
  obtain ⟨hi1, hi2⟩ := List.getElem?_eq_some.mp hi
  obtain ⟨hj1, hj2⟩ := List.getElem?_eq_some.mp hj
  obtain ⟨hk1, hk2⟩ := List.getElem?_eq_some.mp hk
  have a := h i j hi1 hj1 hij
  have b := h j k hj1 hk1 hjk
  rw [hi2, hj2] at a
  rw [hj2, hk2] at b
  exact toNat_injective (Nat.le_antisymm b a)

theorem phase_never_moves_backwards_witness :
    esp_ota_firm_do_parse_msg false (esp_ota_firm_init 2 1) (recv_buffer sample_response) 0 49
        = Res.ok (sample_after_header 2 1, 39)
    ∧ (esp_ota_firm_init 2 1).state.toNat ≤ (sample_after_header 2 1).state.toNat
    ∧ phase_trace false (esp_ota_firm_init 2 1)
          [(recv_buffer sample_response, 0, 49), (recv_buffer sample_response, 39, 10),
           (recv_buffer (bytesOf "x"), 0, 1), ([], 0, 0), ([], 0, 0)]
        = [ESP_OTA_INIT, ESP_OTA_PREPARE, ESP_OTA_START, ESP_OTA_RECVED, ESP_OTA_FINISH,
           ESP_OTA_FINISH] :=
  ⟨sample_header_step 2 1,
   (phase_never_moves_backwards false).1 _ _ _ _ _ _ (sample_header_step 2 1),
   by decide⟩

/-! ## Progress values -/

/-- C8 (code at the failing input): for the response that announces 5 bytes and
carries 10 in the same chunk, `ota_start` calls the progress callback with 0,
then 200, then 100; for the sample response split after 15 bytes it calls it
with 0, then 320, then 100. -/
theorem progress_value_exceeds_100 :
    progress_values (ota_start false (env_all_ok true
        [recv_result.data oversize_response, recv_result.closed])).2 = [0, 200, 100]
    ∧ progress_values (ota_start false (env_all_ok true (two_chunks 15))).2 = [0, 320, 100] := by
  decide

end Ota

namespace Mqtt

open Ota (esp_err_t)
open Ota.esp_err_t error_t

/-! ## Reconnect backoff -/

theorem cycle_sleep_ticks (tick_ms client delay : Nat) (c : cycle_env) :
    (mqtt_client_cycle tick_ms client delay c).sleep_ticks = some (delay / tick_ms) := by
  unfold mqtt_client_cycle
  simp only []
  split_ifs <;> simp [cycle_result.sleep_ticks, List.findSome?]

theorem cycle_connected_iff (tick_ms client delay : Nat) (c : cycle_env) :
    (mqtt_client_cycle tick_ms client delay c).connected = fully_successful c := by
  unfold mqtt_client_cycle fully_successful
  simp only []
  split_ifs <;> simp_all <;> (intro ht he; rcases ‹_ ∨ _› with h | h <;> simp_all)

theorem cycle_delay (tick_ms client delay : Nat) (c : cycle_env)
    (hd : delay ≤ MQTT_CLIENT_DELAY_MAX) :
    (mqtt_client_cycle tick_ms client delay c).delay
      = if (mqtt_client_cycle tick_ms client delay c).connected then MQTT_CLIENT_DELAY_MIN
        else min (2 * delay) MQTT_CLIENT_DELAY_MAX := by
  have hmod : (delay * 2) % UINT32_MOD = 2 * delay := by
    have : delay * 2 < UINT32_MOD := by
      unfold MQTT_CLIENT_DELAY_MAX at hd
      unfold UINT32_MOD
      omega
    rw [Nat.mod_eq_of_lt this, Nat.mul_comm]
  have hmin : (if 2 * delay > MQTT_CLIENT_DELAY_MAX then MQTT_CLIENT_DELAY_MAX else 2 * delay)
      = min (2 * delay) MQTT_CLIENT_DELAY_MAX := by
    unfold MQTT_CLIENT_DELAY_MAX
    split <;> omega
  unfold mqtt_client_cycle
  simp only [hmod, hmin]
  split_ifs <;> simp_all

theorem backoff_step (k : Nat) :
    min (2 * min (100 * 2 ^ k) 600000) 600000 = min (100 * 2 ^ (k + 1)) 600000 := by
  rw [pow_succ]
  omega

theorem backoff_ge_min (k : Nat) : 100 ≤ min (100 * 2 ^ k) 600000 := by
  have : 1 ≤ 2 ^ k := Nat.one_le_two_pow
  omega

theorem task_loop_series (tick_ms client : Nat) (hT : tick_ms ∣ 100) :
    ∀ (script : List cycle_env) (k : Nat),
      (mqtt_client_task_loop tick_ms client script (min (100 * 2 ^ k) 600000)).map
          (cycle_result.sleep_ms tick_ms)
        = (backoff_series
            ((mqtt_client_task_loop tick_ms client script (min (100 * 2 ^ k) 600000)).map
              (fun r => r.connected)) k).map some
      ∧ ∀ r ∈ mqtt_client_task_loop tick_ms client script (min (100 * 2 ^ k) 600000),
          (r.delay = MQTT_CLIENT_DELAY_MIN ↔ r.connected = true) := by
  intro script
  induction script with
  | nil => intro k; simp [mqtt_client_task_loop, backoff_series]
  | cons c rest ih =>
    intro k
    have hle : min (100 * 2 ^ k) 600000 ≤ MQTT_CLIENT_DELAY_MAX := by
      unfold MQTT_CLIENT_DELAY_MAX; omega
    have hdvd : tick_ms ∣ min (100 * 2 ^ k) 600000 := by
      have h1 : tick_ms ∣ 100 * 2 ^ k := Dvd.dvd.mul_right hT _
      have h2 : tick_ms ∣ 600000 := by
        have : (600000 : Nat) = 100 * 6000 := by norm_num
        rw [this]
        exact Dvd.dvd.mul_right hT _
      rcases Nat.le_total (100 * 2 ^ k) 600000 with h | h
      · rw [Nat.min_eq_left h]; exact h1
      · rw [Nat.min_eq_right h]; exact h2
    have hsleep : (mqtt_client_cycle tick_ms client (min (100 * 2 ^ k) 600000) c).sleep_ms tick_ms
        = some (min (100 * 2 ^ k) 600000) := by
      unfold cycle_result.sleep_ms
      rw [cycle_sleep_ticks]
      simp only [Option.map_some']
      rw [Nat.div_mul_cancel hdvd]
    have hdelay := cycle_delay tick_ms client _ c hle
    have hiff : (mqtt_client_cycle tick_ms client (min (100 * 2 ^ k) 600000) c).delay
          = MQTT_CLIENT_DELAY_MIN
        ↔ (mqtt_client_cycle tick_ms client (min (100 * 2 ^ k) 600000) c).connected = true := by
      have hge := backoff_ge_min k
      by_cases hc : (mqtt_client_cycle tick_ms client (min (100 * 2 ^ k) 600000) c).connected
          = true
      · rw [hdelay, if_pos hc]
        simp [hc]
      · rw [hdelay, if_neg hc]
        unfold MQTT_CLIENT_DELAY_MIN MQTT_CLIENT_DELAY_MAX
        constructor
        · intro h
          exfalso
          omega
        · intro h
          exact absurd h hc
    have hnext : (mqtt_client_cycle tick_ms client (min (100 * 2 ^ k) 600000) c).delay
        = min (100 * 2 ^ (if (mqtt_client_cycle tick_ms client
            (min (100 * 2 ^ k) 600000) c).connected then 0 else k + 1)) 600000 := by
      rw [hdelay]
      split
      · simp [MQTT_CLIENT_DELAY_MIN]
      · unfold MQTT_CLIENT_DELAY_MAX
        exact backoff_step k
    simp only [mqtt_client_task_loop]
    split
    · rw [hnext]
      have := ih (if (mqtt_client_cycle tick_ms client
            (min (100 * 2 ^ k) 600000) c).connected then 0 else k + 1)
      constructor
      · simp only [List.map_cons, backoff_series, hsleep]
        rw [this.1]
      · intro r hr
        rcases List.mem_cons.mp hr with h | h
        · rw [h]; exact hiff
        · exact this.2 r h
    · constructor
      · simp [backoff_series, hsleep]
      · intro r hr
        simp only [List.mem_singleton] at hr
        rw [hr]; exact hiff

/-- C9: for a tick length that divides 100 ms, the sleeps of the passes of the
reconnect loop, in ms, are the backoff series: `min (100 * 2 ^ k) 600000` before
the attempt that follows `k` consecutive failed ones, counted from the task
start or from the last fully successful pass.  A pass leaves the delay at 100 ms
exactly when it reached the reset, and it reaches the reset exactly when the
name resolved, connect succeeded and, with a subscribe topic configured,
subscribe succeeded as well. -/
theorem backoff_doubles_caps_and_resets (tick_ms client : Nat) (script : List cycle_env)
    (hT : tick_ms ∣ 100) :
    (mqtt_client_task tick_ms client script).map (cycle_result.sleep_ms tick_ms)
        = (backoff_series ((mqtt_client_task tick_ms client script).map
            (fun r => r.connected)) 0).map some
    ∧ (∀ r ∈ mqtt_client_task tick_ms client script,
        (r.delay = MQTT_CLIENT_DELAY_MIN ↔ r.connected = true))
    ∧ (∀ (delay : Nat) (c : cycle_env),
        (mqtt_client_cycle tick_ms client delay c).connected = fully_successful c) := by
  have h := task_loop_series tick_ms client hT script 0
  have e : min (100 * 2 ^ 0) 600000 = MQTT_CLIENT_DELAY_MIN := by decide
  rw [e] at h
  exact ⟨h.1, h.2, fun delay c => cycle_connected_iff tick_ms client delay c⟩

theorem backoff_doubles_caps_and_resets_witness :
    (10 ∣ 100)
    ∧ (mqtt_client_task 10 7
          [cycle_unresolved, cycle_unresolved, cycle_unresolved, cycle_connected,
           cycle_unresolved, cycle_unresolved]).map (cycle_result.sleep_ms 10)
        = [some 100, some 200, some 400, some 800, some 100, some 200] := by
  refine ⟨by decide, ?_⟩
  rw [(backoff_doubles_caps_and_resets 10 7 _ (by decide)).1]
  decide

/-! ## Publish -/

/-- C10: `mqtt_client_publish` calls `mqtt_publish` exactly when the control
handle and its client are non-null, the payload pointer is non-null, the length
is non-zero and the session reports connected, and then with the arguments it
was given; in every other case, in particular while disconnected, it returns
`ESP_FAIL` and `mqtt_publish` is not among the calls it makes. -/
theorem publish_only_when_connected (ctrl_handle : Option mqtt_client_ctrl_t)
    (topic : List Nat) (data : Option (List Nat)) (len qos retain : Nat)
    (connected publish_ok : Bool) :
    ((mqtt_client_publish ctrl_handle topic data len qos retain connected publish_ok).2.any
        mqtt_call.is_publish = publish_allowed ctrl_handle data len connected)
    ∧ (publish_allowed ctrl_handle data len connected = false →
        (mqtt_client_publish ctrl_handle topic data len qos retain connected publish_ok).1
            = ESP_FAIL
          ∧ ∀ c ∈ (mqtt_client_publish ctrl_handle topic data len qos retain connected
              publish_ok).2, c.is_publish = false)
    ∧ (connected = false →
        (mqtt_client_publish ctrl_handle topic data len qos retain connected publish_ok).1
            = ESP_FAIL
          ∧ ∀ c ∈ (mqtt_client_publish ctrl_handle topic data len qos retain connected
              publish_ok).2, c.is_publish = false)
    ∧ (∀ c ∈ (mqtt_client_publish ctrl_handle topic data len qos retain connected
          publish_ok).2, c.is_publish = true →
        ∃ ctrl client bytes, ctrl_handle = some ctrl ∧ ctrl.mqtt_client = some client
          ∧ data = some bytes ∧ c = mqtt_call.publish client topic bytes len qos retain) := by
  unfold mqtt_client_publish publish_allowed
  cases ctrl_handle with
  | none => simp
  | some ctrl =>
    cases hcl : ctrl.mqtt_client with
    | none => simp [hcl]
    | some client =>
      cases data with
      | none => simp [hcl]
      | some bytes =>
        by_cases hlen : len = 0
        · simp [hcl, hlen]
        · cases connected <;> cases publish_ok <;>
            simp [hcl, hlen, mqtt_call.is_publish]

theorem publish_only_when_connected_witness :
    publish_allowed (some ⟨some 7, MQTT_ERROR_OK⟩) (some [104, 105]) 2 false = false
    ∧ (mqtt_client_publish (some ⟨some 7, MQTT_ERROR_OK⟩) [116] (some [104, 105]) 2 0 0
        false true).1 = ESP_FAIL
    ∧ ∀ c ∈ (mqtt_client_publish (some ⟨some 7, MQTT_ERROR_OK⟩) [116] (some [104, 105]) 2 0 0
        false true).2, c.is_publish = false :=
  ⟨rfl,
   (publish_only_when_connected (some ⟨some 7, MQTT_ERROR_OK⟩) [116] (some [104, 105]) 2 0 0
     false true).2.2.1 rfl⟩

end Mqtt

namespace Ota

open esp_ota_firm_state esp_err_t

/-! ## The header loop never runs out of fuel -/

theorem read_until_pos (buffer : List Nat) (delim len : Nat) : 1 ≤ read_until buffer delim len := by
  cases len with
  | zero => simp [read_until]
  | succ n =>
    cases buffer with
    | nil => simp only [read_until]; split <;> omega
    | cons b t => simp only [read_until]; split <;> omega

theorem parse_content_length_ne_diverge (text : List Nat) (p : Nat) :
    parse_content_length text p ≠ Res.diverge := by
  unfold parse_content_length
  simp only
  split
  · simp
  · split
    · simp
    · split <;> simp

theorem find_content_length_ne_diverge (split : Bool) (firm : esp_ota_firm) (text : List Nat) :
    find_content_length split firm text ≠ Res.diverge := by
  unfold find_content_length
  split
  · split
    · split
      · unfold set_content_length
        split
        · split <;> simp
        · simp
      · simp
      · rename_i h
        exact absurd h (parse_content_length_ne_diverge _ _)
    · simp
  · simp

theorem parse_http_loop_ne_diverge (split : Bool) (text : List Nat) (total_len : Nat) :
    ∀ (fuel : Nat) (firm : esp_ota_firm) (i : Nat), i ≤ total_len → total_len < i + fuel →
      parse_http_loop split text total_len fuel firm i ≠ Res.diverge := by
  intro fuel
  induction fuel with
  | zero => intro firm i h1 h2; omega
  | succ fuel ih =>
    intro firm i h1 h2
    unfold parse_http_loop
    split
    · split
      · simp only
        have hpos := read_until_pos (text.drop i) 10 (total_len - i)
        split
        · simp
        · split
          · split <;> simp
          · apply ih
            · omega
            · omega
      · simp
      · rename_i h
        exact absurd h (find_content_length_ne_diverge _ _ _)
    · simp

/-- The header parser always returns or faults: the fuel `total_len + 1` given
to its loop is never used up. -/
theorem parse_http_ne_diverge (split : Bool) (firm : esp_ota_firm) (text : List Nat)
    (total_len : Nat) :
    _esp_ota_firm_parse_http split firm text total_len ≠ Res.diverge :=
  parse_http_loop_ne_diverge split text total_len _ firm 0 (Nat.zero_le _) (by omega)

end Ota

namespace Cmd

open Ota (esp_err_t Res bytesOf)
open Ota.esp_err_t

/-! ## The inbound mailbox -/

theorem deliver_append (a b : List inbound_chunk) (queue : List cmd_data_t) :
    deliver (a ++ b) queue
      = ((deliver b (deliver a queue).1).1, (deliver a queue).2 ++ (deliver b (deliver a queue).1).2) := by
  induction a generalizing queue with
  | nil => simp [deliver]
  | cons c rest ih => simp [deliver, ih, List.append_assoc]

/-- While there is room every chunk whose allocations succeed is queued at the
back, with one `xQueueSend` of zero ticks each. -/
theorem deliver_with_room (chunks : List inbound_chunk) (queue : List cmd_data_t)
    (halloc : ∀ c ∈ chunks, c.data_ok = true ∧ c.cmd_ok = true)
    (hroom : queue.length + chunks.length ≤ CMD_PARSE_QUEUE_LEN) :
    deliver chunks queue
      = (queue ++ chunks.map queued_entry, List.replicate chunks.length (cb_event.queue_send 0)) := by
  induction chunks generalizing queue with
  | nil => simp [deliver]
  | cons c rest ih =>
    have hc := halloc c (List.mem_cons_self _ _)
    have hrest : ∀ x ∈ rest, x.data_ok = true ∧ x.cmd_ok = true :=
      fun x hx => halloc x (List.mem_cons_of_mem _ hx)
    simp only [List.length_cons] at hroom
    have hlt : queue.length < CMD_PARSE_QUEUE_LEN := by omega
    have hstep : cmd_recv_cb c.data_ok c.cmd_ok queue c.data c.len c.last
        = (queue ++ [queued_entry c], [cb_event.queue_send 0]) := by
      simp [cmd_recv_cb, hc.1, hc.2, xQueueSend, hlt, queued_entry]
    have hroom1 : (queue ++ [queued_entry c]).length + rest.length ≤ CMD_PARSE_QUEUE_LEN := by
      simp only [List.length_append, List.length_singleton]
      omega
    simp only [deliver, hstep, ih (queue ++ [queued_entry c]) hrest hroom1]
    simp [List.replicate_succ]

/-- A chunk that arrives at a full queue is dropped, and the drop is reported
once. -/
theorem deliver_to_full_queue (c : inbound_chunk) (queue : List cmd_data_t)
    (hc : c.data_ok = true ∧ c.cmd_ok = true) (hfull : queue.length = CMD_PARSE_QUEUE_LEN) :
    deliver [c] queue = (queue, [cb_event.queue_send 0, cb_event.discarded]) := by
  have hlt : ¬ queue.length < CMD_PARSE_QUEUE_LEN := by omega
  simp [deliver, cmd_recv_cb, hc.1, hc.2, xQueueSend, hlt]

/-- C11: starting from the empty mailbox, N + 1 chunks (N = `CMD_PARSE_QUEUE_LEN`
= 5) delivered through `cmd_recv_cb` with nothing dequeued in between, all
allocations succeeding, leave exactly the first N queued in arrival order; the
last one is dropped and "queue is full" is reported exactly once; every
`xQueueSend` is made with zero ticks to wait, so no call of the callback
blocks. -/
theorem mailbox_keeps_first_n_and_drops_one (chunks : List inbound_chunk)
    (extra : inbound_chunk) (hlen : chunks.length = CMD_PARSE_QUEUE_LEN)
    (halloc : ∀ c ∈ chunks ++ [extra], c.data_ok = true ∧ c.cmd_ok = true) :
    CMD_PARSE_QUEUE_LEN = 5
    ∧ (deliver (chunks ++ [extra]) []).1 = chunks.map queued_entry
    ∧ (deliver (chunks ++ [extra]) []).2
        = List.replicate (CMD_PARSE_QUEUE_LEN + 1) (cb_event.queue_send 0) ++ [cb_event.discarded]
    ∧ (deliver (chunks ++ [extra]) []).2.count cb_event.discarded = 1
    ∧ ∀ t, cb_event.queue_send t ∈ (deliver (chunks ++ [extra]) []).2 → t = 0 := by
  have h1 : ∀ c ∈ chunks, c.data_ok = true ∧ c.cmd_ok = true :=
    fun c hc => halloc c (List.mem_append_left _ hc)
  have h2 : extra.data_ok = true ∧ extra.cmd_ok = true :=
    halloc extra (List.mem_append_right _ (List.mem_singleton_self _))
  have hroom : ([] : List cmd_data_t).length + chunks.length ≤ CMD_PARSE_QUEUE_LEN := by
    simp [hlen]
  have hd := deliver_with_room chunks [] h1 hroom
  have hfull : ([] ++ chunks.map queued_entry).length = CMD_PARSE_QUEUE_LEN := by
    simp [hlen]
  have he := deliver_to_full_queue extra _ h2 hfull
  have hall : deliver (chunks ++ [extra]) []
      = (chunks.map queued_entry,
         List.replicate (CMD_PARSE_QUEUE_LEN + 1) (cb_event.queue_send 0)
           ++ [cb_event.discarded]) := by
    rw [deliver_append, hd, he]
    simp only [List.nil_append, hlen, Prod.mk.injEq, true_and]
    simp [List.replicate_succ', List.append_assoc]
  rw [hall]
  refine ⟨rfl, rfl, rfl, ?_, ?_⟩
  · simp [List.count_append, List.count_replicate]
  · intro t ht
    simp only [List.mem_append, List.mem_replicate, List.mem_singleton] at ht
    rcases ht with ⟨_, h⟩ | h
    · cases h; rfl
    · cases h

theorem mailbox_keeps_first_n_and_drops_one_witness :
    (deliver ([chunk_of [97] true, chunk_of [98] true, chunk_of [99] true, chunk_of [100] true,
               chunk_of [101] true] ++ [chunk_of [102] true]) []).1
      = [⟨[97, 0], 2, true⟩, ⟨[98, 0], 2, true⟩, ⟨[99, 0], 2, true⟩, ⟨[100, 0], 2, true⟩,
         ⟨[101, 0], 2, true⟩]
    ∧ (deliver ([chunk_of [97] true, chunk_of [98] true, chunk_of [99] true,
                 chunk_of [100] true, chunk_of [101] true] ++ [chunk_of [102] true]) []).2.count
        cb_event.discarded = 1 := by
  have h := mailbox_keeps_first_n_and_drops_one
    [chunk_of [97] true, chunk_of [98] true, chunk_of [99] true, chunk_of [100] true,
     chunk_of [101] true] (chunk_of [102] true) (by decide) (by decide)
  exact ⟨h.2.1.trans (by decide), h.2.2.2.1⟩

/-! ## Acknowledgements -/

theorem cmd_switch_client_name (env : cmd_env) (st : cmd_state) (root : cJSON) :
    cmd_switch env st root CMD_SET_MQTT_CLIENT_NAME
      = handler_then_result env (cmd_set_mqtt_client_name env st root) CMD_SET_MQTT_CLIENT_NAME
          (fun _ => esp_err_code ESP_FAIL) := by
  simp [cmd_switch, CMD_DO_OTA, CMD_DO_REBOOT, CMD_SET_MQTT_CLIENT_NAME, CMD_GET_SYS_INFO,
    CMD_GET_UPS_INFO]

theorem cmd_switch_brightness (env : cmd_env) (st : cmd_state) (root : cJSON) :
    cmd_switch env st root CMD_SET_DISPLAY_BRIGHTNESS
      = handler_then_result env (cmd_set_display_brightness env st root)
          CMD_SET_DISPLAY_BRIGHTNESS (fun ret => esp_err_code ret) := by
  simp [cmd_switch, CMD_DO_OTA, CMD_DO_REBOOT, CMD_SET_MQTT_CLIENT_NAME, CMD_GET_SYS_INFO,
    CMD_GET_UPS_INFO, CMD_SET_MQTT_SERVER_IP, CMD_SET_DISPLAY_BRIGHTNESS]

/-- The part of `cmd_recv` before the `switch`, for a message that decodes to an
object with a numeric "cmd" member. -/
theorem cmd_recv_decoded (env : cmd_env) (st : cmd_state) (cmd : cmd_data_t) (root : cJSON)
    (code : Int) (hparse : env.parse cmd.data = some root)
    (hcode : cJSON_GetObjectItemCaseSensitive root CMD_JSON_CMD
      = some (cJSON_item.number code)) :
    cmd_recv env st cmd
      = cmd_switch env { st with trace := st.trace ++ [cmd_event.json_parse cmd.data] } root
          code := by
  simp [cmd_recv, hparse, hcode, cJSON_IsNumber, cJSON_item.valueint]

/-- C14 (code at the failing input): `cmd_set_display_brightness` does nothing
and returns `ESP_FAIL` for every message, so for the command
"cmd": 6, "b": 1 the dispatcher changes nothing in the settings store and the
acknowledgement it publishes for code 6 says "ERROR". -/
theorem brightness_command_is_refused :
    (∀ (env : cmd_env) (st : cmd_state) (root : cJSON),
        cmd_set_display_brightness env st root = (Run.returned ESP_FAIL, st))
    ∧ cmd_recv sample_env empty_state (entry_of "\x7b\"cmd\":6,\"b\":1\x7d" true)
      = (Run.returned ESP_FAIL,
         { store := [],
           trace := [cmd_event.json_parse (bytesOf "\x7b\"cmd\":6,\"b\":1\x7d" ++ [0]),
             cmd_event.mqtt_client_publish (bytesOf "sensors/data/ups")
               (bytesOf "\x7b\"cmd\":6,\"id\":\"ups\",\"time\":1550306592,\"res\":\"ERROR\"\x7d")
               52 1 0 ESP_OK] }) :=
  ⟨fun _ _ _ => rfl, by decide⟩

/-! ## Unknown command codes -/

/-- C16: a decoded message whose "cmd" member is a number outside 0..6 is
ignored: `cmd_recv` returns after the decoding with the settings store
unchanged and no further call made (nothing published, no store write, no
`ota_start`, no `esp_restart`). -/
theorem unknown_code_is_ignored (env : cmd_env) (st : cmd_state) (cmd : cmd_data_t)
    (root : cJSON) (code : Int) (hparse : env.parse cmd.data = some root)
    (hcode : cJSON_GetObjectItemCaseSensitive root CMD_JSON_CMD = some (cJSON_item.number code))
    (hout : code < 0 ∨ 6 < code) :
    cmd_recv env st cmd
      = (Run.returned ESP_OK,
         { store := st.store, trace := st.trace ++ [cmd_event.json_parse cmd.data] }) := by
  rw [cmd_recv_decoded env st cmd root code hparse hcode]
  have h0 : code ≠ CMD_DO_REBOOT := by unfold CMD_DO_REBOOT; omega
  have h1 : code ≠ CMD_DO_OTA := by unfold CMD_DO_OTA; omega
  have h2 : code ≠ CMD_GET_SYS_INFO := by unfold CMD_GET_SYS_INFO; omega
  have h3 : code ≠ CMD_GET_UPS_INFO := by unfold CMD_GET_UPS_INFO; omega
  have h4 : code ≠ CMD_SET_MQTT_CLIENT_NAME := by unfold CMD_SET_MQTT_CLIENT_NAME; omega
  have h5 : code ≠ CMD_SET_MQTT_SERVER_IP := by unfold CMD_SET_MQTT_SERVER_IP; omega
  have h6 : code ≠ CMD_SET_DISPLAY_BRIGHTNESS := by unfold CMD_SET_DISPLAY_BRIGHTNESS; omega
  simp [cmd_switch, h0, h1, h2, h3, h4, h5, h6]

theorem unknown_code_is_ignored_witness :
    cmd_recv sample_env empty_state (entry_of "\x7b\"cmd\":7\x7d" true)
      = (Run.returned ESP_OK,
         { store := [],
           trace := [] ++ [cmd_event.json_parse (bytesOf "\x7b\"cmd\":7\x7d" ++ [0])] }) :=
  unknown_code_is_ignored sample_env empty_state (entry_of "\x7b\"cmd\":7\x7d" true)
    (cJSON.object [(CMD_JSON_CMD, cJSON_item.number 7)]) 7 (by decide) (by decide) (by decide)

/-! ## StartOta -/

theorem publish_json_store (env : cmd_env) (st : cmd_state)
    (root : List (List Nat × cJSON_item)) :
    (publish_json env st root).2.store = st.store := by
  unfold publish_json
  split <;> rfl

theorem send_cmd_result_store (env : cmd_env) (st : cmd_state) (c r : Int) :
    (send_cmd_result env st c r).2.store = st.store := by
  unfold send_cmd_result
  split
  · rfl
  · exact publish_json_store _ _ _

theorem ack_then_reboot_store (env : cmd_env) (st : cmd_state) (c r : Int) :
    (and_then (send_cmd_result env st c r) (fun st2 => do_reboot env st2)).2.store
      = st.store := by
  unfold and_then
  split <;> simp [do_reboot, send_cmd_result_store]

theorem handler_then_result_store (env : cmd_env) (r : Run esp_err_t × cmd_state) (code : Int)
    (res : esp_err_t → Int) :
    (handler_then_result env r code res).2.store = r.2.store := by
  unfold handler_then_result
  split
  · unfold and_then
    split <;> simp [send_cmd_result_store]
  · rfl
  · rfl
  · rfl

theorem nvs_get_str_set (store : nvs_store) (key s : List Nat) :
    nvs_get_str (nvs_set store key (nvs_value.str s)) key = some s := by
  simp [nvs_get_str, nvs_set, List.find?]

/-- C13: a SetClientName command with name `s`, handled with the store open and
the write succeeding, leaves `s` under the client-identifier key of the settings
store.  From that store `mqtt_start` at the next boot (store open), whenever it
returns `ESP_OK`, has built the session with client identifier `s`, subscribe
topic "sensors/cmd/" ++ `s` and publish topic "sensors/data/" ++ `s`, whatever
the identifier of the previous boot was; and it does return `ESP_OK` when its
allocations and `mqtt_client_start` succeed. -/
theorem client_name_round_trip (env : cmd_env) (st : cmd_state) (cmd : cmd_data_t)
    (root : cJSON) (s : List Nat) (boot : mqtt_start_env)
    (hparse : env.parse cmd.data = some root)
    (hcode : cJSON_GetObjectItemCaseSensitive root CMD_JSON_CMD
      = some (cJSON_item.number CMD_SET_MQTT_CLIENT_NAME))
    (hname : cJSON_GetObjectItemCaseSensitive root CMD_JSON_CLIENT_NAME
      = some (cJSON_item.string s))
    (hnvs : env.nvs_handle ≠ 0) (hwrite : env.nvs_write_ok = true)
    (hboot : boot.nvs_handle ≠ 0) :
    (cmd_recv env st cmd).2.store = nvs_set st.store NVS_MQTT_CLIENT_ID (nvs_value.str s)
    ∧ (∀ session, mqtt_start boot (cmd_recv env st cmd).2.store = Res.ok (some session) →
        session.client_id = s
          ∧ session.sub_topic = bytesOf "sensors/cmd/" ++ s
          ∧ session.pub_topic = bytesOf "sensors/data/" ++ s)
    ∧ (boot.calloc_id_ok = true → boot.calloc_ip_ok = true → boot.malloc_sub_ok = true →
        boot.malloc_pub_ok = true → boot.client_start_ok = true →
        ∃ session, mqtt_start boot (cmd_recv env st cmd).2.store = Res.ok (some session)) := by
  have hstore : (cmd_recv env st cmd).2.store
      = nvs_set st.store NVS_MQTT_CLIENT_ID (nvs_value.str s) := by
    rw [cmd_recv_decoded env st cmd root _ hparse hcode, cmd_switch_client_name,
      handler_then_result_store]
    simp only [cmd_set_mqtt_client_name, hname, cJSON_IsString, hnvs, hwrite,
      cJSON_item.valuestring, ne_eq, not_false_eq_true, if_true, Bool.not_true,
      Bool.false_eq_true, if_false]
    rw [ack_then_reboot_store]
  have hget := nvs_get_str_set st.store NVS_MQTT_CLIENT_ID s
  refine ⟨hstore, ?_, ?_⟩
  · intro session hs
    rw [hstore] at hs
    unfold mqtt_start at hs
    simp only [hboot, ne_eq, not_false_eq_true, if_true, hget, Option.isSome_some,
      Bool.true_and] at hs
    split_ifs at hs <;>
      first
      | (simp only [Res.ok.injEq, Option.some.injEq] at hs
         subst hs
         exact ⟨rfl, rfl, rfl⟩)
      | (unfold mqtt_start_error at hs
         split at hs <;> simp at hs)
  · intro h1 h2 h3 h4 h5
    rw [hstore]
    unfold mqtt_start
    simp [hboot, hget, h1, h2, h3, h4, h5]

theorem client_name_round_trip_witness :
    (cmd_recv sample_env empty_state
        (entry_of "\x7b\"cmd\":4,\"name\":\"attic\"\x7d" true)).2.store
      = nvs_set [] NVS_MQTT_CLIENT_ID (nvs_value.str (bytesOf "attic"))
    ∧ mqtt_start ⟨1, some (bytesOf "84f3eb23bcd5"), true, true, true, true, true⟩
        (cmd_recv sample_env empty_state
          (entry_of "\x7b\"cmd\":4,\"name\":\"attic\"\x7d" true)).2.store
      = Res.ok (some { broker := bytesOf "192.168.1.135",
                       sub_topic := bytesOf "sensors/cmd/attic", sub_qos := 1,
                       client_id := bytesOf "attic",
                       pub_topic := bytesOf "sensors/data/attic" }) :=
  ⟨(client_name_round_trip sample_env empty_state
      (entry_of "\x7b\"cmd\":4,\"name\":\"attic\"\x7d" true)
      (cJSON.object [(CMD_JSON_CMD, cJSON_item.number 4),
                     (CMD_JSON_CLIENT_NAME, cJSON_item.string (bytesOf "attic"))])
      (bytesOf "attic") ⟨1, some (bytesOf "84f3eb23bcd5"), true, true, true, true, true⟩
      (by decide) (by decide) (by decide) (by decide) rfl (by decide)).1,
   by decide⟩

/-! ## A store write is followed by the restart -/

theorem no_write_so_far {st st1 : cmd_state} {r : Run esp_err_t} (new : List cmd_event)
    (hr : r ≠ Run.restarted) (htr : st1.trace = st.trace ++ new)
    (hw : ∀ e ∈ new, cmd_event.wrote e = false) (hs : st1.store = st.store) :
    restarts_or_writes_nothing st (r, st1) :=
  ⟨new, htr, Or.inr ⟨hr, hw, hs⟩⟩

theorem do_reboot_restarts (env : cmd_env) {st st1 : cmd_state} (new : List cmd_event)
    (htr : st1.trace = st.trace ++ new) :
    restarts_or_writes_nothing st (do_reboot env st1) := by
  refine ⟨new ++ [cmd_event.vTaskDelay (500 / env.tick_ms), cmd_event.esp_restart], ?_,
    Or.inl ⟨rfl, ?_⟩⟩
  · simp [do_reboot, htr, List.append_assoc]
  · simp [List.getLast?_append]

theorem publish_json_returns (env : cmd_env) (hprint : ∀ m, env.print m ≠ none)
    (st : cmd_state) (root : List (List Nat × cJSON_item)) :
    ∃ ret e, cmd_event.wrote e = false
      ∧ publish_json env st root
          = (Run.returned ret, { store := st.store, trace := st.trace ++ [e] }) := by
  unfold publish_json
  cases hp : env.print root with
  | none => exact absurd hp (hprint root)
  | some string =>
    exact ⟨(Mqtt.mqtt_client_publish env.ctrl_handle env.mqtt_pub_topic (some string)
        (strlen string % 65536) MQTT_PUB_QOS 0 env.connected env.publish_ok).1,
      cmd_event.mqtt_client_publish env.mqtt_pub_topic string (strlen string % 65536)
        MQTT_PUB_QOS 0
        (Mqtt.mqtt_client_publish env.ctrl_handle env.mqtt_pub_topic (some string)
          (strlen string % 65536) MQTT_PUB_QOS 0 env.connected env.publish_ok).1,
      rfl, rfl⟩

theorem send_cmd_result_returns (env : cmd_env) (hprint : ∀ m, env.print m ≠ none)
    (st : cmd_state) (c r : Int) :
    ∃ ret evs, (∀ e ∈ evs, cmd_event.wrote e = false)
      ∧ send_cmd_result env st c r
          = (Run.returned ret, { store := st.store, trace := st.trace ++ evs }) := by
  unfold send_cmd_result
  split
  · exact ⟨ESP_FAIL, [], by simp, by simp⟩
  · obtain ⟨ret, e, he, h⟩ := publish_json_returns env hprint st (cmd_result_json env c r)
    exact ⟨ret, [e], by simpa using he, h⟩

theorem ack_then_reboot_restarts (env : cmd_env) (hprint : ∀ m, env.print m ≠ none)
    {st st1 : cmd_state} (new : List cmd_event) (htr : st1.trace = st.trace ++ new)
    (c r : Int) :
    restarts_or_writes_nothing st
      (and_then (send_cmd_result env st1 c r) (fun st2 => do_reboot env st2)) := by
  obtain ⟨ret, evs, _, h⟩ := send_cmd_result_returns env hprint st1 c r
  rw [h]
  simp only [and_then]
  exact do_reboot_restarts env (new ++ evs) (by simp [htr, List.append_assoc])

theorem cmd_do_reboot_spec (env : cmd_env) (st : cmd_state) (root : cJSON) :
    restarts_or_writes_nothing st (cmd_do_reboot env st root) := by
  unfold cmd_do_reboot
  split
  · split
    · exact no_write_so_far [] (by simp) (by simp) (by simp) rfl
    · split
      · split
        · exact no_write_so_far [_] (by simp) rfl (by simp [cmd_event.wrote]) rfl
        · exact do_reboot_restarts env [_] rfl
      · exact do_reboot_restarts env [] (by simp)
  · exact do_reboot_restarts env [] (by simp)

theorem cmd_set_mqtt_client_name_spec (env : cmd_env) (hprint : ∀ m, env.print m ≠ none)
    (st : cmd_state) (root : cJSON) :
    restarts_or_writes_nothing st (cmd_set_mqtt_client_name env st root) := by
  unfold cmd_set_mqtt_client_name
  split
  · exact no_write_so_far [] (by simp) (by simp) (by simp) rfl
  · split
    · exact no_write_so_far [] (by simp) (by simp) (by simp) rfl
    · split
      · split
        · exact no_write_so_far [_] (by simp) rfl (by simp [cmd_event.wrote]) rfl
        · exact ack_then_reboot_restarts env hprint [_] rfl _ _
      · exact no_write_so_far [] (by simp) (by simp) (by simp) rfl

theorem cmd_set_mqtt_broker_ip_spec (env : cmd_env) (hprint : ∀ m, env.print m ≠ none)
    (st : cmd_state) (root : cJSON) :
    restarts_or_writes_nothing st (cmd_set_mqtt_broker_ip env st root) := by
  unfold cmd_set_mqtt_broker_ip
  split
  · exact no_write_so_far [] (by simp) (by simp) (by simp) rfl
  · split
    · exact no_write_so_far [] (by simp) (by simp) (by simp) rfl
    · split
      · split
        · exact no_write_so_far [_] (by simp) rfl (by simp [cmd_event.wrote]) rfl
        · exact ack_then_reboot_restarts env hprint [_] rfl _ _
      · exact no_write_so_far [] (by simp) (by simp) (by simp) rfl

theorem cmd_do_ota_spec (env : cmd_env) (hprint : ∀ m, env.print m ≠ none)
    (st : cmd_state) (root : cJSON) :
    restarts_or_writes_nothing st (cmd_do_ota env st root) := by
  unfold cmd_do_ota
  split
  · exact no_write_so_far [] (by simp) (by simp) (by simp) rfl
  · split
    · exact no_write_so_far [] (by simp) (by simp) (by simp) rfl
    · split
      · exact no_write_so_far [] (by simp) (by simp) (by simp) rfl
      · split
        · exact no_write_so_far [] (by simp) (by simp) (by simp) rfl
        · split
          · exact no_write_so_far [] (by simp) (by simp) (by simp) rfl
          · split
            · exact no_write_so_far [] (by simp) (by simp) (by simp) rfl
            · simp only
              split
              · exact ack_then_reboot_restarts env hprint [_] rfl _ _
              · exact no_write_so_far [_] (by simp) rfl (by simp [cmd_event.wrote]) rfl
              · exact no_write_so_far [_] (by simp) rfl (by simp [cmd_event.wrote]) rfl
              · exact no_write_so_far [_] (by simp) rfl (by simp [cmd_event.wrote]) rfl

theorem handler_then_result_spec (env : cmd_env) (hprint : ∀ m, env.print m ≠ none)
    (st : cmd_state) (r : Run esp_err_t × cmd_state) (code : Int) (res : esp_err_t → Int)
    (h : restarts_or_writes_nothing st r) :
    restarts_or_writes_nothing st (handler_then_result env r code res) := by
  obtain ⟨new, htr, hcase⟩ := h
  unfold handler_then_result
  split
  · rename_i ret hret
    rcases hcase with ⟨h1, _⟩ | ⟨_, hw, hs⟩
    · rw [hret] at h1; cases h1
    · obtain ⟨ret2, evs, hev, hsend⟩ := send_cmd_result_returns env hprint r.2 code (res ret)
      rw [hsend]
      simp only [and_then]
      refine no_write_so_far (new ++ evs) (by simp) (by simp [htr, List.append_assoc]) ?_ hs
      intro e he
      rcases List.mem_append.mp he with h | h
      · exact hw e h
      · exact hev e h
  · rename_i hret
    rcases hcase with ⟨_, hl⟩ | ⟨h1, _⟩
    · exact ⟨new, htr, Or.inl ⟨rfl, hl⟩⟩
    · exact absurd hret h1
  · rename_i hret
    rcases hcase with ⟨h1, _⟩ | ⟨_, hw, hs⟩
    · rw [hret] at h1; cases h1
    · exact no_write_so_far new (by simp) htr hw hs
  · rename_i hret
    rcases hcase with ⟨h1, _⟩ | ⟨_, hw, hs⟩
    · rw [hret] at h1; cases h1
    · exact no_write_so_far new (by simp) htr hw hs

theorem publish_json_spec (env : cmd_env) (hprint : ∀ m, env.print m ≠ none)
    (st : cmd_state) (root : List (List Nat × cJSON_item)) :
    restarts_or_writes_nothing st (publish_json env st root) := by
  obtain ⟨ret, e, he, h⟩ := publish_json_returns env hprint st root
  rw [h]
  exact no_write_so_far [e] (by simp) rfl (by simpa using he) rfl

theorem cmd_switch_spec (env : cmd_env) (hprint : ∀ m, env.print m ≠ none)
    (st : cmd_state) (root : cJSON) (code : Int) :
    restarts_or_writes_nothing st (cmd_switch env st root code) := by
  unfold cmd_switch
  split
  · exact handler_then_result_spec env hprint st _ _ _ (cmd_do_reboot_spec env st root)
  · split
    · exact handler_then_result_spec env hprint st _ _ _ (cmd_do_ota_spec env hprint st root)
    · split
      · unfold send_sys_info
        split
        · exact no_write_so_far [] (by simp) (by simp) (by simp) rfl
        · exact publish_json_spec env hprint st _
      · split
        · unfold send_ups_info
          split
          · exact no_write_so_far [] (by simp) (by simp) (by simp) rfl
          · exact publish_json_spec env hprint st _
        · split
          · exact handler_then_result_spec env hprint st _ _ _
              (cmd_set_mqtt_client_name_spec env hprint st root)
          · split
            · exact handler_then_result_spec env hprint st _ _ _
                (cmd_set_mqtt_broker_ip_spec env hprint st root)
            · split
              · exact handler_then_result_spec env hprint st _ _ _
                  (no_write_so_far [] (by simp) (by simp) (by simp) rfl)
              · exact no_write_so_far [] (by simp) (by simp) (by simp) rfl

theorem cmd_recv_spec (env : cmd_env) (hprint : ∀ m, env.print m ≠ none)
    (st : cmd_state) (cmd : cmd_data_t) :
    restarts_or_writes_nothing st (cmd_recv env st cmd) := by
  have hparse_only : restarts_or_writes_nothing st
      (Run.returned ESP_OK,
        { st with trace := st.trace ++ [cmd_event.json_parse cmd.data] }) :=
    no_write_so_far [_] (by simp) rfl (by simp [cmd_event.wrote]) rfl
  unfold cmd_recv
  simp only
  cases env.parse cmd.data with
  | none => exact hparse_only
  | some root =>
    simp only
    cases cJSON_GetObjectItemCaseSensitive root CMD_JSON_CMD with
    | none => exact hparse_only
    | some cmd_nr =>
      simp only
      split
      · exact hparse_only
      · obtain ⟨new, htr, hcase⟩ := cmd_switch_spec env hprint
          { st with trace := st.trace ++ [cmd_event.json_parse cmd.data] } root cmd_nr.valueint
        refine ⟨cmd_event.json_parse cmd.data :: new, by simp [htr], ?_⟩
        rcases hcase with ⟨h1, h2⟩ | ⟨h1, h2, h3⟩
        · refine Or.inl ⟨h1, ?_⟩
          cases new with
          | nil => simp at h2
          | cons a t => simpa [List.getLast?_cons_cons] using h2
        · refine Or.inr ⟨h1, ?_, h3⟩
          intro e he
          rcases List.mem_cons.mp he with h | h
          · rw [h]; rfl
          · exact h2 e h

/-- While `cJSON_Print` does not fail, a call of `cmd_recv` that makes a
successful write to the settings store ends in `esp_restart`: it does not
return, the restart is the last call made, and the task loop handles no
further queue entry. -/
theorem write_then_restart_when_printed (env : cmd_env) (st : cmd_state)
    (cmd : cmd_data_t) (hprint : ∀ m, env.print m ≠ none) :
    ∃ new, (cmd_recv env st cmd).2.trace = st.trace ++ new
      ∧ ((∃ e ∈ new, cmd_event.wrote e = true) →
          (cmd_recv env st cmd).1 = Run.restarted
            ∧ new.getLast? = some cmd_event.esp_restart
            ∧ ∀ rest, cmd.last = true →
                cmd_recv_task_loop ((env, cmd) :: rest) st
                  = (Run.restarted, (cmd_recv env st cmd).2)) := by
  obtain ⟨new, htr, hcase⟩ := cmd_recv_spec env hprint st cmd
  refine ⟨new, htr, ?_⟩
  · rintro ⟨e, he, hw⟩
    rcases hcase with ⟨h1, h2⟩ | ⟨_, h2, _⟩
    · refine ⟨h1, h2, ?_⟩
      intro rest hlast
      simp only [cmd_recv_task_loop, hlast, if_true]
      generalize hr : cmd_recv env st cmd = r at h1
      obtain ⟨r1, r2⟩ := r
      simp only at h1
      subst h1
      rfl
    · rw [h2 e he] at hw
      cases hw

/-- C18 (code at the failing input): `send_cmd_result` passes the result of
`cJSON_Print` to `strlen` without the NULL check its other cJSON calls get.  For
the SetClientName command "cmd": 4, "name": "attic" handled while `cJSON_Print`
returns NULL, `cmd_recv` writes the identifier to the settings store and then
faults in `send_cmd_result`: `esp_restart` is not called by the handler.  With a
working `cJSON_Print` the same command is written, acknowledged and followed by
the restart, a Reboot command with an AP-mode flag is followed by the restart
without any print, and for every command a successful store write ends in
`esp_restart` before a further queue entry is handled. -/
theorem store_write_then_print_failure_faults :
    (cmd_recv sample_env_print_fails empty_state
        (entry_of "\x7b\"cmd\":4,\"name\":\"attic\"\x7d" true)).1 = Run.fault
    ∧ (cmd_recv sample_env_print_fails empty_state
        (entry_of "\x7b\"cmd\":4,\"name\":\"attic\"\x7d" true)).2.store
        = nvs_set [] NVS_MQTT_CLIENT_ID (nvs_value.str (bytesOf "attic"))
    ∧ (cmd_recv sample_env_print_fails empty_state
        (entry_of "\x7b\"cmd\":4,\"name\":\"attic\"\x7d" true)).2.trace
        = [cmd_event.json_parse (bytesOf "\x7b\"cmd\":4,\"name\":\"attic\"\x7d" ++ [0]),
           cmd_event.nvs_set_str NVS_MQTT_CLIENT_ID (bytesOf "attic") true]
    ∧ (cmd_recv_task_loop
        [(sample_env_print_fails, entry_of "\x7b\"cmd\":4,\"name\":\"attic\"\x7d" true),
         (sample_env_print_fails, entry_of "\x7b\"cmd\":7\x7d" true)] empty_state).1 = Run.fault
    ∧ (cmd_recv sample_env empty_state
        (entry_of "\x7b\"cmd\":4,\"name\":\"attic\"\x7d" true)).1 = Run.restarted
    ∧ (cmd_recv sample_env empty_state
        (entry_of "\x7b\"cmd\":4,\"name\":\"attic\"\x7d" true)).2.trace
        = [cmd_event.json_parse (bytesOf "\x7b\"cmd\":4,\"name\":\"attic\"\x7d" ++ [0]),
           cmd_event.nvs_set_str NVS_MQTT_CLIENT_ID (bytesOf "attic") true,
           ack_event sample_env
             (bytesOf "\x7b\"cmd\":4,\"id\":\"ups\",\"time\":1550306592,\"res\":\"OK\"\x7d"),
           cmd_event.vTaskDelay 50, cmd_event.esp_restart]
    ∧ (cmd_recv sample_env_print_fails empty_state
        (entry_of "\x7b\"cmd\":0,\"ap\":1\x7d" true)).2.trace
        = [cmd_event.json_parse (bytesOf "\x7b\"cmd\":0,\"ap\":1\x7d" ++ [0]),
           cmd_event.nvs_set_u8 NVS_WIFI_AP_MODE 1 true, cmd_event.vTaskDelay 50,
           cmd_event.esp_restart]
    ∧ (∀ (env : cmd_env) (st : cmd_state) (cmd : cmd_data_t), (∀ m, env.print m ≠ none) →
        ∃ new, (cmd_recv env st cmd).2.trace = st.trace ++ new
          ∧ ((∃ e ∈ new, cmd_event.wrote e = true) →
              (cmd_recv env st cmd).1 = Run.restarted
                ∧ new.getLast? = some cmd_event.esp_restart
                ∧ ∀ rest, cmd.last = true →
                    cmd_recv_task_loop ((env, cmd) :: rest) st
                      = (Run.restarted, (cmd_recv env st cmd).2))) := by
  refine ⟨by decide, by decide, by decide, by decide, by decide, by decide, by decide, ?_⟩
  intro env st cmd hprint
  exact write_then_restart_when_printed env st cmd hprint


/-! ## Fragmented messages -/

/-- C15 (code at the failing input): the task loop skips a queue entry whose
"last" flag is clear, whatever follows.  But the final chunk of a fragmented
message carries the flag: for the message made of 128 blanks and the text of a
Reboot command, delivered by the network layer as two chunks, the first chunk
is skipped and the second is passed to `cJSON_Parse` and executed, and the
device restarts. -/
theorem last_fragment_is_decoded :
    (∀ (env : cmd_env) (cmd : cmd_data_t) (rest : List (cmd_env × cmd_data_t))
        (st : cmd_state), cmd.last = false →
        cmd_recv_task_loop ((env, cmd) :: rest) st
          = cmd_recv_task_loop rest { st with trace := st.trace ++ [cmd_event.fragmented] })
    ∧ (deliver (inbound fragment_head 0 ++ inbound fragment_tail Mqtt.MQTT_DATA_FLAG_LAST) []).1
        = [⟨fragment_head ++ [0], 129, false⟩, ⟨fragment_tail ++ [0], 10, true⟩]
    ∧ cmd_recv_task_loop
          [(sample_env, ⟨fragment_head ++ [0], 129, false⟩),
           (sample_env, ⟨fragment_tail ++ [0], 10, true⟩)] empty_state
        = (Run.restarted,
           { store := [],
             trace := [cmd_event.fragmented, cmd_event.json_parse (fragment_tail ++ [0]),
                       cmd_event.vTaskDelay 50, cmd_event.esp_restart] }) := by
  refine ⟨?_, by decide, by decide⟩
  intro env cmd rest st hlast
  simp [cmd_recv_task_loop, hlast]

end Cmd

namespace Ota

open esp_ota_firm_state esp_err_t

/-! ## A complete header block -/

theorem read_until_line (l rest : List Nat) (n : Nat) (hl : 10 ∉ l) (hn : l.length + 2 ≤ n) :
    read_until (l ++ 13 :: 10 :: rest) 10 n = l.length + 2 := by
  induction l generalizing n with
  | nil =>
    obtain ⟨m, rfl⟩ : ∃ m, n = m + 2 := ⟨n - 2, by simp at hn; omega⟩
    simp [read_until]
  | cons c t ih =>
    obtain ⟨m, rfl⟩ : ∃ m, n = m + 1 := ⟨n - 1, by simp at hn; omega⟩
    have hc : c ≠ 10 := fun h => hl (by simp [h])
    have ht : 10 ∉ t := fun h => hl (List.mem_cons_of_mem _ h)
    simp only [List.length_cons] at hn
    have := ih m ht (by omega)
    simp [read_until, hc, this]

theorem strstr_crlf (ds rest : List Nat) (hds : ∀ c ∈ ds, c ≠ 13 ∧ c ≠ 0) :
    strstr (ds ++ 13 :: 10 :: rest) [13, 10] = some ds.length := by
  induction ds with
  | nil => simp [strstr, List.isPrefixOf]
  | cons c t ih =>
    have hc := hds c (List.mem_cons_self _ _)
    have ht : ∀ x ∈ t, x ≠ 13 ∧ x ≠ 0 := fun x hx => hds x (List.mem_cons_of_mem _ hx)
    have h13 : (13 == c) = false := by
      simp only [beq_eq_false_iff_ne, ne_eq]
      exact fun h => hc.1 h.symm
    simp [strstr, List.isPrefixOf, h13, hc.2, ih ht]

theorem prefix_before_cr (needle m x : List Nat) (hn : 13 ∉ needle)
    (h : needle.isPrefixOf (m ++ 13 :: x) = true) : needle <+: m := by
  induction needle generalizing m with
  | nil => exact List.nil_prefix
  | cons a t ih =>
    have ha : a ≠ 13 := fun e => hn (by simp [e])
    have ht : 13 ∉ t := fun e => hn (List.mem_cons_of_mem _ e)
    cases m with
    | nil =>
      simp [List.isPrefixOf, ha] at h
    | cons b m' =>
      simp only [List.cons_append, List.isPrefixOf, Bool.and_eq_true, beq_iff_eq] at h
      obtain ⟨hab, hrest⟩ := h
      subst hab
      exact (List.prefix_cons_inj a).mpr (ih m' ht hrest)

theorem content_length_bytes :
    bytesOf "Content-Length" = [67, 111, 110, 116, 101, 110, 116, 45, 76, 101, 110, 103, 116, 104]
    ∧ bytesOf "Content-Length: "
        = [67, 111, 110, 116, 101, 110, 116, 45, 76, 101, 110, 103, 116, 104, 58, 32] := by
  decide

theorem strstr_cons (h : Nat) (t needle : List Nat) :
    strstr (h :: t) needle
      = if needle.isPrefixOf (h :: t) then some 0
        else if h = 0 then none
        else (strstr t needle).map (fun p => p + 1) := by
  rw [strstr]

theorem strstr_skip_line (l rest : List Nat) (h0 : 0 ∉ l)
    (hno : ¬ (bytesOf "Content-Length") <:+: l) :
    strstr (l ++ 13 :: 10 :: rest) (bytesOf "Content-Length")
      = (strstr rest (bytesOf "Content-Length")).map (fun p => p + (l.length + 2)) := by
  have hcr : 13 ∉ bytesOf "Content-Length" := by decide
  induction l with
  | nil =>
    rw [content_length_bytes.1]
    cases h : strstr rest [67, 111, 110, 116, 101, 110, 116, 45, 76, 101, 110, 103, 116, 104] <;>
      simp [strstr, List.isPrefixOf, h]
  | cons c t ih =>
    have hc : c ≠ 0 := fun e => h0 (by simp [e])
    have ht0 : 0 ∉ t := fun e => h0 (List.mem_cons_of_mem _ e)
    have htno : ¬ (bytesOf "Content-Length") <:+: t :=
      fun e => hno (e.trans (List.suffix_cons c t).isInfix)
    have hpre : (bytesOf "Content-Length").isPrefixOf (c :: t ++ 13 :: 10 :: rest) = false := by
      cases hp : (bytesOf "Content-Length").isPrefixOf (c :: t ++ 13 :: 10 :: rest) with
      | false => rfl
      | true => exact absurd (prefix_before_cr _ _ _ hcr hp).isInfix hno
    have hpre1 : (bytesOf "Content-Length").isPrefixOf (c :: (t ++ 13 :: 10 :: rest)) = false := by
      simpa using hpre
    rw [List.cons_append, strstr_cons, hpre1, if_neg (by simp), if_neg hc, ih ht0 htno,
      Option.map_map]
    congr 1

theorem header_lines_append (a b : List (List Nat)) :
    header_lines (a ++ b) = header_lines a ++ header_lines b := by
  induction a with
  | nil => simp [header_lines]
  | cons l t ih => simp [header_lines, ih, List.append_assoc]

theorem strstr_skip_lines (pre : List (List Nat)) (rest : List Nat)
    (hpre : ∀ l ∈ pre, 0 ∉ l ∧ ¬ (bytesOf "Content-Length") <:+: l) :
    strstr (header_lines pre ++ rest) (bytesOf "Content-Length")
      = (strstr rest (bytesOf "Content-Length")).map (fun p => p + (header_lines pre).length) := by
  induction pre with
  | nil => simp [header_lines]
  | cons l t ih =>
    have hl := hpre l (List.mem_cons_self _ _)
    have ht : ∀ x ∈ t, 0 ∉ x ∧ ¬ (bytesOf "Content-Length") <:+: x :=
      fun x hx => hpre x (List.mem_cons_of_mem _ hx)
    have e : header_lines (l :: t) ++ rest = l ++ 13 :: 10 :: (header_lines t ++ rest) := by
      simp [header_lines, List.append_assoc]
    rw [e, strstr_skip_line l _ hl.1 hl.2, ih ht, Option.map_map]
    congr 1
    funext p
    simp only [Function.comp, header_lines, List.length_append, List.length_cons,
      List.length_nil]
    omega

theorem strstr_at_length_line (ds rest : List Nat) :
    strstr (content_length_line ds ++ rest) (bytesOf "Content-Length") = some 0 := by
  unfold content_length_line
  rw [content_length_bytes.1, content_length_bytes.2]
  simp [strstr, List.isPrefixOf]

end Ota

namespace Ota

open esp_ota_firm_state esp_err_t

theorem atoi_digits_numeral (ds rest : List Nat) (acc : Nat)
    (hds : ∀ c ∈ ds, isdigit c = true) :
    atoi_digits (ds ++ 0 :: rest) acc
      = some (ds.foldl (fun a c => a * 10 + (c - 48)) acc) := by
  induction ds generalizing acc with
  | nil => simp [atoi_digits, isdigit]
  | cons c t ih =>
    have hc := hds c (List.mem_cons_self _ _)
    have ht : ∀ x ∈ t, isdigit x = true := fun x hx => hds x (List.mem_cons_of_mem _ hx)
    simp [atoi_digits, hc, ih _ ht]

theorem digit_range {c : Nat} (h : isdigit c = true) : 48 ≤ c ∧ c ≤ 57 := by
  simpa [isdigit] using h

theorem atoi_numeral (ds rest : List Nat) (hne : ds ≠ [])
    (hds : ∀ c ∈ ds, isdigit c = true) (hval : decimal_value ds < 2147483648) :
    atoi (ds ++ 0 :: rest) = some ((decimal_value ds : Nat) : Int) := by
  cases ds with
  | nil => exact absurd rfl hne
  | cons c t =>
    have hc := digit_range (hds c (List.mem_cons_self _ _))
    have hsp : isspace c = false := by
      simp only [isspace, Bool.or_eq_false_iff, beq_eq_false_iff_ne, ne_eq,
        Bool.and_eq_false_iff, decide_eq_false_iff_not, not_le]
      omega
    have h45 : c ≠ 45 := by omega
    have h43 : c ≠ 43 := by omega
    have hd := atoi_digits_numeral (c :: t) rest 0 hds
    have hmin : min (decimal_value (c :: t)) 2147483647 = decimal_value (c :: t) := by omega
    simp only [List.cons_append] at hd ⊢
    simp only [atoi, hsp, Bool.false_eq_true, if_false, atoi_signed, h45, h43, hd,
      Option.map_some']
    unfold decimal_value at hmin ⊢
    rw [hmin]

theorem foldl_digits_ge (ds : List Nat) (acc : Nat) :
    acc * 10 ^ ds.length ≤ ds.foldl (fun a c => a * 10 + (c - 48)) acc := by
  induction ds generalizing acc with
  | nil => simp
  | cons c t ih =>
    have h := ih (acc * 10 + (c - 48))
    have h2 : acc * 10 ^ (t.length + 1) ≤ (acc * 10 + (c - 48)) * 10 ^ t.length := by
      rw [pow_succ, Nat.mul_comm (10 ^ t.length) 10, ← Nat.mul_assoc]
      exact Nat.mul_le_mul_right _ (Nat.le_add_right _ _)
    simpa using Nat.le_trans h2 h

theorem numeral_length_le (ds : List Nat) (hds : ∀ c ∈ ds, isdigit c = true)
    (hlead : ds.head? ≠ some 48) (hval : decimal_value ds < 2147483648) : ds.length ≤ 10 := by
  cases ds with
  | nil => simp
  | cons c t =>
    have hc := digit_range (hds c (List.mem_cons_self _ _))
    have hc48 : c ≠ 48 := fun e => hlead (by simp [e])
    have h := foldl_digits_ge t (0 * 10 + (c - 48))
    have hone : 1 * 10 ^ t.length ≤ (0 * 10 + (c - 48)) * 10 ^ t.length :=
      Nat.mul_le_mul_right _ (by omega)
    have hv : 10 ^ t.length < 2147483648 := by
      have : decimal_value (c :: t) = t.foldl (fun a c => a * 10 + (c - 48)) (0 * 10 + (c - 48)) := by
        simp [decimal_value]
      rw [this] at hval
      omega
    by_contra hlen
    simp only [List.length_cons, not_le] at hlen
    have : 10 ^ 10 ≤ 10 ^ t.length := Nat.pow_le_pow_right (by norm_num) (by omega)
    have e : (10 : Nat) ^ 10 = 10000000000 := by norm_num
    omega

theorem numeral_positive (ds : List Nat) (hne : ds ≠ []) (hds : ∀ c ∈ ds, isdigit c = true)
    (hlead : ds.head? ≠ some 48) : 0 < decimal_value ds := by
  cases ds with
  | nil => exact absurd rfl hne
  | cons c t =>
    have hc := digit_range (hds c (List.mem_cons_self _ _))
    have hc48 : c ≠ 48 := fun e => hlead (by simp [e])
    have h := foldl_digits_ge t (0 * 10 + (c - 48))
    have hone : 1 * 10 ^ t.length ≤ (0 * 10 + (c - 48)) * 10 ^ t.length :=
      Nat.mul_le_mul_right _ (by omega)
    have hpos : 0 < 10 ^ t.length := Nat.pow_pos (by norm_num)
    have : decimal_value (c :: t) = t.foldl (fun a c => a * 10 + (c - 48)) (0 * 10 + (c - 48)) := by
      simp [decimal_value]
    rw [this]
    omega

theorem int_to_size_small (n : Nat) (h : n < 2147483648) : int_to_size (n : Int) = n := by
  unfold int_to_size SIZE_MOD
  have h1 : ((n : Int) % ((4294967296 : Nat) : Int)) = (n : Int) := by
    apply Int.emod_eq_of_lt
    · omega
    · push_cast; omega
  rw [h1]
  simp

/-- The value the parser reads after "Content-Length: " for a numeral of at most
31 digits that fits an `int`. -/
theorem parse_content_length_numeral (before ds rest : List Nat) (hne : ds ≠ [])
    (hds : ∀ c ∈ ds, isdigit c = true) (hl : ds.length ≤ 31)
    (hval : decimal_value ds < 2147483648) :
    parse_content_length (before ++ (content_length_line ds ++ 13 :: 10 :: rest)) before.length
      = Res.ok (decimal_value ds) := by
  have hlen16 : (bytesOf "Content-Length: ").length = 16 := by decide
  have hdrop : (before ++ (content_length_line ds ++ 13 :: 10 :: rest)).drop (before.length + 16)
      = ds ++ 13 :: 10 :: rest := by
    rw [List.drop_append_eq_append_drop]
    have e1 : before.drop (before.length + 16) = [] := List.drop_of_length_le (by omega)
    have e2 : before.length + 16 - before.length = (bytesOf "Content-Length: ").length := by
      rw [hlen16]; omega
    rw [e1, e2, List.nil_append]
    unfold content_length_line
    rw [List.append_assoc, List.drop_left]
  have hcr : ∀ c ∈ ds, c ≠ 13 ∧ c ≠ 0 := by
    intro c hc
    have := digit_range (hds c hc)
    omega
  have htake : (ds ++ 13 :: 10 :: rest).take ds.length = ds := List.take_left _ _
  have hrep : List.replicate (32 - ds.length) 0 = 0 :: List.replicate (31 - ds.length) 0 := by
    have : 32 - ds.length = (31 - ds.length) + 1 := by omega
    rw [this, List.replicate_succ]
  unfold parse_content_length
  simp only [hdrop, strstr_crlf ds rest hcr, htake, hrep]
  rw [if_neg (by omega), atoi_numeral ds _ hne hds hval]
  simp only
  rw [int_to_size_small _ hval]

end Ota

namespace Ota

open esp_ota_firm_state esp_err_t

theorem find_content_length_stored (split : Bool) (firm : esp_ota_firm) (text : List Nat)
    (h : firm.content_len ≠ 0) : find_content_length split firm text = Res.ok firm := by
  simp [find_content_length, h]

theorem getD_of_drop (text : List Nat) (i c : Nat) (rest : List Nat)
    (h : text.drop i = c :: rest) : text.getD i 0 = c := by
  induction text generalizing i with
  | nil => simp at h
  | cons a t ih =>
    cases i with
    | zero =>
      simp only [List.drop_zero, List.cons.injEq] at h
      simp [h.1]
    | succ j =>
      simp only [List.drop_succ_cons] at h
      simpa using ih j h

theorem drop_past (text : List Nat) (i : Nat) (a b : List Nat) (h : text.drop i = a ++ b) :
    text.drop (i + a.length) = b := by
  have e : text.drop (i + a.length) = (text.drop i).drop a.length := by
    rw [List.drop_drop]
  rw [e, h, List.drop_left]

theorem header_lines_length_ge (ls : List (List Nat)) : ls.length ≤ (header_lines ls).length := by
  induction ls with
  | nil => simp
  | cons l t ih =>
    simp only [header_lines, List.length_cons, List.length_append, List.length_nil]
    omega

/-- The header loop over well-formed lines followed by the blank line, once the
content length is found. -/
theorem parse_http_loop_lines (split : Bool) (text : List Nat) (total_len : Nat)
    (tail : List Nat) :
    ∀ (ls : List (List Nat)) (fuel i : Nat) (firm firm1 : esp_ota_firm),
      (∀ l ∈ ls, l ≠ [] ∧ 10 ∉ l ∧ 0 ∉ l) →
      find_content_length split firm text = Res.ok firm1 →
      firm1.content_len ≠ 0 →
      text.drop i = header_lines ls ++ 13 :: 10 :: tail →
      i + (header_lines ls).length + 2 ≤ total_len →
      ls.length < fuel →
      parse_http_loop split text total_len fuel firm i
        = Res.ok (firm1, some (i + (header_lines ls).length + 2)) := by
  intro ls
  induction ls with
  | nil =>
    intro fuel i firm firm1 _ hfind hne hdrop hlen hfuel
    obtain ⟨f, rfl⟩ : ∃ f, fuel = f + 1 := ⟨fuel - 1, by simp at hfuel; omega⟩
    simp only [header_lines, List.nil_append, List.length_nil, Nat.add_zero] at hdrop hlen ⊢
    have hhead := getD_of_drop text i 13 _ hdrop
    have hcond : text.getD i 0 ≠ 0 ∧ i < total_len := ⟨by rw [hhead]; decide, by omega⟩
    have hread : read_until (text.drop i) 10 (total_len - i) = 2 := by
      rw [hdrop]
      exact read_until_line [] tail (total_len - i) (by simp) (by simp; omega)
    unfold parse_http_loop
    rw [if_pos hcond, hfind]
    simp only [hread]
    rw [if_neg (by omega), if_pos trivial, if_neg hne]
  | cons l t ih =>
    intro fuel i firm firm1 hgood hfind hne hdrop hlen hfuel
    obtain ⟨f, rfl⟩ : ∃ f, fuel = f + 1 := ⟨fuel - 1, by simp at hfuel; omega⟩
    obtain ⟨hl1, hl2, hl3⟩ := hgood l (List.mem_cons_self _ _)
    have hgood' : ∀ x ∈ t, x ≠ [] ∧ 10 ∉ x ∧ 0 ∉ x :=
      fun x hx => hgood x (List.mem_cons_of_mem _ hx)
    have hdrop1 : text.drop i = l ++ 13 :: 10 :: (header_lines t ++ 13 :: 10 :: tail) := by
      rw [hdrop]
      simp [header_lines, List.append_assoc]
    have hlen1 : (header_lines (l :: t)).length = l.length + 2 + (header_lines t).length := by
      simp [header_lines]
      omega
    rw [hlen1] at hlen
    have hlpos : 0 < l.length := List.length_pos.mpr hl1
    obtain ⟨c, l', rfl⟩ : ∃ c l', l = c :: l' := by
      cases l with
      | nil => exact absurd rfl hl1
      | cons c l' => exact ⟨c, l', rfl⟩
    have hc0 : c ≠ 0 := fun e => hl3 (by simp [e])
    have hhead := getD_of_drop text i c _ hdrop1
    have hcond : text.getD i 0 ≠ 0 ∧ i < total_len := ⟨by rw [hhead]; exact hc0, by omega⟩
    have hread : read_until (text.drop i) 10 (total_len - i) = (c :: l').length + 2 := by
      rw [hdrop1]
      exact read_until_line (c :: l') _ (total_len - i) hl2 (by omega)
    have hnext : text.drop (i + ((c :: l').length + 2)) = header_lines t ++ 13 :: 10 :: tail := by
      have h2 : text.drop i = ((c :: l') ++ [13, 10]) ++ (header_lines t ++ 13 :: 10 :: tail) := by
        rw [hdrop1]; simp
      have := drop_past text i _ _ h2
      simpa using this
    have hrec := ih f (i + ((c :: l').length + 2)) firm1 firm1 hgood'
      (find_content_length_stored split firm1 text hne) hne hnext (by omega)
      (by simp only [List.length_cons] at hfuel; omega)
    unfold parse_http_loop
    rw [if_pos hcond, hfind]
    simp only [hread]
    rw [if_neg (by omega), if_neg (by simp), hrec, hlen1]
    congr 3
    omega

theorem set_content_length_ok (split : Bool) (firm : esp_ota_firm) (len : Nat)
    (hnum : split = true → firm.ota_num ≠ 0) :
    ∃ firm1, set_content_length split firm len = Res.ok firm1 ∧ firm1.content_len = len := by
  unfold set_content_length
  cases split with
  | false => exact ⟨_, rfl, rfl⟩
  | true =>
    have := hnum rfl
    simp [this]

theorem content_length_line_good (ds : List Nat) (hds : ∀ c ∈ ds, isdigit c = true) :
    content_length_line ds ≠ [] ∧ 10 ∉ content_length_line ds ∧ 0 ∉ content_length_line ds := by
  unfold content_length_line
  rw [content_length_bytes.2]
  refine ⟨by simp, ?_, ?_⟩
  · intro h
    rcases List.mem_append.mp h with h | h
    · revert h; decide
    · have := digit_range (hds _ h); omega
  · intro h
    rcases List.mem_append.mp h with h | h
    · revert h; decide
    · have := digit_range (hds _ h); omega

end Ota

namespace Ota

open esp_ota_firm_state esp_err_t

theorem header_block_eq (lines : List (List Nat)) (tail : List Nat) :
    header_block lines ++ tail = header_lines lines ++ 13 :: 10 :: tail := by
  simp [header_block]

theorem header_block_length (lines : List (List Nat)) :
    (header_block lines).length = 0 + (header_lines lines).length + 2 := by
  simp [header_block]

theorem header_lines_middle (pre post : List (List Nat)) (l rest : List Nat) :
    header_lines (pre ++ l :: post) ++ rest
      = header_lines pre ++ (l ++ 13 :: 10 :: (header_lines post ++ rest)) := by
  rw [header_lines_append]
  simp [header_lines, List.append_assoc]

/-- C20 (amended): for a received text that starts with a complete header block
whose lines are non-empty, hold no NUL and no line feed, and are each ended by
"\r\n", where no line before the line "Content-Length: N" contains the text
"Content-Length", N is a numeral of at most 31 digits with a positive value that
fits an `int`, the block is ended by a blank "\r\n" line and lies within the
`total_len` received bytes, the function `_esp_ota_firm_parse_http`, entered with
`content_len = 0` (and, in the split-layout build, `ota_num` not 0), returns true,
sets `content_len = N` and reports `parse_len` equal to the byte length of the
header block including the blank line, whatever the lines after the
Content-Length line are. -/
theorem complete_header_block_is_parsed (split : Bool) (firm : esp_ota_firm)
    (pre post : List (List Nat)) (ds tail : List Nat) (total_len : Nat)
    (h0 : firm.content_len = 0) (hnum : split = true → firm.ota_num ≠ 0)
    (hpre : ∀ l ∈ pre, l ≠ [] ∧ 10 ∉ l ∧ 0 ∉ l ∧ ¬ (bytesOf "Content-Length") <:+: l)
    (hpost : ∀ l ∈ post, l ≠ [] ∧ 10 ∉ l ∧ 0 ∉ l)
    (hds : ∀ c ∈ ds, isdigit c = true) (hdlen : ds.length ≤ 31)
    (hpos : 0 < decimal_value ds) (hval : decimal_value ds < 2147483648)
    (hlen : (header_block (pre ++ content_length_line ds :: post)).length ≤ total_len) :
    ∃ firm1,
      _esp_ota_firm_parse_http split firm
          (header_block (pre ++ content_length_line ds :: post) ++ tail) total_len
        = Res.ok (firm1, some (header_block (pre ++ content_length_line ds :: post)).length)
      ∧ firm1.content_len = decimal_value ds := by
  have hne : ds ≠ [] := by
    intro e
    rw [e] at hpos
    exact absurd hpos (by decide)
  have htext : header_block (pre ++ content_length_line ds :: post) ++ tail
      = header_lines pre
        ++ (content_length_line ds ++ 13 :: 10 :: (header_lines post ++ 13 :: 10 :: tail)) := by
    rw [header_block_eq, header_lines_middle]
  have hstr : strstr (header_block (pre ++ content_length_line ds :: post) ++ tail)
      (bytesOf "Content-Length") = some (header_lines pre).length := by
    rw [htext, strstr_skip_lines pre _ (fun l hl => ⟨(hpre l hl).2.2.1, (hpre l hl).2.2.2⟩),
      strstr_at_length_line]
    simp
  have hparse : parse_content_length (header_block (pre ++ content_length_line ds :: post) ++ tail)
      (header_lines pre).length = Res.ok (decimal_value ds) := by
    rw [htext]
    exact parse_content_length_numeral _ ds _ hne hds hdlen hval
  obtain ⟨firm1, hset, hcl⟩ := set_content_length_ok split firm (decimal_value ds) hnum
  have hfind : find_content_length split firm
      (header_block (pre ++ content_length_line ds :: post) ++ tail) = Res.ok firm1 := by
    unfold find_content_length
    rw [if_pos h0, hstr]
    simp only [hparse]
    exact hset
  have hgood : ∀ l ∈ pre ++ content_length_line ds :: post, l ≠ [] ∧ 10 ∉ l ∧ 0 ∉ l := by
    intro l hl
    rcases List.mem_append.mp hl with h | h
    · exact ⟨(hpre l h).1, (hpre l h).2.1, (hpre l h).2.2.1⟩
    · rcases List.mem_cons.mp h with h | h
      · rw [h]; exact content_length_line_good ds hds
      · exact hpost l h
  have hfuel : (pre ++ content_length_line ds :: post).length < total_len + 1 := by
    have := header_lines_length_ge (pre ++ content_length_line ds :: post)
    rw [header_block_length] at hlen
    omega
  refine ⟨firm1, ?_, hcl⟩
  unfold _esp_ota_firm_parse_http
  rw [header_block_length]
  rw [header_block_length] at hlen
  exact parse_http_loop_lines split _ total_len tail _ _ 0 firm firm1 hgood hfind
    (by rw [hcl]; omega) (by rw [List.drop_zero, header_block_eq]) hlen hfuel

theorem complete_header_block_is_parsed_witness :
    ∃ firm1,
      _esp_ota_firm_parse_http true (esp_ota_firm_init 2 1)
          (header_block ([bytesOf "HTTP/1.0 200 OK", bytesOf "Server: nginx"]
              ++ content_length_line (bytesOf "20") :: [bytesOf "Connection: close"])
            ++ bytesOf "01234567890123456789") 93
        = Res.ok (firm1, some (header_block ([bytesOf "HTTP/1.0 200 OK", bytesOf "Server: nginx"]
              ++ content_length_line (bytesOf "20") :: [bytesOf "Connection: close"])).length)
      ∧ firm1.content_len = decimal_value (bytesOf "20") :=
  complete_header_block_is_parsed true (esp_ota_firm_init 2 1)
    [bytesOf "HTTP/1.0 200 OK", bytesOf "Server: nginx"] [bytesOf "Connection: close"]
    (bytesOf "20") (bytesOf "01234567890123456789") 93 rfl (by decide) (by decide) (by decide)
    (by decide) (by decide) (by decide) (by decide) (by decide)

/-- C20 (counterexample): the 71-byte response
"HTTP/1.0 200 OK\r\nX-Content-Length: 99\r\nContent-Length: 10\r\n\r\n0123456789"
starts with a complete 61-byte header block of three lines, the last of which is
"Content-Length: 10"; `_esp_ota_firm_parse_http` returns true with `parse_len = 61`
but sets `content_len = 99`, the number after the first occurrence of the text
"Content-Length", which lies inside the line "X-Content-Length: 99". -/
theorem earlier_header_line_shadows_content_length :
    shadowed_length_response
        = header_block ([bytesOf "HTTP/1.0 200 OK", bytesOf "X-Content-Length: 99"]
              ++ content_length_line (bytesOf "10") :: [])
            ++ bytesOf "0123456789"
      ∧ decimal_value (bytesOf "10") = 10
      ∧ (header_block ([bytesOf "HTTP/1.0 200 OK", bytesOf "X-Content-Length: 99"]
              ++ content_length_line (bytesOf "10") :: [])).length = 61
      ∧ _esp_ota_firm_parse_http false (esp_ota_firm_init 1 0)
            (recv_buffer shadowed_length_response) 71
          = Res.ok (shadowed_after_header, some 61)
      ∧ shadowed_after_header.content_len = 99 := by
  decide

end Ota

namespace Ota

open esp_ota_firm_state esp_err_t

/-! ## The AwaitingOffset step -/

theorem view_is_chunk_tail (recv_buf : List Nat) (in_off n c : Nat) (hc : c ≤ n) :
    (recv_buf.drop (in_off + (n - c))).take c = ((recv_buf.drop in_off).take n).drop (n - c) := by
  rw [List.drop_take, List.drop_drop]
  have e : n - (n - c) = c := by omega
  rw [e, Nat.add_comm]

/-- C21: in the phase `ESP_OTA_PREPARE` with target offset `ota_offset` and
`read_bytes` body bytes counted so far (`read_bytes < ota_offset`, or both 0), a
step on a chunk of `n` bytes whose count `read_bytes + n` fits a `size_t`:
if `read_bytes + n < ota_offset` it consumes the chunk, stays in
`ESP_OTA_PREPARE` and leaves the write view as it was; otherwise it consumes the
chunk, moves to `ESP_OTA_START`, sets the write view to the last
`read_bytes + n - ota_offset` bytes of the chunk and adds that count to
`write_bytes` (a `size_t` addition). -/
theorem prepare_step_marks_bytes_past_offset (split : Bool) (firm : esp_ota_firm)
    (recv_buf : List Nat) (in_off n : Nat)
    (hstate : firm.state = ESP_OTA_PREPARE)
    (hr : firm.read_bytes < firm.ota_offset ∨ (firm.read_bytes = 0 ∧ firm.ota_offset = 0))
    (hfit : firm.read_bytes + n < SIZE_MOD) :
    (firm.read_bytes + n < firm.ota_offset →
        esp_ota_firm_do_parse_msg split firm recv_buf in_off n
          = Res.ok ({ firm with read_bytes := firm.read_bytes + n }, n))
    ∧ (firm.ota_offset ≤ firm.read_bytes + n →
        esp_ota_firm_do_parse_msg split firm recv_buf in_off n
            = Res.ok ({ firm with
                          read_bytes := firm.read_bytes + n,
                          buf := some (in_off + (n - (firm.read_bytes + n - firm.ota_offset))),
                          bytes := firm.read_bytes + n - firm.ota_offset,
                          write_bytes :=
                            (firm.write_bytes + (firm.read_bytes + n - firm.ota_offset)) % SIZE_MOD,
                          state := ESP_OTA_START }, n)
          ∧ firm.read_bytes + n - firm.ota_offset ≤ n
          ∧ (recv_buf.drop (in_off + (n - (firm.read_bytes + n - firm.ota_offset)))).take
                (firm.read_bytes + n - firm.ota_offset)
              = ((recv_buf.drop in_off).take n).drop
                  (n - (firm.read_bytes + n - firm.ota_offset))) := by
  have hmod : (firm.read_bytes + n) % SIZE_MOD = firm.read_bytes + n := Nat.mod_eq_of_lt hfit
  constructor
  · intro hlt
    unfold esp_ota_firm_do_parse_msg
    rw [hstate]
    simp only [hmod]
    rw [if_neg (by omega)]
  · intro hge
    have hc : firm.read_bytes + n - firm.ota_offset ≤ n := by omega
    have hbuf : (n + SIZE_MOD - (firm.read_bytes + n - firm.ota_offset)) % SIZE_MOD
        = n - (firm.read_bytes + n - firm.ota_offset) := by
      have e : n + SIZE_MOD - (firm.read_bytes + n - firm.ota_offset)
          = (n - (firm.read_bytes + n - firm.ota_offset)) + SIZE_MOD := by omega
      rw [e, Nat.add_mod_right]
      exact Nat.mod_eq_of_lt (by omega)
    refine ⟨?_, hc, view_is_chunk_tail recv_buf in_off n _ hc⟩
    unfold esp_ota_firm_do_parse_msg
    rw [hstate]
    simp only [hmod]
    rw [if_pos hge, hbuf]

theorem prepare_step_marks_bytes_past_offset_witness :
    esp_ota_firm_do_parse_msg true split_layout_after_header_prepare
        (recv_buffer split_layout_response) 39 20
      = Res.ok ({ split_layout_after_header_prepare with
                    read_bytes := 20, buf := some 49, bytes := 10, write_bytes := 10,
                    state := ESP_OTA_START }, 20)
    ∧ ((recv_buffer split_layout_response).drop 49).take 10 = bytesOf "abcdefghij" := by
  have h := (prepare_step_marks_bytes_past_offset true split_layout_after_header_prepare
    (recv_buffer split_layout_response) 39 20 rfl (by decide) (by decide)).2 (by decide)
  exact ⟨h.1.trans (by decide), by decide⟩

end Ota

namespace Ota

open esp_ota_firm_state esp_err_t

/-! ## The Draining and Done steps -/

/-- C22: in the phase `ESP_OTA_RECVED` a step consumes 0 bytes and only moves the
phase to `ESP_OTA_FINISH`; in the phase `ESP_OTA_FINISH` a step consumes 0 bytes
and returns the record unchanged; both for every input chunk, so neither
changes a byte counter or the write view. -/
theorem finished_phases_consume_nothing (split : Bool) (firm : esp_ota_firm)
    (recv_buf : List Nat) (in_off in_len : Nat)
    (hphase : firm.state = ESP_OTA_RECVED ∨ firm.state = ESP_OTA_FINISH) :
    esp_ota_firm_do_parse_msg split firm recv_buf in_off in_len
      = Res.ok ({ firm with state := ESP_OTA_FINISH }, 0)
    ∧ (firm.state = ESP_OTA_FINISH →
        esp_ota_firm_do_parse_msg split firm recv_buf in_off in_len = Res.ok (firm, 0)) := by
  rcases hphase with h | h
  · refine ⟨?_, fun h2 => ?_⟩
    · unfold esp_ota_firm_do_parse_msg
      rw [h]
    · rw [h] at h2
      cases h2
  · have e : ({ firm with state := ESP_OTA_FINISH } : esp_ota_firm) = firm := by
      cases firm
      simp only at h
      subst h
      rfl
    have r : esp_ota_firm_do_parse_msg split firm recv_buf in_off in_len = Res.ok (firm, 0) := by
      unfold esp_ota_firm_do_parse_msg
      rw [h]
    exact ⟨by rw [e]; exact r, fun _ => r⟩

theorem finished_phases_consume_nothing_witness :
    esp_ota_firm_do_parse_msg false { oversize_after_body with state := ESP_OTA_RECVED }
        (recv_buffer sample_response) 0 49
      = Res.ok ({ oversize_after_body with state := ESP_OTA_FINISH }, 0)
    ∧ esp_ota_firm_do_parse_msg false { oversize_after_body with state := ESP_OTA_FINISH }
        (recv_buffer sample_response) 0 49
      = Res.ok ({ oversize_after_body with state := ESP_OTA_FINISH }, 0) :=
  ⟨(finished_phases_consume_nothing false { oversize_after_body with state := ESP_OTA_RECVED }
      (recv_buffer sample_response) 0 49 (Or.inl rfl)).1,
   (finished_phases_consume_nothing false { oversize_after_body with state := ESP_OTA_FINISH }
      (recv_buffer sample_response) 0 49 (Or.inr rfl)).2 rfl⟩

/-! ## Steps in the last two phases -/

theorem do_parse_msg_finished (split : Bool) (firm : esp_ota_firm) (recv_buf : List Nat)
    (in_off in_len : Nat)
    (hphase : firm.state = ESP_OTA_RECVED ∨ firm.state = ESP_OTA_FINISH) :
    esp_ota_firm_do_parse_msg split firm recv_buf in_off in_len
      = Res.ok ({ firm with state := ESP_OTA_FINISH }, 0) := by
  rcases hphase with h | h
  · unfold esp_ota_firm_do_parse_msg
    rw [h]
  · have e : ({ firm with state := ESP_OTA_FINISH } : esp_ota_firm) = firm := by
      cases firm
      simp only at h
      subst h
      rfl
    rw [e]
    unfold esp_ota_firm_do_parse_msg
    rw [h]

/-! ## What a successful header parse guarantees -/

theorem parse_http_loop_some (split : Bool) (text : List Nat) (total_len : Nat) :
    ∀ (fuel : Nat) (firm firm1 : esp_ota_firm) (i t : Nat),
      parse_http_loop split text total_len fuel firm i = Res.ok (firm1, some t) →
      t ≤ total_len ∧ firm1.content_len ≠ 0 := by
  intro fuel
  induction fuel with
  | zero =>
    intro firm firm1 i t h
    simp [parse_http_loop] at h
  | succ f ih =>
    intro firm firm1 i t h
    unfold parse_http_loop at h
    split_ifs at h with hc
    · split at h
      · rename_i firm2 hf
        simp only at h
        split_ifs at h with h1 h2 h3
        · simp at h
        · simp at h
        · simp only [Res.ok.injEq, Prod.mk.injEq, Option.some.injEq] at h
          obtain ⟨rfl, rfl⟩ := h
          exact ⟨by omega, h3⟩
        · exact ih _ _ _ _ h
      · cases h
      · cases h
    · simp at h

theorem parse_http_some {split : Bool} {firm firm1 : esp_ota_firm} {text : List Nat}
    {total_len t : Nat}
    (h : _esp_ota_firm_parse_http split firm text total_len = Res.ok (firm1, some t)) :
    t ≤ total_len ∧ firm1.content_len ≠ 0 :=
  parse_http_loop_some split text total_len _ _ _ _ _ h

end Ota

namespace Ota

open esp_ota_firm_state esp_err_t

/-! ## Termination of esp_ota_firm_parse_msg -/

theorem do_parse_msg_prepare (split : Bool) (firm : esp_ota_firm) (recv_buf : List Nat)
    (in_off in_len : Nat) (h : firm.state = ESP_OTA_PREPARE) :
    ∃ firm1, esp_ota_firm_do_parse_msg split firm recv_buf in_off in_len = Res.ok (firm1, in_len)
      ∧ (firm1.state = ESP_OTA_PREPARE ∨ firm1.state = ESP_OTA_START)
      ∧ firm1.content_len = firm.content_len := by
  unfold esp_ota_firm_do_parse_msg
  rw [h]
  simp only []
  split_ifs
  · exact ⟨_, rfl, Or.inr rfl, rfl⟩
  · exact ⟨_, rfl, Or.inl rfl, rfl⟩

theorem do_parse_msg_start (split : Bool) (firm : esp_ota_firm) (recv_buf : List Nat)
    (in_off in_len : Nat) (h : firm.state = ESP_OTA_START) :
    ∃ firm1, esp_ota_firm_do_parse_msg split firm recv_buf in_off in_len = Res.ok (firm1, in_len)
      ∧ (firm1.state = ESP_OTA_START ∨ firm1.state = ESP_OTA_RECVED)
      ∧ firm1.content_len = firm.content_len := by
  unfold esp_ota_firm_do_parse_msg
  rw [h]
  simp only []
  split_ifs
  · exact ⟨_, rfl, Or.inr rfl, rfl⟩
  · exact ⟨_, rfl, Or.inl rfl, rfl⟩

theorem parse_msg_loop_last (split : Bool) (recv_buf : List Nat) (in_len fuel : Nat)
    (firm firm1 : esp_ota_firm) (parse_bytes bytes : Nat)
    (hstep : esp_ota_firm_do_parse_msg split firm recv_buf parse_bytes
        ((in_len + SIZE_MOD - parse_bytes) % SIZE_MOD) = Res.ok (firm1, bytes))
    (hend : (parse_bytes + bytes) % SIZE_MOD = in_len) :
    parse_msg_loop split recv_buf in_len (fuel + 1) firm parse_bytes = Res.ok firm1 := by
  unfold parse_msg_loop
  rw [hstep]
  simp only [hend, ne_eq, not_true_eq_false, if_false]

theorem rest_len (in_len t : Nat) (h1 : t ≤ in_len) (h2 : in_len < SIZE_MOD) :
    (in_len + SIZE_MOD - t) % SIZE_MOD = in_len - t := by
  have e : in_len + SIZE_MOD - t = (in_len - t) + SIZE_MOD := by omega
  rw [e, Nat.add_mod_right]
  exact Nat.mod_eq_of_lt (by omega)

/-- Entered in `ESP_OTA_PREPARE` or `ESP_OTA_START`, `esp_ota_firm_parse_msg` returns after one
step that consumes the whole chunk. -/
theorem parse_msg_body_phases (split : Bool) (firm : esp_ota_firm) (recv_buf : List Nat)
    (in_len : Nat) (hlen : in_len < SIZE_MOD)
    (h : firm.state = ESP_OTA_PREPARE ∨ firm.state = ESP_OTA_START) :
    ∃ firm1, esp_ota_firm_parse_msg split firm recv_buf in_len = Res.ok firm1
      ∧ esp_ota_firm_do_parse_msg split firm recv_buf 0 in_len = Res.ok (firm1, in_len)
      ∧ (firm1.state = ESP_OTA_PREPARE ∨ firm1.state = ESP_OTA_START
          ∨ firm1.state = ESP_OTA_RECVED) := by
  have hl : (in_len + SIZE_MOD - 0) % SIZE_MOD = in_len := by
    rw [rest_len in_len 0 (Nat.zero_le _) hlen]; rfl
  have hend : (0 + in_len) % SIZE_MOD = in_len := by
    rw [Nat.zero_add]; exact Nat.mod_eq_of_lt hlen
  rcases h with h | h
  · obtain ⟨firm1, hs, hst, _⟩ := do_parse_msg_prepare split firm recv_buf 0 in_len h
    refine ⟨firm1, ?_, hs, ?_⟩
    · exact parse_msg_loop_last split recv_buf in_len 2 firm firm1 0 in_len (by rw [hl]; exact hs) hend
    · rcases hst with a | a
      · exact Or.inl a
      · exact Or.inr (Or.inl a)
  · obtain ⟨firm1, hs, hst, _⟩ := do_parse_msg_start split firm recv_buf 0 in_len h
    refine ⟨firm1, ?_, hs, ?_⟩
    · exact parse_msg_loop_last split recv_buf in_len 2 firm firm1 0 in_len (by rw [hl]; exact hs) hend
    · rcases hst with a | a
      · exact Or.inr (Or.inl a)
      · exact Or.inr (Or.inr a)

/-- Entered in `ESP_OTA_INIT`, `esp_ota_firm_parse_msg` returns after the header step and at
most one body step, unless the header parser faults. -/
theorem parse_msg_init_phase (split : Bool) (firm : esp_ota_firm) (recv_buf : List Nat)
    (in_len : Nat) (hlen : in_len < SIZE_MOD) (h : firm.state = ESP_OTA_INIT) :
    (_esp_ota_firm_parse_http split firm recv_buf in_len = Res.fault
        ∧ esp_ota_firm_parse_msg split firm recv_buf in_len = Res.fault)
    ∨ ∃ firm1, esp_ota_firm_parse_msg split firm recv_buf in_len = Res.ok firm1
        ∧ (firm1.state = ESP_OTA_INIT ∨ firm1.state = ESP_OTA_PREPARE
            ∨ firm1.state = ESP_OTA_START) := by
  have hl : (in_len + SIZE_MOD - 0) % SIZE_MOD = in_len := by
    rw [rest_len in_len 0 (Nat.zero_le _) hlen]; rfl
  have hstep : esp_ota_firm_do_parse_msg split firm recv_buf 0 in_len
      = (match _esp_ota_firm_parse_http split firm recv_buf in_len with
         | Res.ok (firm1, some tmp) => Res.ok ({ firm1 with state := ESP_OTA_PREPARE }, tmp)
         | Res.ok (firm1, none) => Res.ok (firm1, in_len)
         | Res.fault => Res.fault
         | Res.diverge => Res.diverge) := by
    unfold esp_ota_firm_do_parse_msg
    rw [h, List.drop_zero]
  cases hp : _esp_ota_firm_parse_http split firm recv_buf in_len with
  | fault =>
    left
    refine ⟨rfl, ?_⟩
    unfold esp_ota_firm_parse_msg PARSE_MSG_FUEL parse_msg_loop
    rw [hl, hstep, hp]
  | diverge => exact absurd hp (parse_http_ne_diverge split firm recv_buf in_len)
  | ok r =>
    right
    obtain ⟨f1, o⟩ := r
    cases o with
    | none =>
      refine ⟨f1, ?_, Or.inl ((parse_http_frame hp).1.trans h)⟩
      exact parse_msg_loop_last split recv_buf in_len 2 firm f1 0 in_len
        (by rw [hl, hstep, hp]) (by rw [Nat.zero_add]; exact Nat.mod_eq_of_lt hlen)
    | some t =>
      have ht := (parse_http_some hp).1
      have hmod : (0 + t) % SIZE_MOD = t := by
        rw [Nat.zero_add]; exact Nat.mod_eq_of_lt (by omega)
      by_cases hte : t = in_len
      · refine ⟨{ f1 with state := ESP_OTA_PREPARE }, ?_, Or.inr (Or.inl rfl)⟩
        exact parse_msg_loop_last split recv_buf in_len 2 firm _ 0 t
          (by rw [hl, hstep, hp]) (by rw [hmod]; exact hte)
      · obtain ⟨firm2, hs, hst, _⟩ := do_parse_msg_prepare split
          { f1 with state := ESP_OTA_PREPARE } recv_buf t (in_len - t) rfl
        refine ⟨firm2, ?_, Or.inr hst⟩
        unfold esp_ota_firm_parse_msg PARSE_MSG_FUEL parse_msg_loop
        rw [hl, hstep, hp]
        simp only [hmod, ne_eq, hte, not_false_eq_true, if_true]
        exact parse_msg_loop_last split recv_buf in_len 1 _ firm2 t (in_len - t)
          (by rw [rest_len in_len t ht hlen]; exact hs)
          (by
            have e : t + (in_len - t) = in_len := by omega
            rw [e]; exact Nat.mod_eq_of_lt hlen)

/-- Entered in `ESP_OTA_RECVED` or `ESP_OTA_FINISH` with a non-empty chunk, the loop of
`esp_ota_firm_parse_msg` stays at `parse_bytes = 0` for as many rounds as it is followed. -/
theorem parse_msg_loop_no_progress (split : Bool) (recv_buf : List Nat) (in_len : Nat)
    (hne : in_len ≠ 0) :
    ∀ (fuel : Nat) (firm : esp_ota_firm),
      firm.state = ESP_OTA_RECVED ∨ firm.state = ESP_OTA_FINISH →
      parse_msg_loop split recv_buf in_len fuel firm 0 = Res.diverge := by
  intro fuel
  induction fuel with
  | zero => intro firm _; rfl
  | succ f ih =>
    intro firm h
    have hs := do_parse_msg_finished split firm recv_buf 0
      ((in_len + SIZE_MOD - 0) % SIZE_MOD) h
    unfold parse_msg_loop
    rw [hs]
    have e : (0 + 0) % SIZE_MOD = 0 := by decide
    simp only [e]
    rw [if_pos (fun x => hne x.symm)]
    exact ih _ (Or.inr rfl)

end Ota

namespace Ota

open esp_ota_firm_state esp_err_t

theorem entry_phase_iff (firm : esp_ota_firm) :
    entry_phase firm = true ↔ firm.state = ESP_OTA_INIT ∨ firm.state = ESP_OTA_PREPARE
      ∨ firm.state = ESP_OTA_START := by
  unfold entry_phase
  cases firm.state <;> simp

theorem ota_loop_stops_after_last_write (split : Bool) (env : ota_env) (chunk : List Nat)
    (rest rest1 : List recv_result) (firm firm1 : esp_ota_firm) (bytes_written writes : Nat)
    (trace : List ota_event)
    (hp : esp_ota_firm_parse_msg split firm (recv_buffer (chunk.take RECV_BUFFSIZE))
        (chunk.take RECV_BUFFSIZE).length = Res.ok firm1)
    (hs : firm1.state = ESP_OTA_RECVED) :
    ota_loop split env (recv_result.data chunk :: rest) firm bytes_written writes trace
      = ota_loop split env (recv_result.data chunk :: rest1) firm bytes_written writes trace := by
  rw [ota_loop, ota_loop]
  simp only [hp, esp_ota_firm_can_write, esp_ota_firm_is_finished, hs]
  simp

/-- C26 (code at the failing input): a first chunk that ends inside the
Content-Length line makes the header parser use the NULL result of
`strstr(ptr, "\r\n")` as the end of the number, and `esp_ota_firm_parse_msg` faults
instead of returning.  Apart from a fault of the header parser the claim holds:
entered in `ESP_OTA_INIT`, `ESP_OTA_PREPARE` or `ESP_OTA_START` the function never loops for
ever and, when the header parser does not fault, returns (its loop ends only
at `parse_bytes = in_len`) in one of these phases or in `ESP_OTA_RECVED`; after a
call that ends in `ESP_OTA_RECVED` the receive loop of `ota_start` makes no further
call; and entered in `ESP_OTA_RECVED` or `ESP_OTA_FINISH` with a non-empty chunk the loop
stays at `parse_bytes = 0` for ever. -/
theorem parse_msg_faults_inside_length_line :
    esp_ota_firm_parse_msg false (esp_ota_firm_init 2 1) (recv_buffer truncated_length_chunk)
        truncated_length_chunk.length = Res.fault
    ∧ (∀ (split : Bool) (firm : esp_ota_firm) (recv_buf : List Nat) (in_len : Nat),
        in_len < SIZE_MOD → entry_phase firm = true →
        esp_ota_firm_parse_msg split firm recv_buf in_len ≠ Res.diverge
        ∧ (firm.state ≠ ESP_OTA_INIT
              ∨ _esp_ota_firm_parse_http split firm recv_buf in_len ≠ Res.fault →
            ∃ firm1, esp_ota_firm_parse_msg split firm recv_buf in_len = Res.ok firm1
              ∧ (entry_phase firm1 = true ∨ firm1.state = ESP_OTA_RECVED)))
    ∧ (∀ (split : Bool) (env : ota_env) (chunk : List Nat) (rest rest1 : List recv_result)
        (firm firm1 : esp_ota_firm) (bytes_written writes : Nat) (trace : List ota_event),
        esp_ota_firm_parse_msg split firm (recv_buffer (chunk.take RECV_BUFFSIZE))
            (chunk.take RECV_BUFFSIZE).length = Res.ok firm1 →
        firm1.state = ESP_OTA_RECVED →
        ota_loop split env (recv_result.data chunk :: rest) firm bytes_written writes trace
          = ota_loop split env (recv_result.data chunk :: rest1) firm bytes_written writes trace)
    ∧ (∀ (split : Bool) (firm : esp_ota_firm) (recv_buf : List Nat) (in_len fuel : Nat),
        in_len ≠ 0 → firm.state = ESP_OTA_RECVED ∨ firm.state = ESP_OTA_FINISH →
        (∃ firm1, esp_ota_firm_do_parse_msg split firm recv_buf 0 in_len = Res.ok (firm1, 0))
        ∧ parse_msg_loop split recv_buf in_len fuel firm 0 = Res.diverge) := by
  refine ⟨by decide, ?_, ?_, ?_⟩
  · intro split firm recv_buf in_len hlen hentry
    rcases (entry_phase_iff firm).mp hentry with h | h
    · rcases parse_msg_init_phase split firm recv_buf in_len hlen h with ⟨hf, hm⟩ | ⟨firm1, hm, hst⟩
      · refine ⟨by rw [hm]; exact fun x => Res.noConfusion x, fun hno => ?_⟩
        rcases hno with a | a
        · exact absurd h a
        · exact absurd hf a
      · refine ⟨by rw [hm]; exact fun x => Res.noConfusion x, fun _ => ⟨firm1, hm, Or.inl ?_⟩⟩
        exact (entry_phase_iff firm1).mpr hst
    · obtain ⟨firm1, hm, _, hst⟩ := parse_msg_body_phases split firm recv_buf in_len hlen h
      refine ⟨by rw [hm]; exact fun x => Res.noConfusion x, fun _ => ⟨firm1, hm, ?_⟩⟩
      rcases hst with a | a | a
      · exact Or.inl ((entry_phase_iff firm1).mpr (Or.inr (Or.inl a)))
      · exact Or.inl ((entry_phase_iff firm1).mpr (Or.inr (Or.inr a)))
      · exact Or.inr a
  · intro split env chunk rest rest1 firm firm1 bytes_written writes trace hp hs
    exact ota_loop_stops_after_last_write split env chunk rest rest1 firm firm1 bytes_written
      writes trace hp hs
  · intro split firm recv_buf in_len fuel hne h
    exact ⟨⟨_, do_parse_msg_finished split firm recv_buf 0 in_len h⟩,
      parse_msg_loop_no_progress split recv_buf in_len hne fuel firm h⟩

/-! ## The write view against the chunk length -/

/-- C27 (code at the failing input): after the response that announces 5 bytes
and carries 10 in its first chunk (`write_bytes = 10`, `ota_size = 5`), the call
of `esp_ota_firm_parse_msg` for a next chunk of 3 bytes computes
`ota_size - write_bytes` below zero: it leaves the writable phase `ESP_OTA_RECVED` with
`bytes = 4294967291`, more than the 3 bytes received and more than the 1500
bytes of the flash write buffer, and the copy into that buffer faults. -/
theorem write_view_exceeds_received_chunk :
    parse_msg_run false (esp_ota_firm_init 2 1)
        [(recv_buffer oversize_response, oversize_response.length),
         (recv_buffer (bytesOf "abc"), 3)]
      = Res.ok oversize_after_next_chunk
    ∧ parse_msg_run false (esp_ota_firm_init 2 1)
        [(recv_buffer oversize_response, oversize_response.length)] = Res.ok oversize_after_body
    ∧ oversize_after_body.ota_size < oversize_after_body.write_bytes
    ∧ esp_ota_firm_can_write oversize_after_next_chunk = true
    ∧ (bytesOf "abc").length < esp_ota_firm_get_write_bytes oversize_after_next_chunk
    ∧ OTA_WRITE_BUFFSIZE < esp_ota_firm_get_write_bytes oversize_after_next_chunk
    ∧ copy_write_data oversize_after_next_chunk (recv_buffer (bytesOf "abc"))
        = Res.fault := by
  decide

end Ota

namespace Ota

open esp_ota_firm_state esp_err_t

/-! ## The content length in the writable phases -/

theorem do_parse_msg_keeps_length {split : Bool} {firm firm1 : esp_ota_firm}
    {recv_buf : List Nat} {in_off in_len n : Nat}
    (hinv : firm.state = ESP_OTA_INIT ∨ firm.content_len ≠ 0)
    (h : esp_ota_firm_do_parse_msg split firm recv_buf in_off in_len = Res.ok (firm1, n)) :
    firm1.state = ESP_OTA_INIT ∨ firm1.content_len ≠ 0 := by
  cases hs : firm.state with
  | ESP_OTA_INIT =>
    unfold esp_ota_firm_do_parse_msg at h
    rw [hs] at h
    simp only at h
    split at h
    · rename_i f t hp
      cases h
      exact Or.inr (parse_http_some hp).2
    · rename_i f hp
      cases h
      exact Or.inl ((parse_http_frame hp).1.trans hs)
    · cases h
    · cases h
  | ESP_OTA_PREPARE =>
    obtain ⟨f, hf, _, hc⟩ := do_parse_msg_prepare split firm recv_buf in_off in_len hs
    rw [hf] at h
    cases h
    rcases hinv with a | a
    · rw [hs] at a; cases a
    · exact Or.inr (by rw [hc]; exact a)
  | ESP_OTA_START =>
    obtain ⟨f, hf, _, hc⟩ := do_parse_msg_start split firm recv_buf in_off in_len hs
    rw [hf] at h
    cases h
    rcases hinv with a | a
    · rw [hs] at a; cases a
    · exact Or.inr (by rw [hc]; exact a)
  | ESP_OTA_RECVED =>
    rw [do_parse_msg_finished split firm recv_buf in_off in_len (Or.inl hs)] at h
    cases h
    rcases hinv with a | a
    · rw [hs] at a; cases a
    · exact Or.inr a
  | ESP_OTA_FINISH =>
    rw [do_parse_msg_finished split firm recv_buf in_off in_len (Or.inr hs)] at h
    cases h
    rcases hinv with a | a
    · rw [hs] at a; cases a
    · exact Or.inr a

theorem parse_msg_loop_keeps_length (split : Bool) (recv_buf : List Nat) (in_len : Nat) :
    ∀ (fuel : Nat) (firm firm1 : esp_ota_firm) (parse_bytes : Nat),
      firm.state = ESP_OTA_INIT ∨ firm.content_len ≠ 0 →
      parse_msg_loop split recv_buf in_len fuel firm parse_bytes = Res.ok firm1 →
      firm1.state = ESP_OTA_INIT ∨ firm1.content_len ≠ 0 := by
  intro fuel
  induction fuel with
  | zero =>
    intro firm firm1 parse_bytes _ h
    simp [parse_msg_loop] at h
  | succ f ih =>
    intro firm firm1 parse_bytes hinv h
    unfold parse_msg_loop at h
    split at h
    · rename_i f1 b hstep
      have hinv1 := do_parse_msg_keeps_length hinv hstep
      simp only at h
      split_ifs at h
      · exact ih _ _ _ hinv1 h
      · cases h
        exact hinv1
    · cases h
    · cases h

theorem parse_msg_run_keeps_length (split : Bool) :
    ∀ (inputs : List (List Nat × Nat)) (firm firm1 : esp_ota_firm),
      firm.state = ESP_OTA_INIT ∨ firm.content_len ≠ 0 →
      parse_msg_run split firm inputs = Res.ok firm1 →
      firm1.state = ESP_OTA_INIT ∨ firm1.content_len ≠ 0 := by
  intro inputs
  induction inputs with
  | nil =>
    intro firm firm1 hinv h
    simp only [parse_msg_run, Res.ok.injEq] at h
    rw [← h]
    exact hinv
  | cons x rest ih =>
    intro firm firm1 hinv h
    obtain ⟨recv_buf, in_len⟩ := x
    unfold parse_msg_run at h
    split at h
    · rename_i f1 hp
      exact ih _ _ (parse_msg_loop_keeps_length split recv_buf in_len _ _ _ _ hinv hp) h
    · cases h
    · cases h

/-- C28: along every sequence of calls of `esp_ota_firm_parse_msg` from the record
`esp_ota_firm_init` leaves, whatever the chunks, a record in a writable phase
(`ESP_OTA_START` or `ESP_OTA_RECVED`) has `content_len` different from 0, so the
division `(100 * bytes_written) / content_len` of the progress computation is
never a division by zero. -/
theorem writable_phase_has_content_length (split : Bool) (ota_num update_ota_num : Nat)
    (inputs : List (List Nat × Nat)) (firm1 : esp_ota_firm)
    (hrun : parse_msg_run split (esp_ota_firm_init ota_num update_ota_num) inputs
      = Res.ok firm1)
    (hwrite : esp_ota_firm_can_write firm1 = true) :
    firm1.content_len ≠ 0
    ∧ ∀ bytes_written, progress_percent bytes_written firm1.content_len
        = Res.ok (((100 * bytes_written) % SIZE_MOD) / firm1.content_len) := by
  have hinv := parse_msg_run_keeps_length split inputs _ firm1 (Or.inl rfl) hrun
  have hne : firm1.content_len ≠ 0 := by
    rcases hinv with a | a
    · unfold esp_ota_firm_can_write at hwrite
      rw [a] at hwrite
      exact absurd hwrite (by decide)
    · exact a
  refine ⟨hne, fun bytes_written => ?_⟩
  unfold progress_percent
  rw [if_neg hne]

theorem writable_phase_has_content_length_witness :
    (sample_after_body 2 1).content_len ≠ 0
    ∧ ∀ bytes_written, progress_percent bytes_written (sample_after_body 2 1).content_len
        = Res.ok (((100 * bytes_written) % SIZE_MOD) / (sample_after_body 2 1).content_len) :=
  writable_phase_has_content_length false 2 1 [(recv_buffer sample_response, 49)]
    (sample_after_body 2 1) (by decide) (by decide)

end Ota

namespace Mqtt

open Ota (esp_err_t)
open Ota.esp_err_t error_t

/-! ## The health loop -/

theorem health_loop_cons (tick_ms client : Nat) (ctrl : mqtt_client_ctrl_t) (delay : Nat)
    (w : health_wait) (rest : List health_wait) :
    health_loop tick_ms client (w :: rest)
      = if (health_round tick_ms client ctrl delay w).1 then
          ((health_round tick_ms client ctrl delay w).2.2.2, true)
        else
          ((health_round tick_ms client ctrl delay w).2.2.2 ++ (health_loop tick_ms client rest).1,
           (health_loop tick_ms client rest).2) := by
  cases w with
  | taken => rfl
  | timed_out connected => cases connected <;> rfl

theorem health_loop_breaks_iff (tick_ms client : Nat) (ws : List health_wait) :
    (health_loop tick_ms client ws).2 = true
      ↔ ∃ pre w post, ws = pre ++ w :: post ∧ (∀ x ∈ pre, x = health_wait.timed_out true)
          ∧ (w = health_wait.taken ∨ w = health_wait.timed_out false) := by
  induction ws with
  | nil =>
    constructor
    · intro h
      simp [health_loop] at h
    · rintro ⟨pre, w, post, h, _⟩
      simp at h
  | cons a rest ih =>
    cases a with
    | taken =>
      constructor
      · intro _
        exact ⟨[], health_wait.taken, rest, rfl, by simp, Or.inl rfl⟩
      · intro _
        rfl
    | timed_out connected =>
      cases connected with
      | false =>
        constructor
        · intro _
          exact ⟨[], health_wait.timed_out false, rest, rfl, by simp, Or.inr rfl⟩
        · intro _
          rfl
      | true =>
        have e : (health_loop tick_ms client (health_wait.timed_out true :: rest)).2
            = (health_loop tick_ms client rest).2 := rfl
        rw [e, ih]
        constructor
        · rintro ⟨pre, w, post, h, hpre, hw⟩
          refine ⟨health_wait.timed_out true :: pre, w, post, by rw [h]; rfl, ?_, hw⟩
          intro x hx
          rcases List.mem_cons.mp hx with a | a
          · exact a
          · exact hpre x a
        · rintro ⟨pre, w, post, h, hpre, hw⟩
          cases pre with
          | nil =>
            simp only [List.nil_append, List.cons.injEq] at h
            rcases hw with a | a
            · rw [a] at h; exact absurd h.1 (by simp)
            · rw [a] at h; exact absurd h.1 (by simp)
          | cons p pre1 =>
            simp only [List.cons_append, List.cons.injEq] at h
            exact ⟨pre1, w, post, h.2, fun x hx => hpre x (List.mem_cons_of_mem _ hx), hw⟩

theorem cycle_again_of_successful (tick_ms client delay : Nat) (c : cycle_env)
    (h : fully_successful c = true) :
    (mqtt_client_cycle tick_ms client delay c).again = (health_loop tick_ms client c.health).2
    ∧ (mqtt_client_cycle tick_ms client delay c).delay = MQTT_CLIENT_DELAY_MIN := by
  unfold fully_successful at h
  unfold mqtt_client_cycle
  simp only []
  split_ifs <;> simp_all

/-- C23: a round of the inner loop of `mqtt_client_task` ends in `break` (back to
the reconnect step) exactly when `xSemaphoreTake` with the 10 s timeout took the
semaphore, or it timed out and `mqtt_client_is_connected` answers false; a
timeout with the session connected goes on to the next wait; no round changes
the variable `delay` or the control block (the stored result code).  Hence the
loop is left exactly when, after timeouts with the session connected only, a
wait of one of the two kinds comes, and a pass that reaches the loop is back at
the reconnect step exactly then, with `delay` at its reset value. -/
theorem health_loop_leaves_on_signal_or_disconnect (tick_ms client : Nat) :
    (∀ (ctrl : mqtt_client_ctrl_t) (delay : Nat) (w : health_wait),
        ((health_round tick_ms client ctrl delay w).1 = true
          ↔ (w = health_wait.taken ∨ w = health_wait.timed_out false))
        ∧ (health_round tick_ms client ctrl delay w).2.1 = ctrl
        ∧ (health_round tick_ms client ctrl delay w).2.2.1 = delay
        ∧ mqtt_call.semaphore_take (MQTT_CLIENT_CHECK_TIMEOUT tick_ms)
            ∈ (health_round tick_ms client ctrl delay w).2.2.2)
    ∧ (∀ (ctrl : mqtt_client_ctrl_t) (delay : Nat) (w : health_wait) (rest : List health_wait),
        health_loop tick_ms client (w :: rest)
          = if (health_round tick_ms client ctrl delay w).1 then
              ((health_round tick_ms client ctrl delay w).2.2.2, true)
            else
              ((health_round tick_ms client ctrl delay w).2.2.2
                  ++ (health_loop tick_ms client rest).1,
               (health_loop tick_ms client rest).2))
    ∧ (∀ ws : List health_wait,
        (health_loop tick_ms client ws).2 = true
          ↔ ∃ pre w post, ws = pre ++ w :: post
              ∧ (∀ x ∈ pre, x = health_wait.timed_out true)
              ∧ (w = health_wait.taken ∨ w = health_wait.timed_out false))
    ∧ (∀ (delay : Nat) (c : cycle_env), fully_successful c = true →
        (mqtt_client_cycle tick_ms client delay c).again
            = (health_loop tick_ms client c.health).2
          ∧ (mqtt_client_cycle tick_ms client delay c).delay = MQTT_CLIENT_DELAY_MIN) := by
  refine ⟨?_, ?_, health_loop_breaks_iff tick_ms client, ?_⟩
  · intro ctrl delay w
    cases w with
    | taken => simp [health_round]
    | timed_out connected => cases connected <;> simp [health_round]
  · intro ctrl delay w rest
    exact health_loop_cons tick_ms client ctrl delay w rest
  · intro delay c h
    exact cycle_again_of_successful tick_ms client delay c h

theorem health_loop_leaves_on_signal_or_disconnect_witness :
    fully_successful cycle_signalled = true
    ∧ (mqtt_client_cycle 10 7 400 cycle_signalled).again
        = (health_loop 10 7 cycle_signalled.health).2
    ∧ (mqtt_client_cycle 10 7 400 cycle_signalled).delay = MQTT_CLIENT_DELAY_MIN
    ∧ (health_loop 10 7 cycle_signalled.health).2 = true :=
  ⟨by decide,
   ((health_loop_leaves_on_signal_or_disconnect 10 7).2.2.2 400 cycle_signalled (by decide)).1,
   ((health_loop_leaves_on_signal_or_disconnect 10 7).2.2.2 400 cycle_signalled (by decide)).2,
   by decide⟩

/-! ## Order of the steps of one connection attempt -/

/-- C24: in one pass of the outer loop of `mqtt_client_task`, `mqtt_subscribe` is
called only if the wait for the connect callback took the semaphore and read
the result code `MQTT_ERROR_OK`, and the inner loop is reached only if that holds
and, when a subscribe topic is configured, the wait for the subscribe callback
did the same; a wait that times out or reads another result code sends the
pass back to the top of the loop without the next step: after such a connect
wait no subscribe is called, and after such a connect or subscribe wait the
inner loop is not reached. -/
theorem steps_wait_for_their_results (tick_ms client delay : Nat) (c : cycle_env) :
    (mqtt_call.subscribe ∈ (mqtt_client_cycle tick_ms client delay c).calls →
        c.connect_taken = true ∧ c.connect_error = MQTT_ERROR_OK)
    ∧ ((mqtt_client_cycle tick_ms client delay c).connected = true →
        c.connect_taken = true ∧ c.connect_error = MQTT_ERROR_OK
          ∧ (c.sub_topic = true →
              c.subscribe_taken = true ∧ c.subscribe_error = MQTT_ERROR_OK))
    ∧ (c.connect_taken = false ∨ c.connect_error ≠ MQTT_ERROR_OK →
        (mqtt_client_cycle tick_ms client delay c).again = true
          ∧ mqtt_call.subscribe ∉ (mqtt_client_cycle tick_ms client delay c).calls
          ∧ (mqtt_client_cycle tick_ms client delay c).connected = false)
    ∧ (c.sub_topic = true →
        c.subscribe_taken = false ∨ c.subscribe_error ≠ MQTT_ERROR_OK →
        (mqtt_client_cycle tick_ms client delay c).again = true
          ∧ (mqtt_client_cycle tick_ms client delay c).connected = false) := by
  have hconn := cycle_connected_iff tick_ms client delay c
  refine ⟨?_, ?_, ?_, ?_⟩
  · unfold mqtt_client_cycle
    simp only []
    split_ifs <;> simp_all
  · rw [hconn]
    unfold fully_successful
    intro h
    simp only [Bool.and_eq_true, Bool.or_eq_true, Bool.not_eq_true', beq_iff_eq] at h
    refine ⟨h.1.1.2, h.1.2, fun hs => ?_⟩
    rcases h.2 with a | a
    · rw [hs] at a; cases a
    · exact ⟨a.1.2, a.2⟩
  · intro h
    refine ⟨?_, ?_, ?_⟩
    · unfold mqtt_client_cycle
      simp only []
      split_ifs <;> simp_all
    · unfold mqtt_client_cycle
      simp only []
      split_ifs <;> simp_all
    · rw [hconn]
      unfold fully_successful
      rcases h with a | a <;> simp [a]
  · intro hs h
    refine ⟨?_, ?_⟩
    · unfold mqtt_client_cycle
      simp only []
      split_ifs <;> simp_all
    · rw [hconn]
      unfold fully_successful
      rcases h with a | a <;> simp [a, hs]

theorem steps_wait_for_their_results_witness :
    (mqtt_client_cycle 10 7 100 { cycle_connected with connect_taken := false }).again = true
    ∧ mqtt_call.subscribe
        ∉ (mqtt_client_cycle 10 7 100 { cycle_connected with connect_taken := false }).calls
    ∧ (mqtt_client_cycle 10 7 100 { cycle_connected with connect_taken := false }).connected
        = false :=
  (steps_wait_for_their_results 10 7 100 { cycle_connected with connect_taken := false }).2.2.1
    (Or.inl rfl)

/-! ## The publish-completion callback -/

/-- C25: called with a control block and a result other than `ERR_OK`, the
callback `mqtt_pub_request_cb` stores `MQTT_ERROR_PUBLISH` in the field `error`, leaves
the other fields as they were and gives the semaphore once; called with
`ERR_OK` it returns the control block unchanged and does not give the
semaphore. -/
theorem pub_request_cb_signals_failure_only (ctrl : mqtt_client_ctrl_t) (result : Int) :
    (result ≠ ERR_OK →
        mqtt_pub_request_cb (some ctrl) result
          = (some { mqtt_client := ctrl.mqtt_client, error := MQTT_ERROR_PUBLISH }, 1))
    ∧ (result = ERR_OK → mqtt_pub_request_cb (some ctrl) result = (some ctrl, 0)) := by
  constructor
  · intro h
    simp [mqtt_pub_request_cb, h]
  · intro h
    simp [mqtt_pub_request_cb, h]

theorem pub_request_cb_signals_failure_only_witness :
    mqtt_pub_request_cb (some { mqtt_client := some 7, error := MQTT_ERROR_OK }) ERR_CONN
      = (some { mqtt_client := some 7, error := MQTT_ERROR_PUBLISH }, 1) :=
  (pub_request_cb_signals_failure_only { mqtt_client := some 7, error := MQTT_ERROR_OK }
    ERR_CONN).1 (by decide)

end Mqtt

namespace Http

open Ota (strstr bytesOf)

/-! ## The length checks of the POST branch -/

theorem sub_u32_lt (a b : Int) : sub_u32 a b < UINT32_MOD := by
  unfold sub_u32
  have h1 : (a - b) % (UINT32_MOD : Int) < (UINT32_MOD : Int) :=
    Int.emod_lt_of_pos _ (by unfold UINT32_MOD; norm_num)
  have h0 : 0 ≤ (a - b) % (UINT32_MOD : Int) :=
    Int.emod_nonneg _ (by unfold UINT32_MOD; norm_num)
  omega

theorem accepted_length (n : Nat) (hn : n < UINT32_MOD)
    (h : (n + 1) % UINT32_MOD < 24 + 1) : n ≤ 23 ∨ n = 4294967295 := by
  unfold UINT32_MOD at hn h
  omega

/-- C29 (code at the failing input): the tests `str_len + 1 < sizeof(ssid)` and
`str_len + 1 < sizeof(pass)` are made in 32-bit unsigned arithmetic, where
`str_len = 4294967295` gives `str_len + 1 = 0`.  For a POST body
"wifi_ssid=wifi_pass=secret" the SSID is accepted with a copy of 4294967295
bytes into the 25-byte buffer, and for a request that ends with "wifi_pass"
the password is; for the body "wifi_ssid=home&wifi_pass=secret" the copies are
4 and 6 bytes.  For every request an accepted copy is of at most 23 bytes or of
exactly 4294967295 bytes. -/
theorem length_check_wraps_at_minus_one :
    http_request empty_ssid_request empty_ssid_request.length false false
      = some { got_ssid := true, got_pass := true, ssid_copy := some 4294967295,
               pass_copy := some 6 }
    ∧ http_request cut_pass_request cut_pass_request.length false false
      = some { got_ssid := true, got_pass := true, ssid_copy := some 4,
               pass_copy := some 4294967295 }
    ∧ http_request form_request form_request.length false false
      = some { got_ssid := true, got_pass := true, ssid_copy := some 4, pass_copy := some 6 }
    ∧ (∀ (rcv_buf : List Nat) (rcv_len : Nat) (got_ssid got_pass : Bool) (n : Nat),
        (parse_post rcv_buf rcv_len got_ssid got_pass).ssid_copy = some n
          ∨ (parse_post rcv_buf rcv_len got_ssid got_pass).pass_copy = some n →
        n ≤ 23 ∨ n = 4294967295) := by
  refine ⟨by decide, by decide, by decide, ?_⟩
  intro rcv_buf rcv_len got_ssid got_pass n h
  unfold parse_post at h
  split at h
  · simp at h
  · split at h
    · simp at h
    · simp only [WIFI_SSID_LEN_MAX, WIFI_PASS_LEN_MAX] at h
      rcases h with h | h
      · split_ifs at h with hc
        simp only [Option.some.injEq] at h
        rw [← h]
        exact accepted_length _ (sub_u32_lt _ _) (by simpa using hc)
      · split_ifs at h with hc
        simp only [Option.some.injEq] at h
        rw [← h]
        exact accepted_length _ (sub_u32_lt _ _) (by simpa using hc)

end Http

namespace Ups

/-! ## The battery state -/

theorem clamped_input_good (v : Int) : ((if v < 0 then 0 else v) > V_IN_GOOD) ↔ v > V_IN_GOOD := by
  unfold V_IN_GOOD
  split <;> omega

/-- C30 (counterexample): when the ADC reads of the first iteration fail, the
second iteration still runs with `first_time` set: with a battery voltage of
13000 mV and an input voltage of 0 mV it connects the disconnected battery,
although the input voltage does not exceed 15000 mV. -/
theorem battery_connected_without_input_voltage :
    main_task_loop (main_vars_init 0) [none, some on_battery]
      = [(⟨0, true, false, 0, 0, 0, 1⟩,
          [ups_event.gpio_set_level GPIO_BLUE_LED 0, ups_event.vTaskDelay 1]),
         (⟨1, false, true, 13000, 500, 0, 1⟩,
          [ups_event.gpio_set_level GPIO_BLUE_LED 1,
           ups_event.gpio_set_level GPIO_BATTERY_CONTROL BATTERY_CONNECT])]
    ∧ ¬ (on_battery.v_in > V_IN_GOOD) := by
  decide

/-- C30 (amended): in every iteration of the control loop whose four ADC reads
succeed and that comes after an earlier such iteration (`first_time` is false),
a disconnected battery is connected exactly when the input voltage exceeds
15000 mV and the filtered battery voltage exceeds 12500 mV, and a connected
battery is disconnected exactly when the filtered battery voltage is below
11750 mV.  In every iteration the battery control output is written only when
`bat_connected` changes, with the level of the new value; an iteration whose ADC
reads fail changes neither `bat_connected` nor `first_time` and does not write the
output. -/
theorem battery_switch_rule (vars : main_vars) (a : adc_values) :
    (vars.first_time = false →
        (main_iteration vars (some a)).1.v_bat_prev = low_pass vars.v_bat_prev a.v_bat
        ∧ (vars.bat_connected = false →
            ((main_iteration vars (some a)).1.bat_connected = true
              ↔ (a.v_in > V_IN_GOOD
                  ∧ (main_iteration vars (some a)).1.v_bat_prev > V_BAT_CHARGED)))
        ∧ (vars.bat_connected = true →
            ((main_iteration vars (some a)).1.bat_connected = false
              ↔ (main_iteration vars (some a)).1.v_bat_prev < V_BAT_DISCHARGED)))
    ∧ (main_iteration vars (some a)).1.first_time = false
    ∧ (∀ level, ups_event.gpio_set_level GPIO_BATTERY_CONTROL level
          ∈ (main_iteration vars (some a)).2 →
        level = relay_level (main_iteration vars (some a)).1.bat_connected
          ∧ (main_iteration vars (some a)).1.bat_connected ≠ vars.bat_connected)
    ∧ ((main_iteration vars (some a)).1.bat_connected ≠ vars.bat_connected →
        ups_event.gpio_set_level GPIO_BATTERY_CONTROL
            (relay_level (main_iteration vars (some a)).1.bat_connected)
          ∈ (main_iteration vars (some a)).2)
    ∧ (main_iteration vars none).1.bat_connected = vars.bat_connected
    ∧ (main_iteration vars none).1.first_time = vars.first_time
    ∧ (∀ level, ups_event.gpio_set_level GPIO_BATTERY_CONTROL level
          ∉ (main_iteration vars none).2) := by
  refine ⟨?_, ?_, ?_, ?_, rfl, rfl, ?_⟩
  · intro hft
    refine ⟨?_, ?_, ?_⟩
    · unfold main_iteration
      simp only [hft, Bool.false_eq_true, if_false]
      split_ifs <;> rfl
    · intro hb
      have hin := clamped_input_good a.v_in
      unfold main_iteration
      simp only [hft, hb, Bool.false_eq_true, if_false, Bool.or_false, decide_eq_true_eq]
      split_ifs <;> simp_all
    · intro hb
      unfold main_iteration
      simp only [hft, hb, if_true]
      split_ifs <;> simp_all
  · unfold main_iteration
    simp only []
    split_ifs <;> rfl
  · intro level
    unfold main_iteration
    simp only []
    split_ifs <;>
      simp_all [relay_level, BATTERY_CONNECT, BATTERY_DISCONNECT, GPIO_BATTERY_CONTROL,
        GPIO_BLUE_LED]
  · unfold main_iteration
    simp only []
    split_ifs <;>
      simp_all [relay_level, BATTERY_CONNECT, BATTERY_DISCONNECT, GPIO_BATTERY_CONTROL,
        GPIO_BLUE_LED]
  · intro level
    simp [main_iteration, GPIO_BATTERY_CONTROL, GPIO_BLUE_LED]

theorem battery_switch_rule_witness :
    (main_iteration vars_disconnected (some on_mains)).1.v_bat_prev = 12520
    ∧ ((main_iteration vars_disconnected (some on_mains)).1.bat_connected = true
        ↔ (on_mains.v_in > V_IN_GOOD
            ∧ (main_iteration vars_disconnected (some on_mains)).1.v_bat_prev > V_BAT_CHARGED))
    ∧ (main_iteration vars_disconnected (some on_mains)).1.bat_connected = true
    ∧ (main_iteration vars_disconnected (some on_battery)).1.bat_connected = false :=
  ⟨by decide,
   ((battery_switch_rule vars_disconnected on_mains).1 rfl).2.1 rfl,
   by decide, by decide⟩

end Ups
